import Mathlib

/-!
RIO (RED with In and Out) queue discipline.

A shallow embedding of `src/traffic-control/model/rio-queue-disc.{h,cc}`.

* `double` members are exact rationals (`ℚ`); `pow (x, m)` with an unsigned `m` is `x ^ m`.
  Where a result depends on the rounding of the `double` operations, the section
  "Double arithmetic" restates the function with the rounding as a parameter; `fl64` is
  the rounding of binary64.
* `uint32_t` members of the class are natural numbers and every arithmetic operation on
  them is reduced modulo `2 ^ 32` (`u32`, `sub32`); the occupancy that the internal queue
  reports is the exact number of packets or bytes it holds.
* `Simulator::Now ()`, the stream `m_uv` and the internal `DropTailQueue` are collaborators:
  the clock is an argument `now` (nanoseconds), the stream is a function `uv : Nat → ℚ`
  read at the position `uvPos`, and the internal queue is a list with a capacity.
* `Classify (item)` belongs to the `QueueDisc` base class; its answer for an item is the
  field `flow` of the item, so that it is the same at enqueue and at dequeue.
-/

namespace RioQ

/-! ## Machine integers -/

/-- Reduction of a natural number to the range of `uint32_t`. -/
def u32 (n : Nat) : Nat := n % 4294967296

/-- Subtraction `a - b` of two `uint32_t` values; it wraps around below zero. -/
def sub32 (a b : Nat) : Nat := (a + (4294967296 - b % 4294967296)) % 4294967296

/-- Conversion `uint32_t (x)` of a `double`: the integral part, kept in range. -/
def toU32 (x : ℚ) : Nat := u32 (Int.toNat (Int.floor x))

/-- Conversion `Time::GetSeconds` of a time given in nanoseconds. -/
def GetSeconds (t : Int) : ℚ := (t : ℚ) / 1000000000

/-! ## Data model -/

/-- Enumeration `QueueDiscMode` of the header. -/
inductive QueueDiscMode where
  | QUEUE_DISC_MODE_PACKETS
  | QUEUE_DISC_MODE_BYTES
  deriving DecidableEq, Repr

/-- Drop types of the header (`DTYPE_NONE`, `DTYPE_FORCED`, `DTYPE_UNFORCED`). -/
inductive DropType where
  | DTYPE_NONE
  | DTYPE_FORCED
  | DTYPE_UNFORCED
  deriving DecidableEq, Repr

open QueueDiscMode DropType

/-- Statistics record `Stats` of the header. -/
structure Stats where
  unforcedDrop : Nat
  forcedDrop : Nat
  qLimDrop : Nat
  unforcedMark : Nat
  forcedMark : Nat
  deriving DecidableEq, Repr

/-- A queue item: the packet uid, `GetSize ()`, the answer of `Classify` for it and
whether `Mark ()` succeeds (as `RioQueueDiscTestItem::Mark` of the test suite). -/
structure QueueDiscItem where
  uid : Nat
  size : Nat
  flow : Int
  ecnCapable : Bool
  deriving DecidableEq, Repr

/-- The classifier collaborator `Classify (item)`. -/
def Classify (item : QueueDiscItem) : Int := item.flow

/-- The capability `item->Mark ()`. -/
def Mark (item : QueueDiscItem) : Bool := item.ecnCapable

/-- The internal queue `GetInternalQueue (0)`: a drop-tail FIFO with a capacity in
packets or in bytes, according to its own mode. -/
structure InternalQueue where
  items : List QueueDiscItem
  mode : QueueDiscMode
  maxPackets : Nat
  maxBytes : Nat
  deriving DecidableEq, Repr

namespace InternalQueue

/-- Number of packets stored. -/
def GetNPackets (q : InternalQueue) : Nat := q.items.length

/-- Number of bytes stored. -/
def GetNBytes (q : InternalQueue) : Nat := (q.items.map QueueDiscItem.size).sum

/-- Emptiness test. -/
def IsEmpty (q : InternalQueue) : Bool := q.items.isEmpty

/-- Tail insertion; it fails when the capacity of the queue would be exceeded. -/
def Enqueue (q : InternalQueue) (item : QueueDiscItem) : Bool × InternalQueue :=
  if q.mode = QUEUE_DISC_MODE_PACKETS ∧ q.GetNPackets ≥ q.maxPackets then (false, q)
  else if q.mode = QUEUE_DISC_MODE_BYTES ∧ q.GetNBytes + item.size > q.maxBytes then (false, q)
  else (true, { q with items := q.items ++ [item] })

/-- Head removal. -/
def Dequeue (q : InternalQueue) : Option QueueDiscItem × InternalQueue :=
  match q.items with
  | [] => (none, q)
  | x :: rest => (some x, { q with items := rest })

/-- Head inspection. -/
def Peek (q : InternalQueue) : Option QueueDiscItem := q.items.head?

end InternalQueue

/-- The members of class `RioQueueDisc` (header lines 198-257), the position `uvPos` of
the stream `m_uv` and the internal queue. -/
structure RioQueueDisc where
  m_stats : Stats
  m_mode : QueueDiscMode
  m_meanPktSize : Nat
  m_isWait : Bool
  m_isGentleIn : Bool
  m_isGentleOut : Bool
  m_minThIn : ℚ
  m_maxThIn : ℚ
  m_minThOut : ℚ
  m_maxThOut : ℚ
  m_queueLimit : Nat
  m_qW : ℚ
  m_isNs1Compat : Bool
  m_linkBandwidth : Nat
  m_linkDelay : Int
  m_useEcn : Bool
  m_useHardDrop : Bool
  m_lIntermIn : ℚ
  m_lIntermOut : ℚ
  m_curMaxPIn : ℚ
  m_curMaxPOut : ℚ
  m_flow : Int
  m_vProb1Out : ℚ
  m_vAOut : ℚ
  m_vBOut : ℚ
  m_vCOut : ℚ
  m_vDOut : ℚ
  m_vProbOut : ℚ
  m_countBytesOut : Nat
  m_oldOut : Nat
  m_idle : Bool
  m_vProb1In : ℚ
  m_vAIn : ℚ
  m_vBIn : ℚ
  m_vCIn : ℚ
  m_vDIn : ℚ
  m_vProbIn : ℚ
  m_countBytesIn : Nat
  m_countBytes : Nat
  m_oldIn : Nat
  m_idleIn : Bool
  m_ptc : ℚ
  m_qAvg : ℚ
  m_qAvgIn : ℚ
  m_count : Nat
  m_countOut : Nat
  m_countIn : Nat
  m_idleTime : Int
  uvPos : Nat
  inlen : Nat
  inbcount : Nat
  m_priorityMethod : Nat
  queue : InternalQueue
  deriving DecidableEq

/-! ## Accessors -/

/-- Source: `RioQueueDisc::SetTh`; a failed `NS_ASSERT` is `none`. -/
def SetTh (minThIn maxThIn minThOut maxThOut : ℚ) (s : RioQueueDisc) : Option RioQueueDisc :=
  if ¬ (minThIn ≤ maxThIn) then none
  else if ¬ (minThOut ≤ maxThOut) then none
  else some { s with m_minThIn := minThIn, m_maxThIn := maxThIn,
                     m_minThOut := minThOut, m_maxThOut := maxThOut }

/-- Source: `RioQueueDisc::GetStats`. -/
def GetStats (s : RioQueueDisc) : Stats := s.m_stats

/-- Source: `RioQueueDisc::GetQueueSize`. -/
def GetQueueSize (s : RioQueueDisc) : Nat :=
  if s.m_mode = QUEUE_DISC_MODE_BYTES then s.queue.GetNBytes
  else s.queue.GetNPackets

/-! ## Dequeue and peek -/

/-- Source: `RioQueueDisc::DoDequeue` (lines 207-253). -/
def DoDequeue (now : Int) (s : RioQueueDisc) : Option QueueDiscItem × RioQueueDisc :=
  let r : Option QueueDiscItem × RioQueueDisc :=
    if s.queue.IsEmpty then
      (none, { s with m_idle := true, m_idleTime := now })
    else
      let d := s.queue.Dequeue
      (d.1, { s with m_idle := false, queue := d.2 })
  match r.1 with
  | some p =>
    let s1 := { r.2 with m_flow := Classify p }
    if s1.m_flow ≠ 0 then
      (some p, { s1 with m_idleIn := false,
                         inbcount := sub32 s1.inbcount p.size,
                         inlen := sub32 s1.inlen 1 })
    else (some p, s1)
  | none => (none, { r.2 with m_idleIn := true })

/-- Source: `RioQueueDisc::DoPeek` (lines 781-797); it is `const`. -/
def DoPeek (s : RioQueueDisc) : Option QueueDiscItem :=
  if s.queue.IsEmpty then none else s.queue.Peek

/-! ## Estimator and drop probability -/

/-- Source: `RioQueueDisc::Estimator` (lines 256-265). -/
def Estimator (nQueued m : Nat) (qAvg qW : ℚ) : ℚ :=
  let newAve := qAvg * (1 - qW) ^ m
  let newAve := newAve + qW * (nQueued : ℚ)
  newAve

/-- Source: `RioQueueDisc::CalculatePNew` (lines 620-658). -/
def CalculatePNew (qAvg maxTh : ℚ) (isGentle : Bool) (vA vB vC vD maxP : ℚ) : ℚ :=
  let p : ℚ :=
    if isGentle = true ∧ qAvg ≥ maxTh then vC * qAvg + vD
    else if isGentle = false ∧ qAvg ≥ maxTh then 1
    else (vA * qAvg + vB) * maxP
  if p > 1 then 1 else p

/-- Source: `RioQueueDisc::ModifyP` (lines 660-710); `mode` is `GetMode ()`. -/
def ModifyP (mode : QueueDiscMode) (p : ℚ) (count countBytes meanPktSize : Nat)
    (isWait : Bool) (size : Nat) : ℚ :=
  let count1 : ℚ :=
    if mode = QUEUE_DISC_MODE_BYTES then ((countBytes / meanPktSize : Nat) : ℚ)
    else (count : ℚ)
  let p : ℚ :=
    if isWait = true then
      if count1 * p < 1 then 0
      else if count1 * p < 2 then p / (2 - count1 * p)
      else 1
    else
      if count1 * p < 1 then p / (1 - count1 * p)
      else 1
  let p : ℚ :=
    if mode = QUEUE_DISC_MODE_BYTES ∧ p < 1 then (p * (size : ℚ)) / (meanPktSize : ℚ)
    else p
  if p > 1 then 1 else p

/-- Source: `RioQueueDisc::DropInEarly` (lines 717-743). -/
def DropInEarly (uv : Nat → ℚ) (item : QueueDiscItem) (_qSize : Nat) (s : RioQueueDisc) :
    Nat × RioQueueDisc :=
  let s := { s with m_vProb1In := CalculatePNew s.m_qAvgIn s.m_maxThIn s.m_isGentleIn
                                    s.m_vAIn s.m_vBIn s.m_vCIn s.m_vDIn s.m_curMaxPIn }
  let s := { s with m_vProbIn := ModifyP s.m_mode s.m_vProb1In s.m_countIn s.m_countBytesIn
                                   s.m_meanPktSize s.m_isWait item.size }
  let u := uv s.uvPos
  let s := { s with uvPos := s.uvPos + 1 }
  if u ≤ s.m_vProbIn then (1, { s with m_countIn := 0, m_countBytesIn := 0 })
  else (0, s)

/-- Source: `RioQueueDisc::DropOutEarly` (lines 746-778). -/
def DropOutEarly (uv : Nat → ℚ) (item : QueueDiscItem) (_qSize : Nat) (s : RioQueueDisc) :
    Nat × RioQueueDisc :=
  let s := { s with m_vProb1Out := CalculatePNew s.m_qAvg s.m_maxThOut s.m_isGentleOut
                                     s.m_vAOut s.m_vBOut s.m_vCOut s.m_vDOut s.m_curMaxPOut }
  let s := { s with m_vProbOut := ModifyP s.m_mode s.m_vProb1Out s.m_countOut s.m_countBytesOut
                                    s.m_meanPktSize s.m_isWait item.size }
  let u := uv s.uvPos
  let s := { s with uvPos := s.uvPos + 1 }
  if u ≤ s.m_vProbOut then (1, { s with m_countOut := 0, m_countBytesOut := 0 })
  else (1, s)

/-! ## Enqueue -/

/-- Source: `DoEnqueue`, lines 475-489: the In packet is handed to the internal queue and
the In occupancy is raised. -/
def admitIn (item : QueueDiscItem) (s : RioQueueDisc) : Bool × RioQueueDisc :=
  let r := s.queue.Enqueue item
  let s := { s with queue := r.2 }
  let s := { s with inlen := u32 (s.inlen + 1) }
  let s := { s with inbcount := u32 (s.inbcount + item.size) }
  let s := if r.1 = false then
      { s with m_stats := { s.m_stats with qLimDrop := u32 (s.m_stats.qLimDrop + 1) } }
    else s
  (r.1, s)

/-- Source: `DoEnqueue`, lines 599-612: the Out packet is handed to the internal queue. -/
def admitOut (item : QueueDiscItem) (s : RioQueueDisc) : Bool × RioQueueDisc :=
  let r := s.queue.Enqueue item
  let s := { s with queue := r.2 }
  let s := if r.1 = false then
      { s with m_stats := { s.m_stats with qLimDrop := u32 (s.m_stats.qLimDrop + 1) } }
    else s
  (r.1, s)

/-- Source: `DoEnqueue`, lines 310-339: classification, occupancy of the internal queue
and of its In part, idle compensation and the combined average. The result is
`(qLen, qLenIn, state)`. -/
def enqueueCommon (now : Int) (item : QueueDiscItem) (s : RioQueueDisc) :
    Nat × Nat × RioQueueDisc :=
  let s := if s.m_priorityMethod = 1 then { s with m_flow := Classify item } else s
  let qLen := if s.m_mode = QUEUE_DISC_MODE_BYTES then s.queue.GetNBytes
    else s.queue.GetNPackets
  let qLenIn := if s.m_mode = QUEUE_DISC_MODE_BYTES then s.inbcount else s.inlen
  let m : Nat := if s.m_idle = true then toU32 (s.m_ptc * GetSeconds (now - s.m_idleTime))
    else 0
  let s := { s with m_idle := false }
  let s := { s with m_qAvg := Estimator qLen (u32 (m + 1)) s.m_qAvg s.m_qW }
  (qLen, qLenIn, s)

/-- Source: `DoEnqueue`, lines 351-382: idle compensation and the In average, then the
tallies of arriving traffic. -/
def tallyIn (now : Int) (item : QueueDiscItem) (qLenIn : Nat) (s : RioQueueDisc) :
    RioQueueDisc :=
  let m_in : Nat := if s.m_idleIn = true
    then toU32 (s.m_ptc * GetSeconds (now - s.m_idleTime)) else 0
  let s := { s with m_idleIn := false }
  let s := { s with m_qAvgIn := Estimator qLenIn (u32 (m_in + 1)) s.m_qAvgIn s.m_qW }
  let s := { s with m_count := u32 (s.m_count + 1) }
  let s := { s with m_countBytes := u32 (s.m_countBytes + item.size) }
  let s := { s with m_countIn := u32 (s.m_countIn + 1) }
  let s := { s with m_countBytesIn := u32 (s.m_countBytesIn + item.size) }
  s

/-- Source: `DoEnqueue`, lines 398-429: the RED part of the drop logic for an In packet. -/
def redLogicIn (uv : Nat → ℚ) (item : QueueDiscItem) (qLen qLenIn : Nat)
    (s : RioQueueDisc) : DropType × RioQueueDisc :=
  if s.m_qAvgIn ≥ s.m_minThIn ∧ qLenIn > 1 then
    if (s.m_isGentleIn = false ∧ s.m_qAvgIn ≥ s.m_maxThIn)
        ∨ (s.m_isGentleIn = true ∧ s.m_qAvgIn ≥ 2 * s.m_maxThIn) then
      (DTYPE_FORCED, s)
    else if s.m_oldIn = 0 then
      (DTYPE_NONE, { s with m_countIn := 1, m_countBytesIn := item.size, m_oldIn := 1 })
    else
      let d := DropInEarly uv item qLen s
      if d.1 ≠ 0 then (DTYPE_UNFORCED, d.2) else (DTYPE_NONE, d.2)
  else
    (DTYPE_NONE, { s with m_vProbIn := 0, m_oldIn := 0 })

/-- Source: `DoEnqueue`, lines 398-434: the drop logic for an In packet; the test of the
queue limit comes last. -/
def dropLogicIn (uv : Nat → ℚ) (item : QueueDiscItem) (qLen qLenIn : Nat)
    (s : RioQueueDisc) : DropType × RioQueueDisc :=
  let r := redLogicIn uv item qLen qLenIn s
  if qLen ≥ r.2.m_queueLimit then (DTYPE_FORCED, r.2) else r

/-- Source: `DoEnqueue`, lines 351-434: the verdict for an In packet. -/
def verdictIn (uv : Nat → ℚ) (now : Int) (item : QueueDiscItem) (qLen qLenIn : Nat)
    (s : RioQueueDisc) : DropType × RioQueueDisc :=
  dropLogicIn uv item qLen qLenIn (tallyIn now item qLenIn s)

/-- Source: `DoEnqueue`, lines 436-489: the verdict for an In packet is applied. -/
def applyIn (dropType : DropType) (item : QueueDiscItem) (s : RioQueueDisc) :
    Bool × RioQueueDisc :=
  match dropType with
  | DTYPE_UNFORCED =>
    if s.m_useEcn = false ∨ Mark item = false then
      let s := { s with m_stats :=
        { s.m_stats with unforcedDrop := u32 (s.m_stats.unforcedDrop + 1) } }
      let s := { s with inlen := sub32 s.inlen 1 }
      let s := { s with inbcount := sub32 s.inbcount item.size }
      (false, s)
    else
      admitIn item { s with m_stats :=
        { s.m_stats with unforcedMark := u32 (s.m_stats.unforcedMark + 1) } }
  | DTYPE_FORCED =>
    if s.m_useHardDrop = true ∨ s.m_useEcn = false ∨ Mark item = false then
      let s := { s with m_stats :=
        { s.m_stats with forcedDrop := u32 (s.m_stats.forcedDrop + 1) } }
      let s := { s with inlen := sub32 s.inlen 1 }
      let s := { s with inbcount := sub32 s.inbcount item.size }
      let s := if s.m_isNs1Compat = true then
          { s with m_count := 0, m_countBytes := 0, m_countIn := 0, m_countBytesIn := 0 }
        else s
      (false, s)
    else
      admitIn item { s with m_stats :=
        { s.m_stats with forcedMark := u32 (s.m_stats.forcedMark + 1) } }
  | DTYPE_NONE => admitIn item s

/-- Source: `DoEnqueue`, lines 501-506: the tallies of arriving traffic. -/
def tallyOut (item : QueueDiscItem) (s : RioQueueDisc) : RioQueueDisc :=
  let s := { s with m_count := u32 (s.m_count + 1) }
  let s := { s with m_countBytes := u32 (s.m_countBytes + item.size) }
  let s := { s with m_countOut := u32 (s.m_countOut + 1) }
  let s := { s with m_countBytesOut := u32 (s.m_countBytesOut + item.size) }
  s

/-- Source: `DoEnqueue`, lines 522-560: the RED part of the drop logic for an Out
packet. -/
def redLogicOut (uv : Nat → ℚ) (item : QueueDiscItem) (qLen : Nat) (s : RioQueueDisc) :
    DropType × RioQueueDisc :=
  if s.m_qAvg ≥ s.m_minThOut ∧ qLen > 1 then
    if (s.m_isGentleOut = false ∧ s.m_qAvg ≥ s.m_maxThOut)
        ∨ (s.m_isGentleOut = true ∧ s.m_qAvg ≥ 2 * s.m_maxThOut) then
      (DTYPE_FORCED, s)
    else if s.m_oldOut = 0 then
      (DTYPE_NONE, { s with m_countOut := 1, m_countBytesOut := item.size, m_oldOut := 1 })
    else
      let d := DropOutEarly uv item qLen s
      if d.1 ≠ 0 then (DTYPE_UNFORCED, d.2) else (DTYPE_NONE, d.2)
  else
    (DTYPE_NONE, { s with m_vProbOut := 0, m_oldOut := 0 })

/-- Source: `DoEnqueue`, lines 522-565: the drop logic for an Out packet; the test of the
queue limit comes last. -/
def dropLogicOut (uv : Nat → ℚ) (item : QueueDiscItem) (qLen : Nat) (s : RioQueueDisc) :
    DropType × RioQueueDisc :=
  let r := redLogicOut uv item qLen s
  if qLen ≥ r.2.m_queueLimit then (DTYPE_FORCED, r.2) else r

/-- Source: `DoEnqueue`, lines 501-565: the verdict for an Out packet. -/
def verdictOut (uv : Nat → ℚ) (item : QueueDiscItem) (qLen : Nat) (s : RioQueueDisc) :
    DropType × RioQueueDisc :=
  dropLogicOut uv item qLen (tallyOut item s)

/-- Source: `DoEnqueue`, lines 567-612: the verdict for an Out packet is applied. -/
def applyOut (dropType : DropType) (item : QueueDiscItem) (s : RioQueueDisc) :
    Bool × RioQueueDisc :=
  match dropType with
  | DTYPE_UNFORCED =>
    if s.m_useEcn = false ∨ Mark item = false then
      (false, { s with m_stats :=
        { s.m_stats with unforcedDrop := u32 (s.m_stats.unforcedDrop + 1) } })
    else
      admitOut item { s with m_stats :=
        { s.m_stats with unforcedMark := u32 (s.m_stats.unforcedMark + 1) } }
  | DTYPE_FORCED =>
    if s.m_useHardDrop = true ∨ s.m_useEcn = false ∨ Mark item = false then
      let s := { s with m_stats :=
        { s.m_stats with forcedDrop := u32 (s.m_stats.forcedDrop + 1) } }
      let s := if s.m_isNs1Compat = true then
          { s with m_countOut := 0, m_countBytesOut := 0 }
        else s
      (false, s)
    else
      admitOut item { s with m_stats :=
        { s.m_stats with forcedMark := u32 (s.m_stats.forcedMark + 1) } }
  | DTYPE_NONE => admitOut item s

/-- The verdict (`dropType`) that `DoEnqueue` reaches at line 436 (In) or 567 (Out),
with the state at that point. -/
def enqueueVerdict (uv : Nat → ℚ) (now : Int) (item : QueueDiscItem) (s : RioQueueDisc) :
    DropType × RioQueueDisc :=
  let c := enqueueCommon now item s
  if c.2.2.m_flow ≠ 0 then verdictIn uv now item c.1 c.2.1 c.2.2
  else verdictOut uv item c.1 c.2.2

/-- Source: `RioQueueDisc::DoEnqueue` (lines 304-616). -/
def DoEnqueue (uv : Nat → ℚ) (now : Int) (item : QueueDiscItem) (s : RioQueueDisc) :
    Bool × RioQueueDisc :=
  let c := enqueueCommon now item s
  if c.2.2.m_flow ≠ 0 then
    let v := verdictIn uv now item c.1 c.2.1 c.2.2
    applyIn v.1 item v.2
  else
    let v := verdictOut uv item c.1 c.2.2
    applyOut v.1 item v.2

/-! ## Initialization -/

/-- Source: `InitializeParams`, lines 860-886: the packet time constant and the default
thresholds of a class whose two thresholds are both zero. -/
def defaultThresholds (s : RioQueueDisc) : RioQueueDisc :=
  let s := { s with m_ptc := (s.m_linkBandwidth : ℚ) / (8 * (s.m_meanPktSize : ℚ)) }
  let s := if s.m_minThIn = 0 ∧ s.m_maxThIn = 0 then
      { s with m_minThIn := (if s.m_mode = QUEUE_DISC_MODE_BYTES
                              then 15 * (s.m_meanPktSize : ℚ) else 15),
               m_maxThIn := 30 }
    else s
  let s := if s.m_minThOut = 0 ∧ s.m_maxThOut = 0 then
      { s with m_minThOut := (if s.m_mode = QUEUE_DISC_MODE_BYTES
                               then 5 * (s.m_meanPktSize : ℚ) else 5),
               m_maxThOut := 15 }
    else s
  s

/-- Source: `InitializeParams`, lines 889-909: statistics and run-time state are reset. -/
def resetRuntime (s : RioQueueDisc) : RioQueueDisc :=
  { s with m_stats := { unforcedDrop := 0, forcedDrop := 0, qLimDrop := 0,
                        unforcedMark := 0, forcedMark := 0 },
           m_qAvg := 0, m_qAvgIn := 0, m_countOut := 0, m_countIn := 0,
           m_countBytesOut := 0, m_countBytesIn := 0, m_oldOut := 0,
           m_oldIn := 0, m_idle := true, m_idleIn := true,
           inlen := 0, inbcount := 0, m_priorityMethod := 1 }

/-- Source: `InitializeParams`, lines 911-924: the coefficients of the In class. -/
def coefficientsIn (s : RioQueueDisc) : RioQueueDisc :=
  let th_diffIn : ℚ := s.m_maxThIn - s.m_minThIn
  let th_diffIn : ℚ := if th_diffIn = 0 then 1 else th_diffIn
  let s := { s with m_vAIn := 1 / th_diffIn,
                    m_curMaxPIn := 1 / s.m_lIntermIn,
                    m_vBIn := - s.m_minThIn / th_diffIn }
  if s.m_isGentleIn = true then
    { s with m_vCIn := (1 - s.m_curMaxPIn) / s.m_maxThIn,
             m_vDIn := 2 * s.m_curMaxPIn - 1 }
  else s

/-- Source: `InitializeParams`, lines 926-939: the coefficients of the Out class. -/
def coefficientsOut (s : RioQueueDisc) : RioQueueDisc :=
  let th_diffOut : ℚ := s.m_maxThOut - s.m_minThOut
  let th_diffOut : ℚ := if th_diffOut = 0 then 1 else th_diffOut
  let s := { s with m_vAOut := 1 / th_diffOut,
                    m_curMaxPOut := 1 / s.m_lIntermOut,
                    m_vBOut := - s.m_minThOut / th_diffOut }
  if s.m_isGentleOut = true then
    { s with m_vCOut := (1 - s.m_curMaxPOut) / s.m_maxThOut,
             m_vDOut := 2 * s.m_curMaxPOut - 1 }
  else s

/-- Source: `InitializeParams`, lines 941-973: the idle start and the queue weight;
`expF` stands for `std::exp`. -/
def queueWeight (expF : ℚ → ℚ) (s : RioQueueDisc) : RioQueueDisc :=
  let s := { s with m_idleTime := 0 }
  if s.m_qW = 0 then { s with m_qW := 1 - expF (-1 / s.m_ptc) }
  else if s.m_qW = -1 then
    let rtt : ℚ := 3 * (GetSeconds s.m_linkDelay + 1 / s.m_ptc)
    let rtt : ℚ := if rtt < 1 / 10 then 1 / 10 else rtt
    { s with m_qW := 1 - expF (-1 / (10 * rtt * s.m_ptc)) }
  else if s.m_qW = -2 then { s with m_qW := 1 - expF (-10 / s.m_ptc) }
  else s

/-- Source: `RioQueueDisc::InitializeParams` (lines 854-987). A failed `NS_ASSERT` is
`none`; `expF` stands for `std::exp`, which is needed only when the configured queue
weight is `0`, `-1` or `-2`. -/
def InitializeParams (expF : ℚ → ℚ) (s : RioQueueDisc) : Option RioQueueDisc :=
  let s := defaultThresholds s
  if ¬ (s.m_minThIn ≤ s.m_maxThIn) then none
  else if ¬ (s.m_minThOut ≤ s.m_maxThOut) then none
  else some (queueWeight expF (coefficientsOut (coefficientsIn (resetRuntime s))))

/-- The attribute defaults of `GetTypeId` (lines 22-122) on a new object; members that
the constructor leaves unset are zero and the internal queue is still empty. -/
def defaults : RioQueueDisc :=
  { m_stats := { unforcedDrop := 0, forcedDrop := 0, qLimDrop := 0,
                 unforcedMark := 0, forcedMark := 0 },
    m_mode := QUEUE_DISC_MODE_PACKETS, m_meanPktSize := 500, m_isWait := true,
    m_isGentleIn := true, m_isGentleOut := true,
    m_minThIn := 15, m_maxThIn := 30, m_minThOut := 5, m_maxThOut := 15,
    m_queueLimit := 25, m_qW := 2 / 1000, m_isNs1Compat := false,
    m_linkBandwidth := 1500000, m_linkDelay := 20000000,
    m_useEcn := false, m_useHardDrop := true, m_lIntermIn := 50, m_lIntermOut := 50,
    m_curMaxPIn := 0, m_curMaxPOut := 0, m_flow := 0,
    m_vProb1Out := 0, m_vAOut := 0, m_vBOut := 0, m_vCOut := 0, m_vDOut := 0,
    m_vProbOut := 0, m_countBytesOut := 0, m_oldOut := 0, m_idle := false,
    m_vProb1In := 0, m_vAIn := 0, m_vBIn := 0, m_vCIn := 0, m_vDIn := 0,
    m_vProbIn := 0, m_countBytesIn := 0, m_countBytes := 0, m_oldIn := 0,
    m_idleIn := false, m_ptc := 0, m_qAvg := 0, m_qAvgIn := 0,
    m_count := 0, m_countOut := 0, m_countIn := 0, m_idleTime := 0,
    uvPos := 0, inlen := 0, inbcount := 0, m_priorityMethod := 1,
    queue := { items := [], mode := QUEUE_DISC_MODE_PACKETS,
               maxPackets := 100, maxBytes := 6553500 } }

/-- Source: `RioQueueDisc::CheckConfig`, lines 816-829: the drop-tail queue that is
created when no internal queue was supplied; its capacity is the queue limit. -/
def createInternalQueue (s : RioQueueDisc) : RioQueueDisc :=
  { s with queue :=
      if s.m_mode = QUEUE_DISC_MODE_PACKETS then
        { items := [], mode := s.m_mode, maxPackets := s.m_queueLimit, maxBytes := 6553500 }
      else
        { items := [], mode := s.m_mode, maxPackets := 100, maxBytes := s.m_queueLimit } }

/-- The engine after `queue->Initialize ()` on a configured object: `CheckConfig` creates
the internal queue, then `InitializeParams` runs. -/
def freshEngine (expF : ℚ → ℚ) (config : RioQueueDisc) : Option RioQueueDisc :=
  InitializeParams expF (createInternalQueue config)

/-! ## Runs -/

/-- The calls a scheduler makes on the queue disc, with the clock at each call. -/
inductive Event where
  | enqueue (now : Int) (item : QueueDiscItem)
  | dequeue (now : Int)
  | peek
  deriving DecidableEq, Repr

/-- One call on the queue disc. -/
def step (uv : Nat → ℚ) (s : RioQueueDisc) : Event → RioQueueDisc
  | Event.enqueue now item => (DoEnqueue uv now item s).2
  | Event.dequeue now => (DoDequeue now s).2
  | Event.peek => s

/-- A sequence of calls, from the left. -/
def run (uv : Nat → ℚ) (s : RioQueueDisc) (evs : List Event) : RioQueueDisc :=
  evs.foldl (step uv) s

/-- Total of the three drop counters. -/
def totalDrops (s : RioQueueDisc) : Nat :=
  s.m_stats.forcedDrop + s.m_stats.unforcedDrop + s.m_stats.qLimDrop

/-! ## Concrete inputs -/

/-- A constant stream of draws. -/
def constStream (u : ℚ) : Nat → ℚ := fun _ => u

/-- A packet of the given uid and size that the classifier puts in the Out class (flow 0)
and that refuses a mark. -/
def outPacket (uid size : Nat) : QueueDiscItem :=
  { uid := uid, size := size, flow := 0, ecnCapable := false }

/-- A packet of the given uid and size that the classifier puts in the In class (flow 1)
and that refuses a mark. -/
def inPacket (uid size : Nat) : QueueDiscItem :=
  { uid := uid, size := size, flow := 1, ecnCapable := false }

/-- The engine initialised from the attribute defaults (Out thresholds 5 and 15) once its
combined average has reached 6 with three Out packets counted since the last drop. -/
def engineAvgSix : Option RioQueueDisc :=
  (freshEngine id defaults).map (fun s => { s with m_qAvg := 6, m_countOut := 3, m_oldOut := 1 })

/-- The engine initialised from the attribute defaults. -/
def initDefaults : RioQueueDisc := (freshEngine id defaults).getD defaults

/-- The engine that `freshEngine` returns for a configuration (the configuration itself
if the initialization is rejected). -/
def engineOf (config : RioQueueDisc) : RioQueueDisc := (freshEngine id config).getD config

/-- A configuration with a queue limit of two packets, otherwise the attribute defaults. -/
def limitTwo : RioQueueDisc := { defaults with m_queueLimit := 2 }

/-- The engine of `limitTwo` after two Out packets were admitted: its queue is full. -/
def fullEngine : RioQueueDisc :=
  run (constStream 0) (engineOf limitTwo)
    [Event.enqueue 0 (outPacket 1 100), Event.enqueue 0 (outPacket 2 100)]

/-- A sequence of `Enqueue` calls, each with the clock at the call; the results of the
calls and the final state. -/
def enqueueAll (uv : Nat → ℚ) (s : RioQueueDisc) :
    List (Int × QueueDiscItem) → List Bool × RioQueueDisc
  | [] => ([], s)
  | a :: rest =>
    ((DoEnqueue uv a.1 a.2 s).1 :: (enqueueAll uv (DoEnqueue uv a.1 a.2 s).2 rest).1,
     (enqueueAll uv (DoEnqueue uv a.1 a.2 s).2 rest).2)

/-- A sequence of `Dequeue` calls, each with the clock at the call; the packets returned
and the final state. -/
def dequeueAll (s : RioQueueDisc) : List Int → List (Option QueueDiscItem) × RioQueueDisc
  | [] => ([], s)
  | now :: rest =>
    ((DoDequeue now s).1 :: (dequeueAll (DoDequeue now s).2 rest).1,
     (dequeueAll (DoDequeue now s).2 rest).2)

/-- What `GetQueueSize` reports for a queue that holds the given packets: their number in
packet mode, the sum of their sizes in byte mode. -/
def occupancy (mode : QueueDiscMode) (items : List QueueDiscItem) : Nat :=
  if mode = QUEUE_DISC_MODE_BYTES then (items.map QueueDiscItem.size).sum else items.length

/-- Scenario A (test 1 of the test suite, packet mode): thresholds 2 and 5 for both
classes, queue limit 8, queue weight 0.002. -/
def scenarioA : RioQueueDisc :=
  { defaults with m_minThIn := 2, m_maxThIn := 5, m_minThOut := 2, m_maxThOut := 5,
                  m_queueLimit := 8, m_qW := 2 / 1000 }

/-- The eight packets of scenario A (size 0 in packet mode), all of one class, arriving
with the clock at 0. -/
def arrivalsA (flow : Int) : List (Int × QueueDiscItem) :=
  (List.range 8).map (fun i => (0, { uid := i + 1, size := 0, flow := flow, ecnCapable := false }))

/-- Scenario B (test 2 of the test suite, packet mode): thresholds 10 and 30 for In, 3 and
9 for Out, queue limit 300, `LInterm` 10 for both classes; the queue weight keeps its
default 0.002. -/
def scenarioB : RioQueueDisc :=
  { defaults with m_minThIn := 10, m_maxThIn := 30, m_minThOut := 3, m_maxThOut := 9,
                  m_queueLimit := 300, m_lIntermIn := 10, m_lIntermOut := 10 }

/-- Scenario C as the test suite sets it up (test 3, packet mode, a new object): thresholds
10 and 20 for In, 3 and 5 for Out, queue limit 300, queue weight 0.02. -/
def scenarioC : RioQueueDisc :=
  { defaults with m_minThIn := 10, m_maxThIn := 20, m_minThOut := 3, m_maxThOut := 5,
                  m_queueLimit := 300, m_qW := 20 / 1000 }

/-- Scenario C as the specification words it: scenario B with the In maximum threshold
lowered from 30 to 20 and the queue weight raised from 0.002 to 0.02. -/
def scenarioCSpec : RioQueueDisc :=
  { scenarioB with m_maxThIn := 20, m_qW := 20 / 1000 }

/-- Scenario B in byte mode, as the test suite sets it up with packets of 500 bytes: the
thresholds and the queue limit are multiplied by 500. -/
def scenarioBBytes : RioQueueDisc :=
  { defaults with m_mode := QUEUE_DISC_MODE_BYTES,
                  m_minThIn := 5000, m_maxThIn := 15000, m_minThOut := 1500,
                  m_maxThOut := 4500, m_queueLimit := 150000,
                  m_lIntermIn := 10, m_lIntermOut := 10 }

/-- The number of calls of a run of arrivals that returned false (the packet was dropped)
for packets of the In class (`inClass = true`) or of the Out class (`inClass = false`). -/
def dropsOfClass (inClass : Bool) (uv : Nat → ℚ) (s : RioQueueDisc)
    (arr : List (Int × QueueDiscItem)) : Nat :=
  (((enqueueAll uv s arr).1.zip arr).filter
    (fun p => p.1 = false ∧ (decide (Classify p.2.2 ≠ 0) = inClass))).length

/-! ### A reduced machine for arrivals of Out packets without ECN

For an Out packet and with ECN disabled, the outcome of `DoEnqueue` depends only on the
combined average, the Out threshold flag, the occupancy and the configuration. The
definitions below restate lines 304-339 and 501-612 on these; they serve the proofs about
the scenarios. -/

/-- The configuration read when an Out packet arrives. -/
structure OutCfg where
  byteMode : Bool
  qW : ℚ
  minTh : ℚ
  maxTh : ℚ
  gentle : Bool
  limit : Nat
  cap : Nat
  deriving DecidableEq

/-- The state read and written when an Out packet arrives. -/
structure OutView where
  qAvg : ℚ
  old : Nat
  qLen : Nat
  stats : Stats
  deriving DecidableEq

/-- The reduced configuration of an engine. -/
def outCfg (s : RioQueueDisc) : OutCfg :=
  { byteMode := decide (s.m_mode = QUEUE_DISC_MODE_BYTES), qW := s.m_qW,
    minTh := s.m_minThOut, maxTh := s.m_maxThOut, gentle := s.m_isGentleOut,
    limit := s.m_queueLimit,
    cap := if s.m_mode = QUEUE_DISC_MODE_BYTES then s.queue.maxBytes else s.queue.maxPackets }

/-- The reduced state of an engine. -/
def outView (s : RioQueueDisc) : OutView :=
  { qAvg := s.m_qAvg, old := s.m_oldOut, qLen := GetQueueSize s, stats := s.m_stats }

/-- The verdict of the RED part of the drop logic (lines 531-560) and the new value of
the Out threshold flag. -/
def redOut (c : OutCfg) (qAvg : ℚ) (qLen old : Nat) : DropType × Nat :=
  if qAvg ≥ c.minTh ∧ qLen > 1 then
    if (c.gentle = false ∧ qAvg ≥ c.maxTh) ∨ (c.gentle = true ∧ qAvg ≥ 2 * c.maxTh) then
      (DTYPE_FORCED, old)
    else if old = 0 then (DTYPE_NONE, 1)
    else (DTYPE_UNFORCED, old)
  else (DTYPE_NONE, 0)

/-- The verdict after the queue-limit test (lines 561-565). -/
def verdictOfOut (c : OutCfg) (qAvg : ℚ) (qLen old : Nat) : DropType :=
  if qLen ≥ c.limit then DTYPE_FORCED else (redOut c qAvg qLen old).1

/-- The verdict applied with ECN disabled (lines 567-612): the result of the call, the
occupancy and the statistics. -/
def outApply (c : OutCfg) (size : Nat) (dropType : DropType) (qLen : Nat) (stats : Stats) :
    Bool × Nat × Stats :=
  match dropType with
  | DTYPE_UNFORCED =>
    (false, qLen, { stats with unforcedDrop := u32 (stats.unforcedDrop + 1) })
  | DTYPE_FORCED =>
    (false, qLen, { stats with forcedDrop := u32 (stats.forcedDrop + 1) })
  | DTYPE_NONE =>
    if (c.byteMode = false ∧ qLen ≥ c.cap) ∨ (c.byteMode = true ∧ qLen + size > c.cap) then
      (false, qLen, { stats with qLimDrop := u32 (stats.qLimDrop + 1) })
    else
      (true, qLen + (if c.byteMode = true then size else 1), stats)

/-- One arrival of an Out packet of `size` bytes on the reduced machine. -/
def outStep (c : OutCfg) (size : Nat) (v : OutView) : Bool × OutView :=
  let qAvg := Estimator v.qLen 1 v.qAvg c.qW
  let a := outApply c size (verdictOfOut c qAvg v.qLen v.old) v.qLen v.stats
  (a.1, { qAvg := qAvg, old := (redOut c qAvg v.qLen v.old).2, qLen := a.2.1, stats := a.2.2 })

/-- What the reduced machine requires of an engine: the class of a packet is taken from
the classifier, ECN is disabled, the internal queue has the mode of the queue disc, and
an idle engine has a zero average (as after the initialization). -/
def OutReady (s : RioQueueDisc) : Prop :=
  s.m_priorityMethod = 1 ∧ s.m_useEcn = false ∧ s.queue.mode = s.m_mode
    ∧ (s.m_idle = true → s.m_qAvg = 0)

/-- The reduced machine on `n` arrivals of Out packets of `size` bytes. -/
def outRun (c : OutCfg) (size : Nat) : Nat → OutView → List Bool × OutView
  | 0, v => ([], v)
  | n + 1, v =>
    ((outStep c size v).1 :: (outRun c size n (outStep c size v).2).1,
     (outRun c size n (outStep c size v).2).2)
/-- Three hundred Out packets of the given size, arriving with the clock at 0. -/
def outArrivals (size : Nat) : List (Int × QueueDiscItem) :=
  (List.range 300).map (fun i => (0, outPacket i size))

/-- The hysteresis formula of `ModifyP` (lines 672-697) on the packets-equivalent `c` of
the counter. -/
def hysteresis (isWait : Bool) (c p : ℚ) : ℚ :=
  if isWait = true then
    if c * p < 1 then 0
    else if c * p < 2 then p / (2 - c * p)
    else 1
  else
    if c * p < 1 then p / (1 - c * p)
    else 1

/-- The end of `ModifyP` (lines 699-709): the rescaling by the packet size in byte mode
and the clamp at 1. -/
def rescale (mode : QueueDiscMode) (size meanPktSize : Nat) (x : ℚ) : ℚ :=
  let p : ℚ :=
    if mode = QUEUE_DISC_MODE_BYTES ∧ x < 1 then (x * (size : ℚ)) / (meanPktSize : ℚ)
    else x
  if p > 1 then 1 else p

/-- The test of lines 403-404 and 533-534: the average is at or above the maximum
threshold (twice the maximum threshold in gentle mode). -/
def forcedByAverage (isGentle : Bool) (qAvg maxTh : ℚ) : Prop :=
  (isGentle = false ∧ qAvg ≥ maxTh) ∨ (isGentle = true ∧ qAvg ≥ 2 * maxTh)

/-- An engine initialised from the attribute defaults in which the In class is above its
minimum threshold: In average 20, five In packets queued, 100 In packets counted since the
last drop. -/
def engineInEarly : RioQueueDisc :=
  { initDefaults with m_qAvgIn := 20, inlen := 5, m_oldIn := 1, m_idle := false,
                      m_idleIn := false, m_countIn := 100 }

/-- The branches of `DoEnqueue` (lines 436-489 and 567-613) that reach the `Enqueue` of the
internal queue: the verdict NONE, the verdict UNFORCED with a mark (ECN enabled and the
packet accepts the mark), the verdict FORCED with a mark (hard drop disabled as well). -/
def verdictAdmits (dropType : DropType) (hard ecn mark : Bool) : Prop :=
  dropType = DTYPE_NONE
  ∨ (dropType = DTYPE_UNFORCED ∧ ecn = true ∧ mark = true)
  ∨ (dropType = DTYPE_FORCED ∧ hard = false ∧ ecn = true ∧ mark = true)

/-- Each of the five statistics of `after` is the one of `before` or its `uint32_t`
increment (`m_stats.x++`). -/
def statsAdvance (before after : Stats) : Prop :=
  (after.forcedDrop = before.forcedDrop ∨ after.forcedDrop = u32 (before.forcedDrop + 1))
  ∧ (after.unforcedDrop = before.unforcedDrop
      ∨ after.unforcedDrop = u32 (before.unforcedDrop + 1))
  ∧ (after.qLimDrop = before.qLimDrop ∨ after.qLimDrop = u32 (before.qLimDrop + 1))
  ∧ (after.forcedMark = before.forcedMark ∨ after.forcedMark = u32 (before.forcedMark + 1))
  ∧ (after.unforcedMark = before.unforcedMark
      ∨ after.unforcedMark = u32 (before.unforcedMark + 1))

/-- The engine `fullEngine` (full queue, hard drop) with `forcedDrop` at the largest value
of `uint32_t`. -/
def wrapEngine : RioQueueDisc :=
  { fullEngine with m_stats := { fullEngine.m_stats with forcedDrop := 4294967295 } }

/-- The engine initialised from the attribute defaults after one In packet of 100 bytes
was admitted. -/
def inHeadEngine : RioQueueDisc :=
  run (constStream 0) initDefaults [Event.enqueue 0 (inPacket 1 100)]

/-- The engine `wrapEngine` (two packets queued, statistics and averages in use) after
`InitializeParams` is run on it again. -/
def reinitEngine : RioQueueDisc := (InitializeParams id wrapEngine).getD wrapEngine

/-- The amplification of a base probability as the specification (section 4.3) words it,
on the packets-equivalent `n` of the counter: with wait, 0 when `n * p < 1`,
`p / (2 - n * p)` when `1 ≤ n * p < 2`, else 1; without wait, `p / (1 - n * p)` when
`n * p < 1`, else 1. -/
def specAmplify (wait : Bool) (p n : ℚ) : ℚ :=
  if wait = true then
    if n * p < 1 then 0
    else if 1 ≤ n * p ∧ n * p < 2 then p / (2 - n * p)
    else 1
  else
    if n * p < 1 then p / (1 - n * p)
    else 1

/-- The amplification in byte mode as the specification words it when the quotient
`countBytes / meanPktSize` is read as a quotient of real numbers: the formula on that
quotient, a result below 1 multiplied by `size / meanPktSize`, then the clamp at 1. -/
def specAmplifyBytesReal (wait : Bool) (p : ℚ) (countBytes meanPktSize size : Nat) : ℚ :=
  let q : ℚ := specAmplify wait p ((countBytes : ℚ) / (meanPktSize : ℚ))
  let q : ℚ := if q < 1 then q * (size : ℚ) / (meanPktSize : ℚ) else q
  min q 1

/-- The amplification in byte mode with the quotient `countBytes / meanPktSize` taken as
the integer quotient of the two unsigned values: the formula on that quotient, a result
below 1 multiplied by `size / meanPktSize`, then the clamp at 1. -/
def specAmplifyBytesInt (wait : Bool) (p : ℚ) (countBytes meanPktSize size : Nat) : ℚ :=
  let q : ℚ := specAmplify wait p (((countBytes / meanPktSize : Nat)) : ℚ)
  let q : ℚ := if q < 1 then q * (size : ℚ) / (meanPktSize : ℚ) else q
  min q 1

/-- The attribute defaults in byte mode with the four thresholds set to 0, the value that
selects the default thresholds in `InitializeParams`. -/
def zeroThBytes : RioQueueDisc :=
  { defaults with m_mode := QUEUE_DISC_MODE_BYTES,
                  m_minThIn := 0, m_maxThIn := 0, m_minThOut := 0, m_maxThOut := 0 }

/-- The attribute defaults with `LIntermIn` set to `-2`. -/
def negInterm : RioQueueDisc := { defaults with m_lIntermIn := -2 }

/-- The state that `InitializeParams` returns on `negInterm`. -/
def negIntermEngine : RioQueueDisc := (InitializeParams id negInterm).getD negInterm

/-- The number of virtual arrivals `m + 1` that `DoEnqueue` passes to `Estimator` (lines
330-339 for the combined average with `idle = m_idle`, lines 354-371 for the In average
with `idle = m_idleIn`): `m` is 0, or, when the idle flag is set, the product of `m_ptc`
and the idle time in seconds converted to `uint32_t`. -/
def virtualArrivals (idle : Bool) (now : Int) (s : RioQueueDisc) : Nat :=
  u32 ((if idle = true then toU32 (s.m_ptc * GetSeconds (now - s.m_idleTime)) else 0) + 1)

/-- The In occupancy `qLenIn` that `DoEnqueue` reads (lines 318-327): `inbcount` in byte
mode, `inlen` in packet mode. -/
def inOccupancy (s : RioQueueDisc) : Nat :=
  if s.m_mode = QUEUE_DISC_MODE_BYTES then s.inbcount else s.inlen

/-- The combined average `m_qAvg` after line 339 of `DoEnqueue`. -/
def updatedAvg (now : Int) (item : QueueDiscItem) (s : RioQueueDisc) : ℚ :=
  (enqueueCommon now item s).2.2.m_qAvg

/-- The In average `m_qAvgIn` after line 371 of `DoEnqueue`, for an In packet. -/
def updatedAvgIn (now : Int) (item : QueueDiscItem) (s : RioQueueDisc) : ℚ :=
  (tallyIn now item (enqueueCommon now item s).2.1 (enqueueCommon now item s).2.2).m_qAvgIn

/-- The state of `DoEnqueue` for an In packet when the drop logic begins (line 398). -/
def talliedIn (now : Int) (item : QueueDiscItem) (s : RioQueueDisc) : RioQueueDisc :=
  tallyIn now item (enqueueCommon now item s).2.1 (enqueueCommon now item s).2.2

/-- The state of `DoEnqueue` for an Out packet when the drop logic begins (line 522). -/
def talliedOut (now : Int) (item : QueueDiscItem) (s : RioQueueDisc) : RioQueueDisc :=
  tallyOut item (enqueueCommon now item s).2.2

/-- A configuration whose In thresholds are both 1, without the gentle ramp for In and
with the queue weight 1 (the average is the occupancy). -/
def unitThConfig : RioQueueDisc :=
  { defaults with m_minThIn := 1, m_maxThIn := 1, m_isGentleIn := false, m_qW := 1 }

/-- The engine of `unitThConfig` after one In packet was admitted. -/
def unitThEngine : RioQueueDisc :=
  run (constStream 0) (engineOf unitThConfig) [Event.enqueue 0 (inPacket 1 100)]

/-- A configuration in byte mode with a queue limit of 1000 bytes, In thresholds of 100
and 2000 bytes, Out thresholds of 500 and 1500 bytes and the queue weight 1/2. -/
def byteCrossConfig : RioQueueDisc :=
  { defaults with m_mode := QUEUE_DISC_MODE_BYTES, m_queueLimit := 1000,
                  m_minThIn := 100, m_maxThIn := 2000,
                  m_minThOut := 500, m_maxThOut := 1500, m_qW := 1 / 2 }

/-- The engine of `byteCrossConfig` after one In packet of 400 bytes was admitted. -/
def byteCrossEngine : RioQueueDisc :=
  run (constStream 0) (engineOf byteCrossConfig) [Event.enqueue 0 (inPacket 1 400)]

/-- The engine of `unitThConfig` after two In packets were admitted. -/
def unitThEngineTwo : RioQueueDisc :=
  run (constStream 0) unitThEngine [Event.enqueue 0 (inPacket 2 100)]

/-- The number of virtual arrivals as the specification (section 4.1) words it: 1, or,
when the idle flag was set, the product of the service rate in packets per second and the
idle time in seconds, rounded. -/
def specVirtualArrivals (idle : Bool) (ptc : ℚ) (now idleStart : Int) : Nat :=
  if idle = true then Int.toNat (round (ptc * GetSeconds (now - idleStart))) else 1

/-- The attribute defaults with the queue weight 1/2. -/
def halfWeight : RioQueueDisc := { defaults with m_qW := 1 / 2 }

/-- The engine of `halfWeight` after two Out packets were admitted and three `Dequeue`
calls were made at time 0: the queue is empty, the idle flag is set, the idle start is 0
and the combined average is 1/2. -/
def idleEngine : RioQueueDisc :=
  run (constStream 0) (engineOf halfWeight)
    [Event.enqueue 0 (outPacket 1 100), Event.enqueue 0 (outPacket 2 100),
     Event.dequeue 0, Event.dequeue 0, Event.dequeue 0]

/-- The engine `wrapEngine` (packets queued, statistics and averages in use) with the
queue weight set to 0, the value that makes `InitializeParams` derive it. -/
def zeroWeight : RioQueueDisc := { wrapEngine with m_qW := 0 }

/-- The state that `InitializeParams` returns on `zeroWeight` when `1/2` stands for every
value of `std::exp`. -/
def zeroWeightEngine : RioQueueDisc :=
  (InitializeParams (fun _ => 1 / 2) zeroWeight).getD zeroWeight

/-- Source: `RioQueueDisc::SetPriorityMethod` (lines 169-174). -/
def SetPriorityMethod (pri : Nat) (s : RioQueueDisc) : RioQueueDisc :=
  { s with m_priorityMethod := pri }

/-! ## Double arithmetic

The definitions above take the arithmetic of `double` as exact. The definitions of this
section restate the functions whose results depend on the rounding of that arithmetic,
with the rounding `rnd` of each operation as a parameter: `rnd = id` is the exact
arithmetic of the definitions above and `rnd = fl64` is the arithmetic of binary64 as long
as no operation overflows. -/

/-- The power of two with an integer exponent. -/
def pow2 (k : Int) : ℚ :=
  if 0 ≤ k then ((2 ^ k.toNat : Nat) : ℚ) else 1 / ((2 ^ (-k).toNat : Nat) : ℚ)

/-- The binary logarithm of a natural number, rounded down, in at most `fuel` halvings. -/
def floorLog2Aux : Nat → Nat → Nat
  | 0, _ => 0
  | fuel + 1, n => if n < 2 then 0 else floorLog2Aux fuel (n / 2) + 1

/-- The binary logarithm of a natural number, rounded down (0 for 0 and 1). -/
def floorLog2 (n : Nat) : Nat := floorLog2Aux n n

/-- The binary exponent of a positive rational `a`: the integer `e` with
`2 ^ e ≤ a < 2 ^ (e + 1)`. -/
def binExp (a : ℚ) : Int :=
  let e0 : Int := (floorLog2 a.num.natAbs : Int) - (floorLog2 a.den : Int)
  if pow2 e0 ≤ a then e0 else e0 - 1

/-- The nearest integer, the even one of the two when they are equally near. -/
def roundEven (x : ℚ) : Int :=
  let f := ⌊x⌋
  let r := x - (f : ℚ)
  if r < 1 / 2 then f
  else if 1 / 2 < r then f + 1
  else if f % 2 = 0 then f else f + 1

/-- The rounding of a real result to `double` (binary64, round to nearest, ties to even):
a significand of 53 bits, with the spacing `2 ^ (-1074)` below `2 ^ (-1022)`. Overflow is
not represented: the value is meant for results below `2 ^ 1024`. -/
def fl64 (x : ℚ) : ℚ :=
  if x = 0 then 0
  else
    let a := |x|
    let e := max (binExp a) (-1022)
    let q := pow2 (e - 52)
    let n := roundEven (a / q)
    if 0 < x then (n : ℚ) * q else -((n : ℚ) * q)

/-- Source: `RioQueueDisc::Estimator` (lines 256-265) with every operation rounded by
`rnd`; `pow` is taken as correctly rounded (with `m = 1` it returns its first
argument). -/
def EstimatorR (rnd : ℚ → ℚ) (nQueued m : Nat) (qAvg qW : ℚ) : ℚ :=
  let newAve := rnd (qAvg * rnd (rnd (1 - qW) ^ m))
  let newAve := rnd (newAve + rnd (qW * (nQueued : ℚ)))
  newAve

/-- Source: `RioQueueDisc::CalculatePNew` (lines 620-658) with every operation rounded by
`rnd`. -/
def CalculatePNewR (rnd : ℚ → ℚ) (qAvg maxTh : ℚ) (isGentle : Bool)
    (vA vB vC vD maxP : ℚ) : ℚ :=
  let p : ℚ :=
    if isGentle = true ∧ qAvg ≥ maxTh then rnd (rnd (vC * qAvg) + vD)
    else if isGentle = false ∧ qAvg ≥ maxTh then 1
    else rnd (rnd (rnd (vA * qAvg) + vB) * maxP)
  if p > 1 then 1 else p

/-- Source: `InitializeParams`, lines 860-886, with every operation rounded by `rnd`. -/
def defaultThresholdsR (rnd : ℚ → ℚ) (s : RioQueueDisc) : RioQueueDisc :=
  let s := { s with
    m_ptc := rnd (rnd (s.m_linkBandwidth : ℚ) / rnd (8 * (s.m_meanPktSize : ℚ))) }
  let s := if s.m_minThIn = 0 ∧ s.m_maxThIn = 0 then
      { s with m_minThIn := (if s.m_mode = QUEUE_DISC_MODE_BYTES
                              then rnd (15 * (s.m_meanPktSize : ℚ)) else 15),
               m_maxThIn := 30 }
    else s
  let s := if s.m_minThOut = 0 ∧ s.m_maxThOut = 0 then
      { s with m_minThOut := (if s.m_mode = QUEUE_DISC_MODE_BYTES
                               then rnd (5 * (s.m_meanPktSize : ℚ)) else 5),
               m_maxThOut := 15 }
    else s
  s

/-- Source: `InitializeParams`, lines 911-924, with every operation rounded by `rnd`. -/
def coefficientsInR (rnd : ℚ → ℚ) (s : RioQueueDisc) : RioQueueDisc :=
  let th_diffIn : ℚ := rnd (s.m_maxThIn - s.m_minThIn)
  let th_diffIn : ℚ := if th_diffIn = 0 then 1 else th_diffIn
  let s := { s with m_vAIn := rnd (1 / th_diffIn),
                    m_curMaxPIn := rnd (1 / s.m_lIntermIn),
                    m_vBIn := rnd (- s.m_minThIn / th_diffIn) }
  if s.m_isGentleIn = true then
    { s with m_vCIn := rnd (rnd (1 - s.m_curMaxPIn) / s.m_maxThIn),
             m_vDIn := rnd (rnd (2 * s.m_curMaxPIn) - 1) }
  else s

/-- Source: `InitializeParams`, lines 926-939, with every operation rounded by `rnd`. -/
def coefficientsOutR (rnd : ℚ → ℚ) (s : RioQueueDisc) : RioQueueDisc :=
  let th_diffOut : ℚ := rnd (s.m_maxThOut - s.m_minThOut)
  let th_diffOut : ℚ := if th_diffOut = 0 then 1 else th_diffOut
  let s := { s with m_vAOut := rnd (1 / th_diffOut),
                    m_curMaxPOut := rnd (1 / s.m_lIntermOut),
                    m_vBOut := rnd (- s.m_minThOut / th_diffOut) }
  if s.m_isGentleOut = true then
    { s with m_vCOut := rnd (rnd (1 - s.m_curMaxPOut) / s.m_maxThOut),
             m_vDOut := rnd (rnd (2 * s.m_curMaxPOut) - 1) }
  else s

/-- Source: `InitializeParams`, lines 941-973, with every operation rounded by `rnd`;
`expF` stands for `std::exp`. -/
def queueWeightR (rnd : ℚ → ℚ) (expF : ℚ → ℚ) (s : RioQueueDisc) : RioQueueDisc :=
  let s := { s with m_idleTime := 0 }
  if s.m_qW = 0 then { s with m_qW := rnd (1 - expF (rnd (-1 / s.m_ptc))) }
  else if s.m_qW = -1 then
    let rtt : ℚ := rnd (3 * rnd (rnd (GetSeconds s.m_linkDelay) + rnd (1 / s.m_ptc)))
    let rtt : ℚ := if rtt < rnd (1 / 10) then rnd (1 / 10) else rtt
    { s with m_qW := rnd (1 - expF (rnd (-1 / rnd (rnd (10 * rtt) * s.m_ptc)))) }
  else if s.m_qW = -2 then { s with m_qW := rnd (1 - expF (rnd (-10 / s.m_ptc))) }
  else s

/-- Source: `RioQueueDisc::InitializeParams` (lines 854-987) with every operation on a
`double` rounded by `rnd`. A failed `NS_ASSERT` is `none`. -/
def InitializeParamsR (rnd : ℚ → ℚ) (expF : ℚ → ℚ) (s : RioQueueDisc) :
    Option RioQueueDisc :=
  let s := defaultThresholdsR rnd s
  if ¬ (s.m_minThIn ≤ s.m_maxThIn) then none
  else if ¬ (s.m_minThOut ≤ s.m_maxThOut) then none
  else some (queueWeightR rnd expF (coefficientsOutR rnd (coefficientsInR rnd (resetRuntime s))))

/-- A configuration with a queue limit of two packets, the In minimum threshold 2 and the
queue weight 1 (the averages are the occupancies), otherwise the attribute defaults. -/
def crossLimitConfig : RioQueueDisc :=
  { defaults with m_minThIn := 2, m_qW := 1, m_queueLimit := 2 }

/-- The engine of `crossLimitConfig` after two In packets of 100 bytes were admitted: its
queue is full and the In average has not yet been seen at the minimum threshold. -/
def crossLimitEngine : RioQueueDisc :=
  run (constStream 0) (engineOf crossLimitConfig)
    [Event.enqueue 0 (inPacket 1 100), Event.enqueue 0 (inPacket 2 100)]

/-- The engine that the initialization returns for the attribute defaults when every
operation on a `double` is rounded to binary64. -/
def initDefaultsDouble : RioQueueDisc :=
  (InitializeParamsR fl64 id (createInternalQueue defaults)).getD defaults

/-! ## Theorems -/

/-- C9: `Estimator (nQueued, m, qAvg, qW)` is `qAvg * (1 - qW) ^ m + qW * nQueued`, for
every occupancy, every number of virtual arrivals, every previous average and every
weight. -/
theorem C9_estimator_formula (nQueued m : Nat) (qAvg qW : ℚ) :
    Estimator nQueued m qAvg qW = qAvg * (1 - qW) ^ m + qW * (nQueued : ℚ) := by
  simp only [Estimator]

/-- C3: with `p` the probability that `DropInEarly` computes (`ModifyP` of
`CalculatePNew` on the In average) and `u` the value drawn from the stream, the function
returns 1 exactly when `u ≤ p` and 0 otherwise; on 1 the In counters are set to zero and
on 0 they are left as they were. -/
theorem C3_dropInEarly_decision (uv : Nat → ℚ) (item : QueueDiscItem) (qSize : Nat)
    (s : RioQueueDisc) :
    ((DropInEarly uv item qSize s).1 = 1 ↔
      uv s.uvPos ≤ ModifyP s.m_mode
        (CalculatePNew s.m_qAvgIn s.m_maxThIn s.m_isGentleIn s.m_vAIn s.m_vBIn s.m_vCIn
          s.m_vDIn s.m_curMaxPIn)
        s.m_countIn s.m_countBytesIn s.m_meanPktSize s.m_isWait item.size)
    ∧ ((DropInEarly uv item qSize s).1 = 0 ↔
      ¬ uv s.uvPos ≤ ModifyP s.m_mode
        (CalculatePNew s.m_qAvgIn s.m_maxThIn s.m_isGentleIn s.m_vAIn s.m_vBIn s.m_vCIn
          s.m_vDIn s.m_curMaxPIn)
        s.m_countIn s.m_countBytesIn s.m_meanPktSize s.m_isWait item.size)
    ∧ ((DropInEarly uv item qSize s).1 = 1 →
        (DropInEarly uv item qSize s).2.m_countIn = 0
        ∧ (DropInEarly uv item qSize s).2.m_countBytesIn = 0)
    ∧ ((DropInEarly uv item qSize s).1 = 0 →
        (DropInEarly uv item qSize s).2.m_countIn = s.m_countIn
        ∧ (DropInEarly uv item qSize s).2.m_countBytesIn = s.m_countBytesIn) := by
  unfold DropInEarly
  by_cases h : uv s.uvPos ≤ ModifyP s.m_mode
        (CalculatePNew s.m_qAvgIn s.m_maxThIn s.m_isGentleIn s.m_vAIn s.m_vBIn s.m_vCIn
          s.m_vDIn s.m_curMaxPIn)
        s.m_countIn s.m_countBytesIn s.m_meanPktSize s.m_isWait item.size
  · simp [h]
  · simp [h]

/-- C2 (the code differs): on the engine `engineAvgSix` with the draw `u = 1/2` the
probability that `DropOutEarly` computes is `p = 0`, so `u > p`, and yet the function
returns 1 (drop); the counters of the Out class keep their values. -/
theorem C2_dropOutEarly_returns_one_above_p :
    engineAvgSix.map (fun s =>
      ((DropOutEarly (constStream (1 / 2)) (outPacket 7 500) 10 s).1,
       (DropOutEarly (constStream (1 / 2)) (outPacket 7 500) 10 s).2.m_vProbOut,
       (DropOutEarly (constStream (1 / 2)) (outPacket 7 500) 10 s).2.m_countOut,
       ModifyP s.m_mode
        (CalculatePNew s.m_qAvg s.m_maxThOut s.m_isGentleOut s.m_vAOut s.m_vBOut s.m_vCOut
          s.m_vDOut s.m_curMaxPOut)
        s.m_countOut s.m_countBytesOut s.m_meanPktSize s.m_isWait 500))
      = some (1, 0, 3, 0) := by
  decide!

/-- C10 (counterexample): on the engine initialised from the attribute defaults the Out
thresholds are 5 and 15, and for the average 0, below the minimum threshold,
`CalculatePNew` with the derived coefficients returns `-1/100`, not 0. -/
theorem C10_counterexample :
    (freshEngine id defaults).map (fun s =>
      (s.m_minThOut, s.m_maxThOut,
       CalculatePNew 0 s.m_maxThOut s.m_isGentleOut s.m_vAOut s.m_vBOut s.m_vCOut
          s.m_vDOut s.m_curMaxPOut))
      = some (5, 15, -1 / 100) := by
  decide!

/-! ### Initialization: the derived fields -/

/-- A successful initialization is the composition of its five stages, and the thresholds
it keeps are ordered. -/
theorem InitializeParams_some (expF : ℚ → ℚ) (cfg s : RioQueueDisc)
    (h : InitializeParams expF cfg = some s) :
    s = queueWeight expF (coefficientsOut (coefficientsIn (resetRuntime (defaultThresholds cfg))))
    ∧ (defaultThresholds cfg).m_minThIn ≤ (defaultThresholds cfg).m_maxThIn
    ∧ (defaultThresholds cfg).m_minThOut ≤ (defaultThresholds cfg).m_maxThOut := by
  unfold InitializeParams at h
  by_cases h1 : (defaultThresholds cfg).m_minThIn ≤ (defaultThresholds cfg).m_maxThIn
  · by_cases h2 : (defaultThresholds cfg).m_minThOut ≤ (defaultThresholds cfg).m_maxThOut
    · simp [h1, h2] at h
      exact ⟨h.symm, h1, h2⟩
    · simp [h1, h2] at h
  · simp [h1] at h

/-- The stage `coefficientsIn` as one record update. -/
theorem coefficientsIn_eq (s : RioQueueDisc) :
    coefficientsIn s =
      { s with
        m_vAIn := 1 / (if s.m_maxThIn - s.m_minThIn = 0 then 1 else s.m_maxThIn - s.m_minThIn),
        m_curMaxPIn := 1 / s.m_lIntermIn,
        m_vBIn := - s.m_minThIn
          / (if s.m_maxThIn - s.m_minThIn = 0 then 1 else s.m_maxThIn - s.m_minThIn),
        m_vCIn := if s.m_isGentleIn = true then (1 - 1 / s.m_lIntermIn) / s.m_maxThIn
          else s.m_vCIn,
        m_vDIn := if s.m_isGentleIn = true then 2 * (1 / s.m_lIntermIn) - 1 else s.m_vDIn } := by
  unfold coefficientsIn
  by_cases hg : s.m_isGentleIn = true <;> simp [hg]

/-- The stage `coefficientsOut` as one record update. -/
theorem coefficientsOut_eq (s : RioQueueDisc) :
    coefficientsOut s =
      { s with
        m_vAOut := 1
          / (if s.m_maxThOut - s.m_minThOut = 0 then 1 else s.m_maxThOut - s.m_minThOut),
        m_curMaxPOut := 1 / s.m_lIntermOut,
        m_vBOut := - s.m_minThOut
          / (if s.m_maxThOut - s.m_minThOut = 0 then 1 else s.m_maxThOut - s.m_minThOut),
        m_vCOut := if s.m_isGentleOut = true then (1 - 1 / s.m_lIntermOut) / s.m_maxThOut
          else s.m_vCOut,
        m_vDOut := if s.m_isGentleOut = true then 2 * (1 / s.m_lIntermOut) - 1
          else s.m_vDOut } := by
  unfold coefficientsOut
  by_cases hg : s.m_isGentleOut = true <;> simp [hg]

/-- The stage `queueWeight` changes the idle start and the queue weight only. -/
theorem queueWeight_eq (expF : ℚ → ℚ) (s : RioQueueDisc) :
    queueWeight expF s =
      { s with m_idleTime := 0, m_qW := (queueWeight expF s).m_qW } := by
  unfold queueWeight
  simp only []
  split_ifs <;> rfl

/-- The stage `defaultThresholds` as one record update. -/
theorem defaultThresholds_eq (s : RioQueueDisc) :
    defaultThresholds s =
      { s with
        m_ptc := (s.m_linkBandwidth : ℚ) / (8 * (s.m_meanPktSize : ℚ)),
        m_minThIn := if s.m_minThIn = 0 ∧ s.m_maxThIn = 0 then
            (if s.m_mode = QUEUE_DISC_MODE_BYTES then 15 * (s.m_meanPktSize : ℚ) else 15)
          else s.m_minThIn,
        m_maxThIn := if s.m_minThIn = 0 ∧ s.m_maxThIn = 0 then 30 else s.m_maxThIn,
        m_minThOut := if s.m_minThOut = 0 ∧ s.m_maxThOut = 0 then
            (if s.m_mode = QUEUE_DISC_MODE_BYTES then 5 * (s.m_meanPktSize : ℚ) else 5)
          else s.m_minThOut,
        m_maxThOut := if s.m_minThOut = 0 ∧ s.m_maxThOut = 0 then 15 else s.m_maxThOut } := by
  unfold defaultThresholds
  by_cases h1 : s.m_minThIn = 0 ∧ s.m_maxThIn = 0 <;>
    by_cases h2 : s.m_minThOut = 0 ∧ s.m_maxThOut = 0 <;> simp [h1, h2]

/-- Below the minimum threshold `CalculatePNew` returns the value of its last branch,
without a clamp, and with the derived coefficients that value is not positive. -/
theorem CalculatePNew_below_minTh (avg minTh maxTh : ℚ) (g : Bool) (vC vD l : ℚ)
    (h : minTh ≤ maxTh) (ha : avg < minTh) (hl : 0 < l) :
    CalculatePNew avg maxTh g
        (1 / (if maxTh - minTh = 0 then 1 else maxTh - minTh))
        (- minTh / (if maxTh - minTh = 0 then 1 else maxTh - minTh)) vC vD (1 / l)
      = (1 / (if maxTh - minTh = 0 then 1 else maxTh - minTh) * avg
          + - minTh / (if maxTh - minTh = 0 then 1 else maxTh - minTh)) * (1 / l)
    ∧ CalculatePNew avg maxTh g
        (1 / (if maxTh - minTh = 0 then 1 else maxTh - minTh))
        (- minTh / (if maxTh - minTh = 0 then 1 else maxTh - minTh)) vC vD (1 / l) ≤ 0 := by
  have hd : (0 : ℚ) < (if maxTh - minTh = 0 then 1 else maxTh - minTh) := by
    split_ifs with h0
    · exact one_pos
    · exact lt_of_le_of_ne (sub_nonneg.mpr h) (Ne.symm h0)
  generalize (if maxTh - minTh = 0 then 1 else maxTh - minTh) = d at hd ⊢
  have hlt : ¬ avg ≥ maxTh := not_le.mpr (lt_of_lt_of_le ha h)
  have hval : (1 / d * avg + - minTh / d) * (1 / l) = (1 / l) * (avg - minTh) / d := by
    field_simp
    ring
  have hneg : (1 / l) * (avg - minTh) / d < 0 := by
    apply div_neg_of_neg_of_pos _ hd
    exact mul_neg_of_pos_of_neg (one_div_pos.mpr hl) (sub_neg.mpr ha)
  have hnot : ¬ (1 / d * avg + - minTh / d) * (1 / l) > 1 := by
    rw [hval]; linarith
  unfold CalculatePNew
  simp only [hlt, and_false, if_false, hnot]
  refine ⟨trivial, ?_⟩
  rw [hval]
  exact le_of_lt hneg

/-! ### Enqueue: what each stage changes -/

/-- The occupancy that `DoEnqueue` reads is `GetQueueSize`. -/
theorem enqueueCommon_qLen (now : Int) (item : QueueDiscItem) (s : RioQueueDisc) :
    (enqueueCommon now item s).1 = GetQueueSize s := by
  unfold enqueueCommon GetQueueSize
  by_cases hp : s.m_priorityMethod = 1 <;> simp [hp]

/-- The In occupancy that `DoEnqueue` reads. -/
theorem enqueueCommon_qLenIn (now : Int) (item : QueueDiscItem) (s : RioQueueDisc) :
    (enqueueCommon now item s).2.1
      = if s.m_mode = QUEUE_DISC_MODE_BYTES then s.inbcount else s.inlen := by
  unfold enqueueCommon
  by_cases hp : s.m_priorityMethod = 1 <;> simp [hp]

/-- The common part of `DoEnqueue` changes the flow, the idle flag and the combined
average only. -/
theorem enqueueCommon_state (now : Int) (item : QueueDiscItem) (s : RioQueueDisc) :
    (enqueueCommon now item s).2.2 =
      { s with m_flow := (enqueueCommon now item s).2.2.m_flow,
               m_idle := false,
               m_qAvg := (enqueueCommon now item s).2.2.m_qAvg } := by
  unfold enqueueCommon
  by_cases hp : s.m_priorityMethod = 1 <;> simp [hp]

/-- The tallies of an In arrival change the In idle flag, the In average and the four
counters only. -/
theorem tallyIn_state (now : Int) (item : QueueDiscItem) (qLenIn : Nat) (s : RioQueueDisc) :
    tallyIn now item qLenIn s =
      { s with m_idleIn := false,
               m_qAvgIn := (tallyIn now item qLenIn s).m_qAvgIn,
               m_count := u32 (s.m_count + 1),
               m_countBytes := u32 (s.m_countBytes + item.size),
               m_countIn := u32 (s.m_countIn + 1),
               m_countBytesIn := u32 (s.m_countBytesIn + item.size) } := by
  unfold tallyIn
  rfl

/-- The tallies of an Out arrival change the four counters only. -/
theorem tallyOut_state (item : QueueDiscItem) (s : RioQueueDisc) :
    tallyOut item s =
      { s with m_count := u32 (s.m_count + 1),
               m_countBytes := u32 (s.m_countBytes + item.size),
               m_countOut := u32 (s.m_countOut + 1),
               m_countBytesOut := u32 (s.m_countBytesOut + item.size) } := by
  unfold tallyOut
  rfl

/-- The early-drop test of the In class changes the In probabilities, the In counters and
the position of the stream only. -/
theorem DropInEarly_state (uv : Nat → ℚ) (item : QueueDiscItem) (qSize : Nat)
    (s : RioQueueDisc) :
    (DropInEarly uv item qSize s).2 =
      { s with m_vProb1In := (DropInEarly uv item qSize s).2.m_vProb1In,
               m_vProbIn := (DropInEarly uv item qSize s).2.m_vProbIn,
               m_countIn := (DropInEarly uv item qSize s).2.m_countIn,
               m_countBytesIn := (DropInEarly uv item qSize s).2.m_countBytesIn,
               uvPos := s.uvPos + 1 } := by
  unfold DropInEarly
  simp only []
  split_ifs <;> rfl

/-- The early-drop test of the Out class changes the Out probabilities, the Out counters
and the position of the stream only. -/
theorem DropOutEarly_state (uv : Nat → ℚ) (item : QueueDiscItem) (qSize : Nat)
    (s : RioQueueDisc) :
    (DropOutEarly uv item qSize s).2 =
      { s with m_vProb1Out := (DropOutEarly uv item qSize s).2.m_vProb1Out,
               m_vProbOut := (DropOutEarly uv item qSize s).2.m_vProbOut,
               m_countOut := (DropOutEarly uv item qSize s).2.m_countOut,
               m_countBytesOut := (DropOutEarly uv item qSize s).2.m_countBytesOut,
               uvPos := s.uvPos + 1 } := by
  unfold DropOutEarly
  simp only []
  split_ifs <;> rfl

/-- The RED part of the drop logic of the In class changes the In probabilities, the In counters, the In
threshold flag and the position of the stream only. -/
theorem redLogicIn_state (uv : Nat → ℚ) (item : QueueDiscItem) (qLen qLenIn : Nat)
    (s : RioQueueDisc) :
    (redLogicIn uv item qLen qLenIn s).2 =
      { s with m_vProb1In := (redLogicIn uv item qLen qLenIn s).2.m_vProb1In,
               m_vProbIn := (redLogicIn uv item qLen qLenIn s).2.m_vProbIn,
               m_countIn := (redLogicIn uv item qLen qLenIn s).2.m_countIn,
               m_countBytesIn := (redLogicIn uv item qLen qLenIn s).2.m_countBytesIn,
               m_oldIn := (redLogicIn uv item qLen qLenIn s).2.m_oldIn,
               uvPos := (redLogicIn uv item qLen qLenIn s).2.uvPos } := by
  unfold redLogicIn
  simp only []
  split_ifs <;> first | rfl | rw [DropInEarly_state]

/-- The drop logic of the In class changes the In probabilities, the In counters, the In
threshold flag and the position of the stream only. -/
theorem dropLogicIn_state (uv : Nat → ℚ) (item : QueueDiscItem) (qLen qLenIn : Nat)
    (s : RioQueueDisc) :
    (dropLogicIn uv item qLen qLenIn s).2 =
      { s with m_vProb1In := (dropLogicIn uv item qLen qLenIn s).2.m_vProb1In,
               m_vProbIn := (dropLogicIn uv item qLen qLenIn s).2.m_vProbIn,
               m_countIn := (dropLogicIn uv item qLen qLenIn s).2.m_countIn,
               m_countBytesIn := (dropLogicIn uv item qLen qLenIn s).2.m_countBytesIn,
               m_oldIn := (dropLogicIn uv item qLen qLenIn s).2.m_oldIn,
               uvPos := (dropLogicIn uv item qLen qLenIn s).2.uvPos } := by
  unfold dropLogicIn
  simp only []
  split_ifs <;> rw [redLogicIn_state]

/-- The RED part of the drop logic of the Out class changes the Out probabilities, the Out counters, the
Out threshold flag and the position of the stream only. -/
theorem redLogicOut_state (uv : Nat → ℚ) (item : QueueDiscItem) (qLen : Nat)
    (s : RioQueueDisc) :
    (redLogicOut uv item qLen s).2 =
      { s with m_vProb1Out := (redLogicOut uv item qLen s).2.m_vProb1Out,
               m_vProbOut := (redLogicOut uv item qLen s).2.m_vProbOut,
               m_countOut := (redLogicOut uv item qLen s).2.m_countOut,
               m_countBytesOut := (redLogicOut uv item qLen s).2.m_countBytesOut,
               m_oldOut := (redLogicOut uv item qLen s).2.m_oldOut,
               uvPos := (redLogicOut uv item qLen s).2.uvPos } := by
  unfold redLogicOut
  simp only []
  split_ifs <;> first | rfl | rw [DropOutEarly_state]

/-- The drop logic of the Out class changes the Out probabilities, the Out counters, the
Out threshold flag and the position of the stream only. -/
theorem dropLogicOut_state (uv : Nat → ℚ) (item : QueueDiscItem) (qLen : Nat)
    (s : RioQueueDisc) :
    (dropLogicOut uv item qLen s).2 =
      { s with m_vProb1Out := (dropLogicOut uv item qLen s).2.m_vProb1Out,
               m_vProbOut := (dropLogicOut uv item qLen s).2.m_vProbOut,
               m_countOut := (dropLogicOut uv item qLen s).2.m_countOut,
               m_countBytesOut := (dropLogicOut uv item qLen s).2.m_countBytesOut,
               m_oldOut := (dropLogicOut uv item qLen s).2.m_oldOut,
               uvPos := (dropLogicOut uv item qLen s).2.uvPos } := by
  unfold dropLogicOut
  simp only []
  split_ifs <;> rw [redLogicOut_state]

/-- The queue-limit test that ends the drop logic. -/
theorem limit_override (qLen lim : Nat) (r : DropType × RioQueueDisc)
    (hr : r.2.m_queueLimit = lim) (h : qLen ≥ lim) :
    (if qLen ≥ r.2.m_queueLimit then (DTYPE_FORCED, r.2) else r) = (DTYPE_FORCED, r.2) := by
  rw [if_pos (by rw [hr]; exact h)]

/-- At or above the queue limit the drop logic of the In class says FORCED. -/
theorem dropLogicIn_limit (uv : Nat → ℚ) (item : QueueDiscItem) (qLen qLenIn : Nat)
    (s : RioQueueDisc) (h : qLen ≥ s.m_queueLimit) :
    (dropLogicIn uv item qLen qLenIn s).1 = DTYPE_FORCED := by
  unfold dropLogicIn
  simp only []
  rw [limit_override qLen s.m_queueLimit _ (by rw [redLogicIn_state]) h]

/-- At or above the queue limit the drop logic of the Out class says FORCED. -/
theorem dropLogicOut_limit (uv : Nat → ℚ) (item : QueueDiscItem) (qLen : Nat)
    (s : RioQueueDisc) (h : qLen ≥ s.m_queueLimit) :
    (dropLogicOut uv item qLen s).1 = DTYPE_FORCED := by
  unfold dropLogicOut
  simp only []
  rw [limit_override qLen s.m_queueLimit _ (by rw [redLogicOut_state]) h]

/-- The verdict phase of `DoEnqueue` leaves the statistics, the internal queue, the In
occupancy and the configuration as they were. -/
theorem enqueueVerdict_state (uv : Nat → ℚ) (now : Int) (item : QueueDiscItem)
    (s : RioQueueDisc) :
    (enqueueVerdict uv now item s).2 =
      { s with m_flow := (enqueueVerdict uv now item s).2.m_flow,
               m_idle := false,
               m_qAvg := (enqueueVerdict uv now item s).2.m_qAvg,
               m_idleIn := (enqueueVerdict uv now item s).2.m_idleIn,
               m_qAvgIn := (enqueueVerdict uv now item s).2.m_qAvgIn,
               m_count := (enqueueVerdict uv now item s).2.m_count,
               m_countBytes := (enqueueVerdict uv now item s).2.m_countBytes,
               m_countIn := (enqueueVerdict uv now item s).2.m_countIn,
               m_countBytesIn := (enqueueVerdict uv now item s).2.m_countBytesIn,
               m_countOut := (enqueueVerdict uv now item s).2.m_countOut,
               m_countBytesOut := (enqueueVerdict uv now item s).2.m_countBytesOut,
               m_vProb1In := (enqueueVerdict uv now item s).2.m_vProb1In,
               m_vProbIn := (enqueueVerdict uv now item s).2.m_vProbIn,
               m_vProb1Out := (enqueueVerdict uv now item s).2.m_vProb1Out,
               m_vProbOut := (enqueueVerdict uv now item s).2.m_vProbOut,
               m_oldIn := (enqueueVerdict uv now item s).2.m_oldIn,
               m_oldOut := (enqueueVerdict uv now item s).2.m_oldOut,
               uvPos := (enqueueVerdict uv now item s).2.uvPos } := by
  unfold enqueueVerdict verdictIn verdictOut
  simp only []
  split_ifs
  · rw [dropLogicIn_state, tallyIn_state, enqueueCommon_state]
  · rw [dropLogicOut_state, tallyOut_state, enqueueCommon_state]

/-- The function `DoEnqueue` applies the verdict of `enqueueVerdict`. -/
theorem DoEnqueue_eq (uv : Nat → ℚ) (now : Int) (item : QueueDiscItem) (s : RioQueueDisc) :
    DoEnqueue uv now item s =
      if (enqueueCommon now item s).2.2.m_flow ≠ 0 then
        applyIn (enqueueVerdict uv now item s).1 item (enqueueVerdict uv now item s).2
      else
        applyOut (enqueueVerdict uv now item s).1 item (enqueueVerdict uv now item s).2 := by
  unfold DoEnqueue enqueueVerdict
  simp only []
  split_ifs <;> rfl

/-- At or above the queue limit the verdict is FORCED. -/
theorem enqueueVerdict_limit (uv : Nat → ℚ) (now : Int) (item : QueueDiscItem)
    (s : RioQueueDisc) (h : GetQueueSize s ≥ s.m_queueLimit) :
    (enqueueVerdict uv now item s).1 = DTYPE_FORCED := by
  have hc : (enqueueCommon now item s).2.2.m_queueLimit = s.m_queueLimit := by
    rw [enqueueCommon_state]
  unfold enqueueVerdict verdictIn verdictOut
  simp only []
  split_ifs
  · apply dropLogicIn_limit
    rw [tallyIn_state, enqueueCommon_qLen]
    exact hc ▸ h
  · apply dropLogicOut_limit
    rw [tallyOut_state, enqueueCommon_qLen]
    exact hc ▸ h

/-- A FORCED verdict on an In packet that cannot be marked: the packet is rejected. -/
theorem applyIn_forced_drop (item : QueueDiscItem) (s : RioQueueDisc)
    (h : s.m_useHardDrop = true ∨ s.m_useEcn = false ∨ Mark item = false) :
    (applyIn DTYPE_FORCED item s).1 = false
    ∧ (applyIn DTYPE_FORCED item s).2.m_stats.forcedDrop = u32 (s.m_stats.forcedDrop + 1)
    ∧ (applyIn DTYPE_FORCED item s).2.queue = s.queue := by
  unfold applyIn
  simp only [if_pos h]
  split_ifs <;> simp

/-- A FORCED verdict on an Out packet that cannot be marked: the packet is rejected. -/
theorem applyOut_forced_drop (item : QueueDiscItem) (s : RioQueueDisc)
    (h : s.m_useHardDrop = true ∨ s.m_useEcn = false ∨ Mark item = false) :
    (applyOut DTYPE_FORCED item s).1 = false
    ∧ (applyOut DTYPE_FORCED item s).2.m_stats.forcedDrop = u32 (s.m_stats.forcedDrop + 1)
    ∧ (applyOut DTYPE_FORCED item s).2.queue = s.queue := by
  unfold applyOut
  simp only [if_pos h]
  split_ifs <;> simp

/-- C4: when the occupancy of the internal queue before the arrival (packets in packet
mode, bytes in byte mode) is at least the queue limit, the verdict of `DoEnqueue` is FORCED
for either class, whatever the averages and the draw; and when hard drop is enabled, or ECN
is disabled, or the packet refuses the mark, `DoEnqueue` returns false, `forcedDrop` is
incremented by one (a `uint32_t` increment, which is `+ 1` below `2 ^ 32 - 1`) and the
internal queue is unchanged. -/
theorem C4_queue_limit_override (uv : Nat → ℚ) (now : Int) (item : QueueDiscItem)
    (s : RioQueueDisc) (h : GetQueueSize s ≥ s.m_queueLimit) :
    (enqueueVerdict uv now item s).1 = DTYPE_FORCED
    ∧ ((s.m_useHardDrop = true ∨ s.m_useEcn = false ∨ Mark item = false) →
        (DoEnqueue uv now item s).1 = false
        ∧ (DoEnqueue uv now item s).2.m_stats.forcedDrop = u32 (s.m_stats.forcedDrop + 1)
        ∧ (s.m_stats.forcedDrop + 1 < 4294967296 →
            (DoEnqueue uv now item s).2.m_stats.forcedDrop = s.m_stats.forcedDrop + 1)
        ∧ (DoEnqueue uv now item s).2.queue = s.queue) := by
  have hv := enqueueVerdict_limit uv now item s h
  refine ⟨hv, fun hd => ?_⟩
  have h1 : (enqueueVerdict uv now item s).2.m_useHardDrop = s.m_useHardDrop := by
    rw [enqueueVerdict_state]
  have h2 : (enqueueVerdict uv now item s).2.m_useEcn = s.m_useEcn := by
    rw [enqueueVerdict_state]
  have h3 : (enqueueVerdict uv now item s).2.m_stats = s.m_stats := by
    rw [enqueueVerdict_state]
  have h4 : (enqueueVerdict uv now item s).2.queue = s.queue := by
    rw [enqueueVerdict_state]
  have hd2 : (enqueueVerdict uv now item s).2.m_useHardDrop = true
      ∨ (enqueueVerdict uv now item s).2.m_useEcn = false ∨ Mark item = false := by
    rw [h1, h2]; exact hd
  have key : (DoEnqueue uv now item s).1 = false
      ∧ (DoEnqueue uv now item s).2.m_stats.forcedDrop = u32 (s.m_stats.forcedDrop + 1)
      ∧ (DoEnqueue uv now item s).2.queue = s.queue := by
    rw [DoEnqueue_eq, hv]
    split_ifs
    · have := applyIn_forced_drop item _ hd2
      rw [h3, h4] at this
      exact this
    · have := applyOut_forced_drop item _ hd2
      rw [h3, h4] at this
      exact this
  refine ⟨key.1, key.2.1, fun hlt => ?_, key.2.2⟩
  rw [key.2.1]
  exact Nat.mod_eq_of_lt hlt
/-- C1 (the code differs): on the engine of `limitTwo`, after two Out packets filled the
queue, an In packet of 100 bytes is dropped at the queue limit; the drop path decrements
the In occupancy although the packet was never counted, so `inlen` wraps to `2 ^ 32 - 1`
and `inbcount` to `2 ^ 32 - 100`, above the 2 packets and 200 bytes in the queue. -/
theorem C1_in_occupancy_wraps_on_drop :
    (freshEngine id limitTwo).map (fun s =>
      ((DoEnqueue (constStream 0) 0 (inPacket 3 100)
          (run (constStream 0) s
            [Event.enqueue 0 (outPacket 1 100), Event.enqueue 0 (outPacket 2 100)])).1,
       (run (constStream 0) s
          [Event.enqueue 0 (outPacket 1 100), Event.enqueue 0 (outPacket 2 100),
           Event.enqueue 0 (inPacket 3 100)]).inlen,
       (run (constStream 0) s
          [Event.enqueue 0 (outPacket 1 100), Event.enqueue 0 (outPacket 2 100),
           Event.enqueue 0 (inPacket 3 100)]).queue.GetNPackets,
       (run (constStream 0) s
          [Event.enqueue 0 (outPacket 1 100), Event.enqueue 0 (outPacket 2 100),
           Event.enqueue 0 (inPacket 3 100)]).inbcount,
       (run (constStream 0) s
          [Event.enqueue 0 (outPacket 1 100), Event.enqueue 0 (outPacket 2 100),
           Event.enqueue 0 (inPacket 3 100)]).queue.GetNBytes))
      = some (false, 4294967295, 2, 4294967196, 200) := by
  decide!

/-- C4, on the full queue of `fullEngine` with an In packet. -/
theorem C4_queue_limit_override_witness :
    GetQueueSize fullEngine ≥ fullEngine.m_queueLimit
    ∧ (enqueueVerdict (constStream 0) 0 (inPacket 3 100) fullEngine).1 = DTYPE_FORCED :=
  ⟨by decide!,
   (C4_queue_limit_override (constStream 0) 0 (inPacket 3 100) fullEngine (by decide!)).1⟩

/-! ### The internal queue under enqueue and dequeue -/

/-- An accepted insertion appends the item and changes nothing else in the queue. -/
theorem InternalQueue_Enqueue_true (q : InternalQueue) (item : QueueDiscItem)
    (h : (q.Enqueue item).1 = true) :
    (q.Enqueue item).2 = { q with items := q.items ++ [item] } := by
  unfold InternalQueue.Enqueue at h ⊢
  split_ifs at h ⊢
  simp_all

/-- A refused insertion leaves the queue as it was. -/
theorem InternalQueue_Enqueue_false (q : InternalQueue) (item : QueueDiscItem)
    (h : (q.Enqueue item).1 = false) :
    (q.Enqueue item).2 = q := by
  unfold InternalQueue.Enqueue at h ⊢
  split_ifs at h ⊢ <;> simp_all

/-- Applying a verdict to an In packet changes the statistics, the counters, the In
occupancy and the internal queue only. -/
theorem applyIn_state (dropType : DropType) (item : QueueDiscItem) (s : RioQueueDisc) :
    (applyIn dropType item s).2 =
      { s with m_stats := (applyIn dropType item s).2.m_stats,
               m_count := (applyIn dropType item s).2.m_count,
               m_countBytes := (applyIn dropType item s).2.m_countBytes,
               m_countIn := (applyIn dropType item s).2.m_countIn,
               m_countBytesIn := (applyIn dropType item s).2.m_countBytesIn,
               inlen := (applyIn dropType item s).2.inlen,
               inbcount := (applyIn dropType item s).2.inbcount,
               queue := (applyIn dropType item s).2.queue } := by
  unfold applyIn admitIn
  cases dropType
  all_goals simp only []
  all_goals split_ifs
  all_goals rfl

/-- Applying a verdict to an Out packet changes the statistics, the Out counters and the
internal queue only. -/
theorem applyOut_state (dropType : DropType) (item : QueueDiscItem) (s : RioQueueDisc) :
    (applyOut dropType item s).2 =
      { s with m_stats := (applyOut dropType item s).2.m_stats,
               m_countOut := (applyOut dropType item s).2.m_countOut,
               m_countBytesOut := (applyOut dropType item s).2.m_countBytesOut,
               queue := (applyOut dropType item s).2.queue } := by
  unfold applyOut admitOut
  cases dropType
  all_goals simp only []
  all_goals split_ifs
  all_goals rfl

/-- The function `DoEnqueue` leaves the configuration (mode, thresholds, limit, weight,
flags, coefficients, packet time constant, idle start, priority method) as it was. -/
theorem DoEnqueue_state (uv : Nat → ℚ) (now : Int) (item : QueueDiscItem)
    (s : RioQueueDisc) :
    (DoEnqueue uv now item s).2 =
      { s with m_stats := (DoEnqueue uv now item s).2.m_stats,
               m_flow := (DoEnqueue uv now item s).2.m_flow,
               m_idle := false,
               m_qAvg := (DoEnqueue uv now item s).2.m_qAvg,
               m_idleIn := (DoEnqueue uv now item s).2.m_idleIn,
               m_qAvgIn := (DoEnqueue uv now item s).2.m_qAvgIn,
               m_count := (DoEnqueue uv now item s).2.m_count,
               m_countBytes := (DoEnqueue uv now item s).2.m_countBytes,
               m_countIn := (DoEnqueue uv now item s).2.m_countIn,
               m_countBytesIn := (DoEnqueue uv now item s).2.m_countBytesIn,
               m_countOut := (DoEnqueue uv now item s).2.m_countOut,
               m_countBytesOut := (DoEnqueue uv now item s).2.m_countBytesOut,
               m_vProb1In := (DoEnqueue uv now item s).2.m_vProb1In,
               m_vProbIn := (DoEnqueue uv now item s).2.m_vProbIn,
               m_vProb1Out := (DoEnqueue uv now item s).2.m_vProb1Out,
               m_vProbOut := (DoEnqueue uv now item s).2.m_vProbOut,
               m_oldIn := (DoEnqueue uv now item s).2.m_oldIn,
               m_oldOut := (DoEnqueue uv now item s).2.m_oldOut,
               uvPos := (DoEnqueue uv now item s).2.uvPos,
               inlen := (DoEnqueue uv now item s).2.inlen,
               inbcount := (DoEnqueue uv now item s).2.inbcount,
               queue := (DoEnqueue uv now item s).2.queue } := by
  rw [DoEnqueue_eq]
  split_ifs
  · rw [applyIn_state, enqueueVerdict_state]
  · rw [applyOut_state, enqueueVerdict_state]

/-- The result of `admitIn` is the answer of the internal queue. -/
theorem admitIn_fst (item : QueueDiscItem) (s : RioQueueDisc) :
    (admitIn item s).1 = (s.queue.Enqueue item).1 := rfl

/-- The internal queue after `admitIn`. -/
theorem admitIn_queue (item : QueueDiscItem) (s : RioQueueDisc) :
    (admitIn item s).2.queue = (s.queue.Enqueue item).2 := by
  unfold admitIn
  simp only []
  split_ifs <;> rfl

/-- The result of `admitOut` is the answer of the internal queue. -/
theorem admitOut_fst (item : QueueDiscItem) (s : RioQueueDisc) :
    (admitOut item s).1 = (s.queue.Enqueue item).1 := rfl

/-- The internal queue after `admitOut`. -/
theorem admitOut_queue (item : QueueDiscItem) (s : RioQueueDisc) :
    (admitOut item s).2.queue = (s.queue.Enqueue item).2 := by
  unfold admitOut
  simp only []
  split_ifs <;> rfl

/-- An In packet for which the applied verdict returns true was appended to the queue. -/
theorem applyIn_true (dropType : DropType) (item : QueueDiscItem) (s : RioQueueDisc)
    (h : (applyIn dropType item s).1 = true) :
    (applyIn dropType item s).2.queue = { s.queue with items := s.queue.items ++ [item] } := by
  unfold applyIn at h ⊢
  cases dropType <;> simp only [] at h ⊢
  · rw [admitIn_fst] at h
    rw [admitIn_queue]
    exact InternalQueue_Enqueue_true _ _ h
  · split_ifs at h ⊢
    rw [admitIn_fst] at h
    rw [admitIn_queue]
    exact InternalQueue_Enqueue_true _ _ h
  · split_ifs at h ⊢
    rw [admitIn_fst] at h
    rw [admitIn_queue]
    exact InternalQueue_Enqueue_true _ _ h

/-- An Out packet for which the applied verdict returns true was appended to the queue. -/
theorem applyOut_true (dropType : DropType) (item : QueueDiscItem) (s : RioQueueDisc)
    (h : (applyOut dropType item s).1 = true) :
    (applyOut dropType item s).2.queue = { s.queue with items := s.queue.items ++ [item] } := by
  unfold applyOut at h ⊢
  cases dropType <;> simp only [] at h ⊢
  · rw [admitOut_fst] at h
    rw [admitOut_queue]
    exact InternalQueue_Enqueue_true _ _ h
  · split_ifs at h ⊢
    rw [admitOut_fst] at h
    rw [admitOut_queue]
    exact InternalQueue_Enqueue_true _ _ h
  · split_ifs at h ⊢
    rw [admitOut_fst] at h
    rw [admitOut_queue]
    exact InternalQueue_Enqueue_true _ _ h

/-- A packet for which `DoEnqueue` returns true was appended to the internal queue. -/
theorem DoEnqueue_true (uv : Nat → ℚ) (now : Int) (item : QueueDiscItem) (s : RioQueueDisc)
    (h : (DoEnqueue uv now item s).1 = true) :
    (DoEnqueue uv now item s).2.queue = { s.queue with items := s.queue.items ++ [item] } := by
  have hq : (enqueueVerdict uv now item s).2.queue = s.queue := by
    rw [enqueueVerdict_state]
  rw [DoEnqueue_eq] at h ⊢
  split_ifs at h ⊢
  · rw [applyIn_true _ _ _ h, hq]
  · rw [applyOut_true _ _ _ h, hq]

/-- The function `DoDequeue` on a queue with a head packet: the head is returned and
removed, mode and capacity of the queue stay. -/
theorem DoDequeue_cons (now : Int) (s : RioQueueDisc) (x : QueueDiscItem)
    (rest : List QueueDiscItem) (h : s.queue.items = x :: rest) :
    (DoDequeue now s).1 = some x
    ∧ (DoDequeue now s).2.queue = { s.queue with items := rest }
    ∧ (DoDequeue now s).2.m_mode = s.m_mode := by
  have he : s.queue.IsEmpty = false := by
    unfold InternalQueue.IsEmpty
    rw [h]
    rfl
  have hd : s.queue.Dequeue = (some x, { s.queue with items := rest }) := by
    unfold InternalQueue.Dequeue
    rw [h]
  unfold DoDequeue
  simp only [he, hd]
  by_cases hc : Classify x = 0 <;> simp [hc]

/-- The function `DoDequeue` on an empty queue returns no packet. -/
theorem DoDequeue_nil (now : Int) (s : RioQueueDisc) (h : s.queue.items = []) :
    (DoDequeue now s).1 = none := by
  unfold DoDequeue InternalQueue.IsEmpty
  simp [h]

/-- When every call of a sequence of `Enqueue` calls returns true, the packets are in the
internal queue behind those already there, in the order of the calls. -/
theorem enqueueAll_queue (uv : Nat → ℚ) (arr : List (Int × QueueDiscItem)) :
    ∀ s : RioQueueDisc, (∀ b ∈ (enqueueAll uv s arr).1, b = true) →
      (enqueueAll uv s arr).2.queue
          = { s.queue with items := s.queue.items ++ arr.map Prod.snd }
      ∧ (enqueueAll uv s arr).2.m_mode = s.m_mode := by
  induction arr with
  | nil => intro s _; simp [enqueueAll]
  | cons a rest ih =>
    intro s h
    simp only [enqueueAll, List.mem_cons, forall_eq_or_imp] at h ⊢
    obtain ⟨h1, h2⟩ := h
    have hq := DoEnqueue_true uv a.1 a.2 s h1
    have hm : (DoEnqueue uv a.1 a.2 s).2.m_mode = s.m_mode := by rw [DoEnqueue_state]
    obtain ⟨ih1, ih2⟩ := ih _ h2
    rw [ih1, ih2, hq, hm]
    simp

/-- Dequeuing `times.length` packets from a queue that holds at least as many returns its
first packets in order and leaves the rest. -/
theorem dequeueAll_queue (times : List Int) :
    ∀ (s : RioQueueDisc) (front back : List QueueDiscItem),
      s.queue.items = front ++ back → front.length = times.length →
      (dequeueAll s times).1 = front.map some
      ∧ (dequeueAll s times).2.queue = { s.queue with items := back }
      ∧ (dequeueAll s times).2.m_mode = s.m_mode := by
  induction times with
  | nil =>
    intro s front back h hl
    have : front = [] := List.length_eq_zero.mp hl
    subst this
    simp only [List.nil_append] at h
    simp [dequeueAll, ← h]
  | cons t rest ih =>
    intro s front back h hl
    cases front with
    | nil => simp at hl
    | cons x front =>
      obtain ⟨d1, d2, d3⟩ := DoDequeue_cons t s x (front ++ back) (by simpa using h)
      obtain ⟨i1, i2, i3⟩ := ih (DoDequeue t s).2 front back (by rw [d2])
        (by simpa using hl)
      simp only [dequeueAll, List.map_cons]
      rw [i1, i2, i3, d1, d2, d3]
      exact ⟨rfl, rfl, rfl⟩

/-- A freshly initialised engine has an empty internal queue. -/
theorem freshEngine_queue (expF : ℚ → ℚ) (cfg s : RioQueueDisc)
    (h : freshEngine expF cfg = some s) : s.queue.items = [] := by
  unfold freshEngine at h
  obtain ⟨rfl, _, _⟩ := InitializeParams_some expF _ s h
  rw [queueWeight_eq, coefficientsOut_eq, coefficientsIn_eq]
  simp only [resetRuntime]
  rw [defaultThresholds_eq]
  unfold createInternalQueue
  simp only []
  split_ifs <;> rfl

/-- The results of the first calls of a sequence of `Enqueue` calls. -/
theorem enqueueAll_take (uv : Nat → ℚ) (arr : List (Int × QueueDiscItem)) :
    ∀ (s : RioQueueDisc) (j : Nat),
      (enqueueAll uv s (arr.take j)).1 = (enqueueAll uv s arr).1.take j := by
  induction arr with
  | nil => intro s j; simp [enqueueAll]
  | cons a rest ih =>
    intro s j
    cases j with
    | zero => simp [enqueueAll]
    | succ j => simp [enqueueAll, ih]

/-- The function `GetQueueSize` reports the occupancy of the internal queue. -/
theorem GetQueueSize_eq (s : RioQueueDisc) :
    GetQueueSize s = occupancy s.m_mode s.queue.items := by
  unfold GetQueueSize occupancy InternalQueue.GetNBytes InternalQueue.GetNPackets
  rfl

/-- C5: on a freshly initialised engine, when every `Enqueue` of a run returns true (each
packet is admitted), the `Dequeue` calls that follow return the packets in the order of
their arrival, the call after the last packet returns none, `GetQueueSize` after `k`
dequeues is the occupancy of the packets still queued (so it falls by one packet, or by
the size of the packet in byte mode, at each dequeue) and after `j` arrivals it is the
occupancy of the first `j` packets. -/
theorem C5_fifo_order (expF : ℚ → ℚ) (cfg s : RioQueueDisc) (uv : Nat → ℚ)
    (arr : List (Int × QueueDiscItem)) (times : List Int) (tLast : Int)
    (hfresh : freshEngine expF cfg = some s)
    (hadm : ∀ b ∈ (enqueueAll uv s arr).1, b = true)
    (hlen : times.length = arr.length) :
    (dequeueAll (enqueueAll uv s arr).2 times).1 = (arr.map Prod.snd).map some
    ∧ (DoDequeue tLast (dequeueAll (enqueueAll uv s arr).2 times).2).1 = none
    ∧ (∀ k, k ≤ arr.length →
        GetQueueSize (dequeueAll (enqueueAll uv s arr).2 (times.take k)).2
          = occupancy s.m_mode ((arr.map Prod.snd).drop k))
    ∧ (∀ j, j ≤ arr.length →
        GetQueueSize (enqueueAll uv s (arr.take j)).2
          = occupancy s.m_mode ((arr.map Prod.snd).take j)) := by
  have h0 := freshEngine_queue expF cfg s hfresh
  obtain ⟨e1, e2⟩ := enqueueAll_queue uv arr s hadm
  rw [h0, List.nil_append] at e1
  have hitems : (enqueueAll uv s arr).2.queue.items = arr.map Prod.snd := by rw [e1]
  refine ⟨?_, ?_, ?_, ?_⟩
  · exact (dequeueAll_queue times _ (arr.map Prod.snd) [] (by rw [hitems]; simp)
      (by simp [hlen])).1
  · apply DoDequeue_nil
    rw [(dequeueAll_queue times _ (arr.map Prod.snd) [] (by rw [hitems]; simp)
      (by simp [hlen])).2.1]
  · intro k hk
    obtain ⟨_, d2, d3⟩ := dequeueAll_queue (times.take k) (enqueueAll uv s arr).2
      ((arr.map Prod.snd).take k) ((arr.map Prod.snd).drop k)
      (by rw [hitems, List.take_append_drop])
      (by simp [hlen])
    rw [GetQueueSize_eq, d2, d3, e2]
  · intro j _
    have hadm2 : ∀ b ∈ (enqueueAll uv s (arr.take j)).1, b = true := by
      intro b hb
      rw [enqueueAll_take] at hb
      exact hadm b (List.mem_of_mem_take hb)
    obtain ⟨f1, f2⟩ := enqueueAll_queue uv (arr.take j) s hadm2
    rw [GetQueueSize_eq, f1, f2, h0, List.nil_append, List.map_take]

/-- C5 on scenario A (test 1, packet mode), with the eight packets all Out or all In: all
eight are admitted, the queue size goes from 1 to 8, eight dequeues return the packets in
order and the ninth returns none. -/
theorem C5_fifo_order_witness :
    freshEngine id scenarioA = some (engineOf scenarioA)
    ∧ (enqueueAll (constStream 0) (engineOf scenarioA) (arrivalsA 0)).1
        = [true, true, true, true, true, true, true, true]
    ∧ (enqueueAll (constStream 0) (engineOf scenarioA) (arrivalsA 1)).1
        = [true, true, true, true, true, true, true, true]
    ∧ (List.range 9).map (fun j =>
        GetQueueSize (enqueueAll (constStream 0) (engineOf scenarioA)
          ((arrivalsA 0).take j)).2) = [0, 1, 2, 3, 4, 5, 6, 7, 8]
    ∧ (dequeueAll (enqueueAll (constStream 0) (engineOf scenarioA) (arrivalsA 0)).2
        [0, 0, 0, 0, 0, 0, 0, 0]).1 = ((arrivalsA 0).map Prod.snd).map some
    ∧ (DoDequeue 0 (dequeueAll (enqueueAll (constStream 0) (engineOf scenarioA)
        (arrivalsA 0)).2 [0, 0, 0, 0, 0, 0, 0, 0]).2).1 = none
    ∧ (dequeueAll (enqueueAll (constStream 0) (engineOf scenarioA) (arrivalsA 1)).2
        [0, 0, 0, 0, 0, 0, 0, 0]).1 = ((arrivalsA 1).map Prod.snd).map some
    ∧ (DoDequeue 0 (dequeueAll (enqueueAll (constStream 0) (engineOf scenarioA)
        (arrivalsA 1)).2 [0, 0, 0, 0, 0, 0, 0, 0]).2).1 = none :=
  ⟨by decide!, by decide!, by decide!, by decide!,
   (C5_fifo_order id scenarioA (engineOf scenarioA) (constStream 0) (arrivalsA 0)
      [0, 0, 0, 0, 0, 0, 0, 0] 0 (by decide!) (by decide!) (by decide!)).1,
   (C5_fifo_order id scenarioA (engineOf scenarioA) (constStream 0) (arrivalsA 0)
      [0, 0, 0, 0, 0, 0, 0, 0] 0 (by decide!) (by decide!) (by decide!)).2.1,
   (C5_fifo_order id scenarioA (engineOf scenarioA) (constStream 0) (arrivalsA 1)
      [0, 0, 0, 0, 0, 0, 0, 0] 0 (by decide!) (by decide!) (by decide!)).1,
   (C5_fifo_order id scenarioA (engineOf scenarioA) (constStream 0) (arrivalsA 1)
      [0, 0, 0, 0, 0, 0, 0, 0] 0 (by decide!) (by decide!) (by decide!)).2.1⟩

/-! ### Arrivals of Out packets without ECN: the reduced machine -/

/-- The early-drop test of the Out class returns 1 whatever the draw. -/
theorem DropOutEarly_fst (uv : Nat → ℚ) (item : QueueDiscItem) (qSize : Nat)
    (s : RioQueueDisc) : (DropOutEarly uv item qSize s).1 = 1 := by
  unfold DropOutEarly
  simp only []
  split_ifs <;> rfl

/-- With a zero previous average the estimate does not depend on the number of virtual
arrivals. -/
theorem Estimator_zero (nQueued m : Nat) (qW : ℚ) :
    Estimator nQueued m 0 qW = Estimator nQueued 1 0 qW := by
  simp [Estimator]

/-- The combined average that `DoEnqueue` computes on an engine that is `OutReady`. -/
theorem enqueueCommon_qAvg (now : Int) (item : QueueDiscItem) (s : RioQueueDisc)
    (hr : OutReady s) :
    (enqueueCommon now item s).2.2.m_qAvg = Estimator (GetQueueSize s) 1 s.m_qAvg s.m_qW := by
  obtain ⟨hp, _, _, hi⟩ := hr
  unfold enqueueCommon GetQueueSize
  simp only [hp, if_true]
  by_cases hidle : s.m_idle = true
  · simp only [hidle, if_true, hi hidle]
    exact Estimator_zero _ _ _
  · simp only [hidle, if_false]
    rfl

/-- The class that `DoEnqueue` uses on an engine that is `OutReady`. -/
theorem enqueueCommon_flow (now : Int) (item : QueueDiscItem) (s : RioQueueDisc)
    (hr : OutReady s) :
    (enqueueCommon now item s).2.2.m_flow = Classify item := by
  obtain ⟨hp, _, _, _⟩ := hr
  unfold enqueueCommon
  simp only [hp, if_true]

/-- The RED part of the drop logic of the Out class, on the reduced state. -/
theorem redLogicOut_reduced (uv : Nat → ℚ) (item : QueueDiscItem) (qLen : Nat)
    (s : RioQueueDisc) :
    (redLogicOut uv item qLen s).1 = (redOut (outCfg s) s.m_qAvg qLen s.m_oldOut).1
    ∧ (redLogicOut uv item qLen s).2.m_oldOut
        = (redOut (outCfg s) s.m_qAvg qLen s.m_oldOut).2 := by
  have hd : (DropOutEarly uv item qLen s).2.m_oldOut = s.m_oldOut := by
    rw [DropOutEarly_state]
  unfold redLogicOut redOut outCfg
  simp only [DropOutEarly_fst]
  split_ifs <;> simp_all

/-- The drop logic of the Out class, on the reduced state. -/
theorem dropLogicOut_reduced (uv : Nat → ℚ) (item : QueueDiscItem) (qLen : Nat)
    (s : RioQueueDisc) :
    (dropLogicOut uv item qLen s).1 = verdictOfOut (outCfg s) s.m_qAvg qLen s.m_oldOut
    ∧ (dropLogicOut uv item qLen s).2.m_oldOut
        = (redOut (outCfg s) s.m_qAvg qLen s.m_oldOut).2 := by
  have hlim : (redLogicOut uv item qLen s).2.m_queueLimit = s.m_queueLimit := by
    rw [redLogicOut_state]
  obtain ⟨r1, r2⟩ := redLogicOut_reduced uv item qLen s
  unfold dropLogicOut verdictOfOut
  simp only [hlim]
  have hl : (outCfg s).limit = s.m_queueLimit := rfl
  rw [hl]
  split_ifs
  · exact ⟨rfl, r2⟩
  · exact ⟨r1, r2⟩

/-- An insertion keeps the mode and the capacity of the internal queue. -/
theorem InternalQueue_Enqueue_cfg (q : InternalQueue) (item : QueueDiscItem) :
    (q.Enqueue item).2 = { q with items := (q.Enqueue item).2.items } := by
  unfold InternalQueue.Enqueue
  split_ifs <;> rfl

/-- Applying a verdict to an Out packet with ECN disabled, on the reduced state. -/
theorem applyOut_reduced (dropType : DropType) (item : QueueDiscItem) (s : RioQueueDisc)
    (hecn : s.m_useEcn = false) (hmode : s.queue.mode = s.m_mode) :
    (applyOut dropType item s).1
        = (outApply (outCfg s) item.size dropType (GetQueueSize s) s.m_stats).1
    ∧ GetQueueSize (applyOut dropType item s).2
        = (outApply (outCfg s) item.size dropType (GetQueueSize s) s.m_stats).2.1
    ∧ (applyOut dropType item s).2.m_stats
        = (outApply (outCfg s) item.size dropType (GetQueueSize s) s.m_stats).2.2
    ∧ (applyOut dropType item s).2.queue.mode = s.queue.mode
    ∧ (applyOut dropType item s).2.queue.maxPackets = s.queue.maxPackets
    ∧ (applyOut dropType item s).2.queue.maxBytes = s.queue.maxBytes := by
  cases dropType
  · -- DTYPE_NONE
    cases hm : s.m_mode
    · -- packets
      have hqm : s.queue.mode = QUEUE_DISC_MODE_PACKETS := by rw [hmode, hm]
      by_cases hfull : s.queue.items.length ≥ s.queue.maxPackets
      · simp [applyOut, admitOut, outApply, outCfg, GetQueueSize, InternalQueue.Enqueue,
          InternalQueue.GetNPackets, InternalQueue.GetNBytes, hm, hqm, hfull]
      · simp [applyOut, admitOut, outApply, outCfg, GetQueueSize, InternalQueue.Enqueue,
          InternalQueue.GetNPackets, InternalQueue.GetNBytes, hm, hqm, hfull]
    · -- bytes
      have hqm : s.queue.mode = QUEUE_DISC_MODE_BYTES := by rw [hmode, hm]
      by_cases hfull : (s.queue.items.map QueueDiscItem.size).sum + item.size > s.queue.maxBytes
      · simp [applyOut, admitOut, outApply, outCfg, GetQueueSize, InternalQueue.Enqueue,
          InternalQueue.GetNPackets, InternalQueue.GetNBytes, hm, hqm, hfull]
      · simp [applyOut, admitOut, outApply, outCfg, GetQueueSize, InternalQueue.Enqueue,
          InternalQueue.GetNPackets, InternalQueue.GetNBytes, hm, hqm, hfull]
  · -- DTYPE_FORCED
    by_cases hns : s.m_isNs1Compat = true <;>
      simp [applyOut, outApply, GetQueueSize, hecn, hns]
  · -- DTYPE_UNFORCED
    simp [applyOut, outApply, GetQueueSize, hecn]

/-- One arrival of an Out packet on an engine that is `OutReady` is one step of the
reduced machine. -/
theorem DoEnqueue_out_reduced (uv : Nat → ℚ) (now : Int) (item : QueueDiscItem)
    (s : RioQueueDisc) (hr : OutReady s) (hf : Classify item = 0) :
    (DoEnqueue uv now item s).1 = (outStep (outCfg s) item.size (outView s)).1
    ∧ outView (DoEnqueue uv now item s).2 = (outStep (outCfg s) item.size (outView s)).2
    ∧ outCfg (DoEnqueue uv now item s).2 = outCfg s
    ∧ OutReady (DoEnqueue uv now item s).2 := by
  have hflow : (enqueueCommon now item s).2.2.m_flow = 0 := by
    rw [enqueueCommon_flow now item s hr, hf]
  have havg := enqueueCommon_qAvg now item s hr
  obtain ⟨hp, hecn, hmode, _⟩ := hr
  -- the verdict
  have hV : enqueueVerdict uv now item s
      = dropLogicOut uv item (GetQueueSize s) (tallyOut item (enqueueCommon now item s).2.2) := by
    unfold enqueueVerdict verdictOut
    simp only [hflow, ne_eq, not_true_eq_false, if_false, enqueueCommon_qLen]
  have hTavg : (tallyOut item (enqueueCommon now item s).2.2).m_qAvg
      = Estimator (GetQueueSize s) 1 s.m_qAvg s.m_qW := by
    rw [tallyOut_state]; exact havg
  have hTold : (tallyOut item (enqueueCommon now item s).2.2).m_oldOut = s.m_oldOut := by
    rw [tallyOut_state, enqueueCommon_state]
  have hTcfg : outCfg (tallyOut item (enqueueCommon now item s).2.2) = outCfg s := by
    unfold outCfg
    rw [tallyOut_state, enqueueCommon_state]
  obtain ⟨v1, v2⟩ := dropLogicOut_reduced uv item (GetQueueSize s)
    (tallyOut item (enqueueCommon now item s).2.2)
  rw [← hV, hTavg, hTold, hTcfg] at v1 v2
  have hVavg : (enqueueVerdict uv now item s).2.m_qAvg
      = Estimator (GetQueueSize s) 1 s.m_qAvg s.m_qW := by
    rw [hV, dropLogicOut_state]; exact hTavg
  have hVstats : (enqueueVerdict uv now item s).2.m_stats = s.m_stats := by
    rw [enqueueVerdict_state]
  have hVqueue : (enqueueVerdict uv now item s).2.queue = s.queue := by
    rw [enqueueVerdict_state]
  have hVmode : (enqueueVerdict uv now item s).2.m_mode = s.m_mode := by
    rw [enqueueVerdict_state]
  have hVecn : (enqueueVerdict uv now item s).2.m_useEcn = s.m_useEcn := by
    rw [enqueueVerdict_state]
  have hVsize : GetQueueSize (enqueueVerdict uv now item s).2 = GetQueueSize s := by
    unfold GetQueueSize; rw [hVqueue, hVmode]
  have hVcfg : outCfg (enqueueVerdict uv now item s).2 = outCfg s := by
    unfold outCfg
    rw [hVqueue]
    rw [enqueueVerdict_state]
  -- the verdict applied
  have hD : DoEnqueue uv now item s
      = applyOut (enqueueVerdict uv now item s).1 item (enqueueVerdict uv now item s).2 := by
    rw [DoEnqueue_eq]
    simp only [hflow, ne_eq, not_true_eq_false, if_false]
  obtain ⟨a1, a2, a3, a4, a5, a6⟩ := applyOut_reduced (enqueueVerdict uv now item s).1 item
    (enqueueVerdict uv now item s).2 (by rw [hVecn]; exact hecn)
    (by rw [hVqueue, hVmode]; exact hmode)
  rw [← hD, hVcfg, hVsize, hVstats, v1] at a1 a2 a3
  rw [← hD, hVqueue] at a4 a5 a6
  have hFavg : (DoEnqueue uv now item s).2.m_qAvg
      = Estimator (GetQueueSize s) 1 s.m_qAvg s.m_qW := by
    rw [hD, applyOut_state]; exact hVavg
  have hFold : (DoEnqueue uv now item s).2.m_oldOut
      = (redOut (outCfg s) (Estimator (GetQueueSize s) 1 s.m_qAvg s.m_qW) (GetQueueSize s)
          s.m_oldOut).2 := by
    rw [hD, applyOut_state]; exact v2
  have hFmode : (DoEnqueue uv now item s).2.m_mode = s.m_mode := by rw [DoEnqueue_state]
  refine ⟨?_, ?_, ?_, ?_⟩
  · rw [a1]; rfl
  · unfold outView outStep
    simp only [OutView.mk.injEq]
    exact ⟨hFavg, hFold, a2, a3⟩
  · unfold outCfg
    rw [a5, a6]
    rw [DoEnqueue_state]
  · refine ⟨by rw [DoEnqueue_state]; exact hp, by rw [DoEnqueue_state]; exact hecn, ?_, ?_⟩
    · rw [a4, hFmode]; exact hmode
    · intro hidle
      rw [DoEnqueue_state] at hidle
      exact absurd hidle (by simp)

/-- In packet mode the size of the packet does not enter the applied verdict. -/
theorem outApply_size (c : OutCfg) (sz size : Nat) (dropType : DropType) (qLen : Nat)
    (stats : Stats) (h : c.byteMode = true → sz = size) :
    outApply c sz dropType qLen stats = outApply c size dropType qLen stats := by
  by_cases hb : c.byteMode = true
  · rw [h hb]
  · cases dropType <;> simp [outApply, hb]

/-- In packet mode the size of the packet does not enter the reduced step. -/
theorem outStep_size (c : OutCfg) (sz size : Nat) (v : OutView)
    (h : c.byteMode = true → sz = size) : outStep c sz v = outStep c size v := by
  unfold outStep
  simp only [outApply_size c sz size _ _ _ h]

/-- A run of arrivals of Out packets on an engine that is `OutReady` is a run of the
reduced machine. -/
theorem enqueueAll_out_reduced (uv : Nat → ℚ) (c : OutCfg) (size : Nat)
    (arr : List (Int × QueueDiscItem)) :
    ∀ s : RioQueueDisc, OutReady s → outCfg s = c →
      (∀ a ∈ arr, Classify a.2 = 0 ∧ (c.byteMode = true → a.2.size = size)) →
      (enqueueAll uv s arr).1 = (outRun c size arr.length (outView s)).1
      ∧ outView (enqueueAll uv s arr).2 = (outRun c size arr.length (outView s)).2 := by
  induction arr with
  | nil => intro s _ _ _; exact ⟨rfl, rfl⟩
  | cons a rest ih =>
    intro s hr hc ha
    obtain ⟨ha1, ha2⟩ := ha a (List.mem_cons_self _ _)
    obtain ⟨d1, d2, d3, d4⟩ := DoEnqueue_out_reduced uv a.1 a.2 s hr ha1
    rw [hc, outStep_size c a.2.size size _ ha2] at d1 d2
    obtain ⟨i1, i2⟩ := ih (DoEnqueue uv a.1 a.2 s).2 d4 (d3.trans hc)
      (fun b hb => ha b (List.mem_cons_of_mem _ hb))
    simp only [enqueueAll, outRun, List.length_cons]
    rw [i1, i2, d1, d2]
    exact ⟨rfl, rfl⟩

/-- The run of arrivals returns one result for each arrival. -/
theorem enqueueAll_length (uv : Nat → ℚ) (arr : List (Int × QueueDiscItem)) :
    ∀ s : RioQueueDisc, (enqueueAll uv s arr).1.length = arr.length := by
  induction arr with
  | nil => intro s; rfl
  | cons a rest ih => intro s; simp [enqueueAll, ih]

/-- When all the packets are Out, the drops of the Out class are the calls that returned
false and the In class has no drop. -/
theorem drops_all_out (arr : List (Int × QueueDiscItem)) :
    ∀ bs : List Bool, bs.length = arr.length → (∀ a ∈ arr, Classify a.2 = 0) →
      ((bs.zip arr).filter
          (fun p => p.1 = false ∧ (decide (Classify p.2.2 ≠ 0) = false))).length
        = (bs.filter (fun b => b = false)).length
      ∧ ((bs.zip arr).filter
          (fun p => p.1 = false ∧ (decide (Classify p.2.2 ≠ 0) = true))).length = 0 := by
  induction arr with
  | nil => intro bs hl _; cases bs <;> simp_all
  | cons a rest ih =>
    intro bs hl ha
    cases bs with
    | nil => simp at hl
    | cons b bs =>
      have h0 : Classify a.2 = 0 := ha a (List.mem_cons_self _ _)
      obtain ⟨i1, i2⟩ := ih bs (by simpa using hl) (fun x hx => ha x (List.mem_cons_of_mem _ hx))
      cases b <;> simp_all [List.filter_cons] <;> assumption

/-- The drop counters after a run of Out arrivals, read off the reduced machine. -/
theorem totalDrops_out_reduced (uv : Nat → ℚ) (size n : Nat) (s : RioQueueDisc)
    (arr : List (Int × QueueDiscItem)) (hr : OutReady s) (hlen : arr.length = n)
    (hout : ∀ a ∈ arr, Classify a.2 = 0 ∧ ((outCfg s).byteMode = true → a.2.size = size)) :
    (enqueueAll uv s arr).1 = (outRun (outCfg s) size n (outView s)).1
    ∧ totalDrops (enqueueAll uv s arr).2
        = (outRun (outCfg s) size n (outView s)).2.stats.forcedDrop
          + (outRun (outCfg s) size n (outView s)).2.stats.unforcedDrop
          + (outRun (outCfg s) size n (outView s)).2.stats.qLimDrop := by
  obtain ⟨e1, e2⟩ := enqueueAll_out_reduced uv (outCfg s) size arr s hr rfl hout
  rw [hlen] at e1 e2
  refine ⟨e1, ?_⟩
  rw [← e2]
  rfl

/-- When the configured queue weight is none of `0`, `-1`, `-2`, the stage `queueWeight`
does not call `std::exp`. -/
theorem queueWeight_expF (e1 e2 : ℚ → ℚ) (s : RioQueueDisc)
    (h : s.m_qW ≠ 0 ∧ s.m_qW ≠ -1 ∧ s.m_qW ≠ -2) :
    queueWeight e1 s = queueWeight e2 s := by
  unfold queueWeight
  simp only [h.1, h.2.1, h.2.2, if_false]

/-- When the configured queue weight is none of `0`, `-1`, `-2`, the initialization does
not depend on `std::exp`. -/
theorem freshEngine_expF (e1 e2 : ℚ → ℚ) (cfg : RioQueueDisc)
    (h : cfg.m_qW ≠ 0 ∧ cfg.m_qW ≠ -1 ∧ cfg.m_qW ≠ -2) :
    freshEngine e1 cfg = freshEngine e2 cfg := by
  have hq : (coefficientsOut (coefficientsIn (resetRuntime
      (defaultThresholds (createInternalQueue cfg))))).m_qW = cfg.m_qW := by
    rw [coefficientsOut_eq, coefficientsIn_eq]
    simp only [resetRuntime]
    rw [defaultThresholds_eq]
    rfl
  unfold freshEngine InitializeParams
  simp only []
  rw [queueWeight_expF e1 e2 _ (by rw [hq]; exact h)]

/-- The engines of the scenarios are `OutReady`. -/
theorem scenarios_OutReady :
    OutReady (engineOf scenarioB) ∧ OutReady (engineOf scenarioC)
    ∧ OutReady (engineOf scenarioCSpec) ∧ OutReady (engineOf scenarioBBytes) := by
  unfold OutReady
  decide!

/-- C7: on the engine that the initialization returns for scenario B, for every stream of
draws and every 300 arrivals that are all classified Out (any sizes and arrival times in
packet mode), no call
for an In packet returns false, 243 calls for Out packets return false and the three drop
counters add up to 243: the drops of the Out class exceed those of the In class. The same
holds in byte mode (thresholds and limit times 500) when the packets have 500 bytes. -/
theorem C7_scenarioB_out_drops (uv : Nat → ℚ) (arr : List (Int × QueueDiscItem))
    (hlen : arr.length = 300) (hout : ∀ a ∈ arr, Classify a.2 = 0) :
    (∀ expF : ℚ → ℚ, freshEngine expF scenarioB = some (engineOf scenarioB))
    ∧ dropsOfClass true uv (engineOf scenarioB) arr = 0
    ∧ dropsOfClass false uv (engineOf scenarioB) arr = 243
    ∧ dropsOfClass false uv (engineOf scenarioB) arr
        > dropsOfClass true uv (engineOf scenarioB) arr
    ∧ totalDrops (enqueueAll uv (engineOf scenarioB) arr).2 = 243
    ∧ (∀ expF : ℚ → ℚ, freshEngine expF scenarioBBytes = some (engineOf scenarioBBytes))
    ∧ ((∀ a ∈ arr, a.2.size = 500) →
        dropsOfClass true uv (engineOf scenarioBBytes) arr = 0
        ∧ dropsOfClass false uv (engineOf scenarioBBytes) arr = 243
        ∧ totalDrops (enqueueAll uv (engineOf scenarioBBytes) arr).2 = 243) := by
  obtain ⟨p1, p2⟩ := totalDrops_out_reduced uv 0 300 (engineOf scenarioB) arr
    scenarios_OutReady.1 hlen (fun a ha => ⟨hout a ha, fun hb => absurd hb (by decide!)⟩)
  obtain ⟨c1, c2⟩ := drops_all_out arr (enqueueAll uv (engineOf scenarioB) arr).1
    (enqueueAll_length uv arr _) hout
  have hin : dropsOfClass true uv (engineOf scenarioB) arr = 0 := c2
  have hout2 : dropsOfClass false uv (engineOf scenarioB) arr = 243 := by
    unfold dropsOfClass
    rw [c1, p1]
    decide!
  refine ⟨fun expF => by rw [freshEngine_expF expF id _ (by decide!)]; decide!,
    hin, hout2, by rw [hin, hout2]; decide, by rw [p2]; decide!,
    fun expF => by rw [freshEngine_expF expF id _ (by decide!)]; decide!, fun hsz => ?_⟩
  obtain ⟨q1, q2⟩ := totalDrops_out_reduced uv 500 300 (engineOf scenarioBBytes) arr
    scenarios_OutReady.2.2.2 hlen (fun a ha => ⟨hout a ha, fun _ => hsz a ha⟩)
  obtain ⟨d1, d2⟩ := drops_all_out arr (enqueueAll uv (engineOf scenarioBBytes) arr).1
    (enqueueAll_length uv arr _) hout
  refine ⟨d2, ?_, by rw [q2]; decide!⟩
  unfold dropsOfClass
  rw [d1, q1]
  decide!

/-- C7 on 300 Out packets of size 0 with the constant stream 0. -/
theorem C7_scenarioB_out_drops_witness :
    (outArrivals 0).length = 300
    ∧ (∀ a ∈ outArrivals 0, Classify a.2 = 0)
    ∧ dropsOfClass false (constStream 0) (engineOf scenarioB) (outArrivals 0)
        > dropsOfClass true (constStream 0) (engineOf scenarioB) (outArrivals 0) :=
  ⟨by decide!, by decide!,
   (C7_scenarioB_out_drops (constStream 0) (outArrivals 0) (by decide!) (by decide!)).2.2.2.1⟩

/-- C6: on the engines that the initialization returns for the scenarios, for all streams
of draws and every 300 arrivals that are all classified Out (no dequeue, ECN off, packet
mode), the drop counters of scenario C add up to 281 and those of scenario B to 243, so
scenario C has strictly more drops; this holds for scenario C as the test suite sets it up
and as the specification words it. -/
theorem C6_scenarioC_more_drops (uvB uvC : Nat → ℚ) (arr : List (Int × QueueDiscItem))
    (hlen : arr.length = 300) (hout : ∀ a ∈ arr, Classify a.2 = 0) :
    (∀ expF : ℚ → ℚ, freshEngine expF scenarioB = some (engineOf scenarioB))
    ∧ (∀ expF : ℚ → ℚ, freshEngine expF scenarioC = some (engineOf scenarioC))
    ∧ (∀ expF : ℚ → ℚ, freshEngine expF scenarioCSpec = some (engineOf scenarioCSpec))
    ∧ totalDrops (enqueueAll uvB (engineOf scenarioB) arr).2 = 243
    ∧ totalDrops (enqueueAll uvC (engineOf scenarioC) arr).2 = 281
    ∧ totalDrops (enqueueAll uvC (engineOf scenarioCSpec) arr).2 = 281
    ∧ totalDrops (enqueueAll uvC (engineOf scenarioC) arr).2
        > totalDrops (enqueueAll uvB (engineOf scenarioB) arr).2
    ∧ totalDrops (enqueueAll uvC (engineOf scenarioCSpec) arr).2
        > totalDrops (enqueueAll uvB (engineOf scenarioB) arr).2 := by
  have hB : totalDrops (enqueueAll uvB (engineOf scenarioB) arr).2 = 243 := by
    rw [(totalDrops_out_reduced uvB 0 300 (engineOf scenarioB) arr scenarios_OutReady.1 hlen
      (fun a ha => ⟨hout a ha, fun hb => absurd hb (by decide!)⟩)).2]
    decide!
  have hC : totalDrops (enqueueAll uvC (engineOf scenarioC) arr).2 = 281 := by
    rw [(totalDrops_out_reduced uvC 0 300 (engineOf scenarioC) arr scenarios_OutReady.2.1 hlen
      (fun a ha => ⟨hout a ha, fun hb => absurd hb (by decide!)⟩)).2]
    decide!
  have hS : totalDrops (enqueueAll uvC (engineOf scenarioCSpec) arr).2 = 281 := by
    rw [(totalDrops_out_reduced uvC 0 300 (engineOf scenarioCSpec) arr
      scenarios_OutReady.2.2.1 hlen
      (fun a ha => ⟨hout a ha, fun hb => absurd hb (by decide!)⟩)).2]
    decide!
  refine ⟨fun expF => by rw [freshEngine_expF expF id _ (by decide!)]; decide!,
    fun expF => by rw [freshEngine_expF expF id _ (by decide!)]; decide!,
    fun expF => by rw [freshEngine_expF expF id _ (by decide!)]; decide!,
    hB, hC, hS, ?_, ?_⟩
  · rw [hB, hC]; decide
  · rw [hB, hS]; decide

/-- C6 on 300 Out packets of size 0 with the constant stream 0. -/
theorem C6_scenarioC_more_drops_witness :
    (outArrivals 0).length = 300
    ∧ (∀ a ∈ outArrivals 0, Classify a.2 = 0)
    ∧ totalDrops (enqueueAll (constStream 0) (engineOf scenarioC) (outArrivals 0)).2
        > totalDrops (enqueueAll (constStream 0) (engineOf scenarioB) (outArrivals 0)).2 :=
  ⟨by decide!, by decide!,
   (C6_scenarioC_more_drops (constStream 0) (constStream 0) (outArrivals 0) (by decide!)
      (by decide!)).2.2.2.2.2.2.1⟩

/-! ### Monotonicity of the drop probability -/

/-- The function `ModifyP` is the hysteresis formula followed by the rescaling. -/
theorem ModifyP_eq (mode : QueueDiscMode) (p : ℚ) (count countBytes meanPktSize : Nat)
    (isWait : Bool) (size : Nat) :
    ModifyP mode p count countBytes meanPktSize isWait size
      = rescale mode size meanPktSize
          (hysteresis isWait
            (if mode = QUEUE_DISC_MODE_BYTES then ((countBytes / meanPktSize : Nat) : ℚ)
              else (count : ℚ)) p) := by
  rfl

/-- The clamp at 1, as a minimum. -/
theorem clamp_eq_min (x : ℚ) : (if x > 1 then 1 else x) = min x 1 := by
  split_ifs with h
  · exact (min_eq_right (le_of_lt h)).symm
  · exact (min_eq_left (not_lt.mp h)).symm

/-- The rescaling never exceeds 1. -/
theorem rescale_le_one (mode : QueueDiscMode) (size meanPktSize : Nat) (x : ℚ) :
    rescale mode size meanPktSize x ≤ 1 := by
  unfold rescale
  simp only [clamp_eq_min]
  exact min_le_right _ _

/-- At or above 1 the rescaling gives 1. -/
theorem rescale_of_one_le (mode : QueueDiscMode) (size meanPktSize : Nat) (x : ℚ)
    (h : 1 ≤ x) : rescale mode size meanPktSize x = 1 := by
  unfold rescale
  have hx : ¬ x < 1 := not_lt.mpr h
  simp only [hx, and_false, if_false, clamp_eq_min]
  exact min_eq_right h

/-- The rescaling is monotone. -/
theorem rescale_mono (mode : QueueDiscMode) (size meanPktSize : Nat) (x y : ℚ)
    (h : x ≤ y) : rescale mode size meanPktSize x ≤ rescale mode size meanPktSize y := by
  by_cases hy : 1 ≤ y
  · rw [rescale_of_one_le mode size meanPktSize y hy]
    exact rescale_le_one _ _ _ _
  · have hy1 : y < 1 := not_le.mp hy
    have hx1 : x < 1 := lt_of_le_of_lt h hy1
    unfold rescale
    simp only [hx1, hy1, and_true, clamp_eq_min]
    by_cases hm : mode = QUEUE_DISC_MODE_BYTES
    · simp only [hm, if_true]
      apply min_le_min _ le_rfl
      apply div_le_div_of_nonneg_right _ (Nat.cast_nonneg _)
      exact mul_le_mul_of_nonneg_right h (Nat.cast_nonneg _)
    · simp only [hm, if_false]
      exact min_le_min h le_rfl

/-- The rescaling only sees its argument clamped at 1. -/
theorem rescale_min (mode : QueueDiscMode) (size meanPktSize : Nat) (x : ℚ) :
    rescale mode size meanPktSize x = rescale mode size meanPktSize (min x 1) := by
  by_cases hx : 1 ≤ x
  · rw [min_eq_right hx]
    rw [rescale_of_one_le _ _ _ x hx, rescale_of_one_le _ _ _ 1 le_rfl]
  · rw [min_eq_left (le_of_lt (not_le.mp hx))]

/-- The function `CalculatePNew` is its unclamped value, clamped at 1. -/
theorem CalculatePNew_eq_min (qAvg maxTh : ℚ) (isGentle : Bool) (vA vB vC vD maxP : ℚ) :
    CalculatePNew qAvg maxTh isGentle vA vB vC vD maxP
      = min (if isGentle = true ∧ qAvg ≥ maxTh then vC * qAvg + vD
             else if isGentle = false ∧ qAvg ≥ maxTh then 1
             else (vA * qAvg + vB) * maxP) 1 := by
  unfold CalculatePNew
  simp only [clamp_eq_min]

/-- In exact arithmetic (the rounding of `double` set aside): in gentle mode, with
`lInterm ≥ 1` and a positive maximum threshold, the derived coefficients give 1 at and
above twice the maximum threshold. -/
theorem CalculatePNew_gentle_top (avg maxTh l vA vB : ℚ)
    (hl : 1 ≤ l) (hm : 0 < maxTh) (ha : 2 * maxTh ≤ avg) :
    CalculatePNew avg maxTh true vA vB ((1 - 1 / l) / maxTh) (2 * (1 / l) - 1) (1 / l) = 1 := by
  have hlpos : 0 < l := lt_of_lt_of_le one_pos hl
  have hmp1 : 1 / l ≤ 1 := by
    rw [div_le_one hlpos]; exact hl
  have hge : avg ≥ maxTh := by linarith
  have h2 : 2 ≤ avg / maxTh := by
    rw [le_div_iff₀ hm]; exact ha
  have hraw : 1 ≤ (1 - 1 / l) / maxTh * avg + (2 * (1 / l) - 1) := by
    have e : (1 - 1 / l) / maxTh * avg = (1 - 1 / l) * (avg / maxTh) := by ring
    rw [e]
    nlinarith
  rw [CalculatePNew_eq_min]
  simp only [hge, and_self, if_true]
  exact min_eq_right hraw

/-! ### The hysteresis correction as a function of the counter -/

/-- The hysteresis formula, clamped at 1, is monotone in the counter when the base
probability is not negative. -/
theorem hysteresis_min_mono_count (isWait : Bool) (c1 c2 p : ℚ) (hp : 0 ≤ p) (h : c1 ≤ c2) :
    min (hysteresis isWait c1 p) 1 ≤ min (hysteresis isWait c2 p) 1 := by
  have hcp : c1 * p ≤ c2 * p := mul_le_mul_of_nonneg_right h hp
  unfold hysteresis
  cases isWait
  · -- no wait
    simp only [Bool.false_eq_true, if_false]
    by_cases h2 : c2 * p < 1
    · have h1 : c1 * p < 1 := lt_of_le_of_lt hcp h2
      simp only [h1, h2, if_true]
      apply min_le_min _ le_rfl
      exact div_le_div_of_nonneg_left hp (by linarith) (by linarith)
    · simp only [h2, if_false]
      rw [min_self]
      exact min_le_right _ _
  · -- wait
    simp only [if_true]
    by_cases h2 : c2 * p < 1
    · have h1 : c1 * p < 1 := lt_of_le_of_lt hcp h2
      simp only [h1, h2, if_true]
      exact le_rfl
    · by_cases h2' : c2 * p < 2
      · simp only [h2, h2', if_true, if_false]
        have hf2 : 0 ≤ p / (2 - c2 * p) := div_nonneg hp (by linarith)
        by_cases h1 : c1 * p < 1
        · simp only [h1, if_true]
          exact le_min (le_trans (min_le_left _ _) hf2) (min_le_right _ _)
        · have h1' : c1 * p < 2 := lt_of_le_of_lt hcp h2'
          simp only [h1, h1', if_true, if_false]
          apply min_le_min _ le_rfl
          exact div_le_div_of_nonneg_left hp (by linarith) (by linarith)
      · simp only [h2, h2', if_false]
        rw [min_self]
        exact min_le_right _ _

/-- The hysteresis formula is not negative when the counter and the base probability are
not negative. -/
theorem hysteresis_nonneg (isWait : Bool) (c p : ℚ) (hp : 0 ≤ p) :
    0 ≤ hysteresis isWait c p := by
  unfold hysteresis
  split_ifs with _ h1 h2 h3
  · exact le_rfl
  · exact div_nonneg hp (by linarith)
  · exact zero_le_one
  · exact div_nonneg hp (by linarith)
  · exact zero_le_one

/-- The rescaling keeps a value that is not negative so. -/
theorem rescale_nonneg (mode : QueueDiscMode) (size meanPktSize : Nat) (x : ℚ) (hx : 0 ≤ x) :
    0 ≤ rescale mode size meanPktSize x := by
  unfold rescale
  simp only [clamp_eq_min]
  apply le_min _ zero_le_one
  split_ifs
  · exact div_nonneg (mul_nonneg hx (Nat.cast_nonneg _)) (Nat.cast_nonneg _)
  · exact hx

/-- C12: for a base probability `p` in `[0, 1]`, either wait setting, `meanPktSize > 0`
and every arriving size, `ModifyP` is monotonically non-decreasing in the counter: in
packet mode in `count`, in byte mode in `countBytes`. -/
theorem C12_modifyP_monotone_in_count (p : ℚ) (isWait : Bool) (meanPktSize size : Nat)
    (count count2 countBytes countBytes2 : Nat)
    (hp0 : 0 ≤ p) (_hp1 : p ≤ 1) (_hmean : 0 < meanPktSize) :
    (count ≤ count2 →
      ModifyP QUEUE_DISC_MODE_PACKETS p count countBytes meanPktSize isWait size
        ≤ ModifyP QUEUE_DISC_MODE_PACKETS p count2 countBytes meanPktSize isWait size)
    ∧ (countBytes ≤ countBytes2 →
      ModifyP QUEUE_DISC_MODE_BYTES p count countBytes meanPktSize isWait size
        ≤ ModifyP QUEUE_DISC_MODE_BYTES p count countBytes2 meanPktSize isWait size) := by
  constructor
  · intro h
    rw [ModifyP_eq, ModifyP_eq, rescale_min,
      rescale_min QUEUE_DISC_MODE_PACKETS size meanPktSize (hysteresis _ _ p)]
    apply rescale_mono
    apply hysteresis_min_mono_count _ _ _ _ hp0
    simp only [reduceCtorEq, if_false]
    exact Nat.cast_le.mpr h
  · intro h
    rw [ModifyP_eq, ModifyP_eq, rescale_min,
      rescale_min QUEUE_DISC_MODE_BYTES size meanPktSize (hysteresis _ _ p)]
    apply rescale_mono
    apply hysteresis_min_mono_count _ _ _ _ hp0
    simp only [if_true]
    exact Nat.cast_le.mpr (Nat.div_le_div_right h)

/-- C12 at `p = 1/10` with wait, in packet mode from 12 to 15 packets and in byte mode
from 6000 to 7500 bytes with a mean packet size of 500. -/
theorem C12_modifyP_monotone_in_count_witness :
    ((0 : ℚ) ≤ 1 / 10 ∧ (1 / 10 : ℚ) ≤ 1 ∧ 0 < 500)
    ∧ ModifyP QUEUE_DISC_MODE_PACKETS (1 / 10) 12 6000 500 true 500
        ≤ ModifyP QUEUE_DISC_MODE_PACKETS (1 / 10) 15 6000 500 true 500
    ∧ ModifyP QUEUE_DISC_MODE_BYTES (1 / 10) 12 6000 500 true 500
        ≤ ModifyP QUEUE_DISC_MODE_BYTES (1 / 10) 12 7500 500 true 500 :=
  ⟨by decide!,
   (C12_modifyP_monotone_in_count (1 / 10) true 500 500 12 15 6000 7500 (by decide!)
      (by decide!) (by decide!)).1 (by decide),
   (C12_modifyP_monotone_in_count (1 / 10) true 500 500 12 15 6000 7500 (by decide!)
      (by decide!) (by decide!)).2 (by decide)⟩

/-- C13: for a base probability `p` in `[0, 1]`, every `count` and `countBytes`, every
`meanPktSize > 0`, every arriving size, both wait settings and both modes, the result of
`ModifyP` lies in `[0, 1]`. -/
theorem C13_modifyP_is_probability (mode : QueueDiscMode) (p : ℚ)
    (count countBytes meanPktSize : Nat) (isWait : Bool) (size : Nat)
    (hp0 : 0 ≤ p) (_hp1 : p ≤ 1) (_hmean : 0 < meanPktSize) :
    0 ≤ ModifyP mode p count countBytes meanPktSize isWait size
    ∧ ModifyP mode p count countBytes meanPktSize isWait size ≤ 1 := by
  rw [ModifyP_eq]
  exact ⟨rescale_nonneg _ _ _ _ (hysteresis_nonneg _ _ _ hp0), rescale_le_one _ _ _ _⟩

/-- C13 at `p = 1/10`, 15 packets since the last drop, with wait, in byte mode. -/
theorem C13_modifyP_is_probability_witness :
    ((0 : ℚ) ≤ 1 / 10 ∧ (1 / 10 : ℚ) ≤ 1 ∧ 0 < 500)
    ∧ 0 ≤ ModifyP QUEUE_DISC_MODE_BYTES (1 / 10) 15 7500 500 true 1000
    ∧ ModifyP QUEUE_DISC_MODE_BYTES (1 / 10) 15 7500 500 true 1000 ≤ 1 :=
  ⟨by decide!,
   C13_modifyP_is_probability QUEUE_DISC_MODE_BYTES (1 / 10) 15 7500 500 true 1000
     (by decide!) (by decide!) (by decide!)⟩

/-! ### Applying the verdict -/

/-- The statistics after `admitIn`: `qLimDrop` is incremented when the internal queue
refuses the packet. -/
theorem admitIn_stats (item : QueueDiscItem) (s : RioQueueDisc) :
    (admitIn item s).2.m_stats =
      if (s.queue.Enqueue item).1 = false then
        { s.m_stats with qLimDrop := u32 (s.m_stats.qLimDrop + 1) }
      else s.m_stats := by
  unfold admitIn
  simp only []
  split_ifs <;> rfl

/-- The statistics after `admitOut`: `qLimDrop` is incremented when the internal queue
refuses the packet. -/
theorem admitOut_stats (item : QueueDiscItem) (s : RioQueueDisc) :
    (admitOut item s).2.m_stats =
      if (s.queue.Enqueue item).1 = false then
        { s.m_stats with qLimDrop := u32 (s.m_stats.qLimDrop + 1) }
      else s.m_stats := by
  unfold admitOut
  simp only []
  split_ifs <;> rfl

/-- An UNFORCED verdict applied to an In packet. -/
theorem applyIn_unforced (item : QueueDiscItem) (x : RioQueueDisc) :
    (x.m_useEcn = true ∧ Mark item = true →
      (applyIn DTYPE_UNFORCED item x).2.m_stats.unforcedMark = u32 (x.m_stats.unforcedMark + 1)
      ∧ (applyIn DTYPE_UNFORCED item x).2.m_stats.unforcedDrop = x.m_stats.unforcedDrop
      ∧ (applyIn DTYPE_UNFORCED item x).1 = (x.queue.Enqueue item).1
      ∧ (applyIn DTYPE_UNFORCED item x).2.queue = (x.queue.Enqueue item).2)
    ∧ (¬ (x.m_useEcn = true ∧ Mark item = true) →
      (applyIn DTYPE_UNFORCED item x).2.m_stats.unforcedDrop = u32 (x.m_stats.unforcedDrop + 1)
      ∧ (applyIn DTYPE_UNFORCED item x).2.m_stats.unforcedMark = x.m_stats.unforcedMark
      ∧ (applyIn DTYPE_UNFORCED item x).2.m_stats.forcedMark = x.m_stats.forcedMark
      ∧ (applyIn DTYPE_UNFORCED item x).1 = false
      ∧ (applyIn DTYPE_UNFORCED item x).2.queue = x.queue) := by
  constructor
  · intro h
    have hc : ¬ (x.m_useEcn = false ∨ Mark item = false) := by simp [h.1, h.2]
    unfold applyIn
    simp only [if_neg hc]
    rw [admitIn_stats, admitIn_fst, admitIn_queue]
    refine ⟨?_, ?_, rfl, rfl⟩
    · split_ifs <;> rfl
    · split_ifs <;> rfl
  · intro h
    have hc : x.m_useEcn = false ∨ Mark item = false := by
      by_cases he : x.m_useEcn = true
      · right
        cases hm : Mark item
        · rfl
        · exact absurd ⟨he, hm⟩ h
      · left
        simpa using he
    unfold applyIn
    simp [if_pos hc]

/-- An UNFORCED verdict applied to an Out packet. -/
theorem applyOut_unforced (item : QueueDiscItem) (x : RioQueueDisc) :
    (x.m_useEcn = true ∧ Mark item = true →
      (applyOut DTYPE_UNFORCED item x).2.m_stats.unforcedMark = u32 (x.m_stats.unforcedMark + 1)
      ∧ (applyOut DTYPE_UNFORCED item x).2.m_stats.unforcedDrop = x.m_stats.unforcedDrop
      ∧ (applyOut DTYPE_UNFORCED item x).1 = (x.queue.Enqueue item).1
      ∧ (applyOut DTYPE_UNFORCED item x).2.queue = (x.queue.Enqueue item).2)
    ∧ (¬ (x.m_useEcn = true ∧ Mark item = true) →
      (applyOut DTYPE_UNFORCED item x).2.m_stats.unforcedDrop
        = u32 (x.m_stats.unforcedDrop + 1)
      ∧ (applyOut DTYPE_UNFORCED item x).2.m_stats.unforcedMark = x.m_stats.unforcedMark
      ∧ (applyOut DTYPE_UNFORCED item x).2.m_stats.forcedMark = x.m_stats.forcedMark
      ∧ (applyOut DTYPE_UNFORCED item x).1 = false
      ∧ (applyOut DTYPE_UNFORCED item x).2.queue = x.queue) := by
  constructor
  · intro h
    have hc : ¬ (x.m_useEcn = false ∨ Mark item = false) := by simp [h.1, h.2]
    unfold applyOut
    simp only [if_neg hc]
    rw [admitOut_stats, admitOut_fst, admitOut_queue]
    refine ⟨?_, ?_, rfl, rfl⟩
    · split_ifs <;> rfl
    · split_ifs <;> rfl
  · intro h
    have hc : x.m_useEcn = false ∨ Mark item = false := by
      by_cases he : x.m_useEcn = true
      · right
        cases hm : Mark item
        · rfl
        · exact absurd ⟨he, hm⟩ h
      · left
        simpa using he
    unfold applyOut
    simp [if_pos hc]

/-- C14: when the verdict of `DoEnqueue` is UNFORCED (either class): if ECN is enabled and
the packet accepts the mark, `unforcedMark` is incremented by one (a `uint32_t`
increment), `unforcedDrop` is unchanged and the packet is handed to the internal queue
(the result and the queue are those of its `Enqueue`); otherwise `unforcedDrop` is
incremented by one, no mark counter changes, `DoEnqueue` returns false and the internal
queue is unchanged. -/
theorem C14_unforced_verdict (uv : Nat → ℚ) (now : Int) (item : QueueDiscItem)
    (s : RioQueueDisc) (hv : (enqueueVerdict uv now item s).1 = DTYPE_UNFORCED) :
    (s.m_useEcn = true ∧ Mark item = true →
      (DoEnqueue uv now item s).2.m_stats.unforcedMark = u32 (s.m_stats.unforcedMark + 1)
      ∧ (DoEnqueue uv now item s).2.m_stats.unforcedDrop = s.m_stats.unforcedDrop
      ∧ (DoEnqueue uv now item s).1 = (s.queue.Enqueue item).1
      ∧ (DoEnqueue uv now item s).2.queue = (s.queue.Enqueue item).2)
    ∧ (¬ (s.m_useEcn = true ∧ Mark item = true) →
      (DoEnqueue uv now item s).2.m_stats.unforcedDrop = u32 (s.m_stats.unforcedDrop + 1)
      ∧ (DoEnqueue uv now item s).2.m_stats.unforcedMark = s.m_stats.unforcedMark
      ∧ (DoEnqueue uv now item s).2.m_stats.forcedMark = s.m_stats.forcedMark
      ∧ (DoEnqueue uv now item s).1 = false
      ∧ (DoEnqueue uv now item s).2.queue = s.queue) := by
  have h2 : (enqueueVerdict uv now item s).2.m_useEcn = s.m_useEcn := by
    rw [enqueueVerdict_state]
  have h3 : (enqueueVerdict uv now item s).2.m_stats = s.m_stats := by
    rw [enqueueVerdict_state]
  have h4 : (enqueueVerdict uv now item s).2.queue = s.queue := by
    rw [enqueueVerdict_state]
  rw [DoEnqueue_eq, hv]
  split_ifs
  · have := applyIn_unforced item (enqueueVerdict uv now item s).2
    rw [h2, h3, h4] at this
    exact this
  · have := applyOut_unforced item (enqueueVerdict uv now item s).2
    rw [h2, h3, h4] at this
    exact this

/-- C14 on `engineInEarly` with an In packet and the draw 0: the verdict is UNFORCED, ECN
is disabled, and the packet is dropped. -/
theorem C14_unforced_verdict_witness :
    (enqueueVerdict (constStream 0) 0 (inPacket 9 500) engineInEarly).1 = DTYPE_UNFORCED
    ∧ (DoEnqueue (constStream 0) 0 (inPacket 9 500) engineInEarly).2.m_stats.unforcedDrop
        = u32 (engineInEarly.m_stats.unforcedDrop + 1)
    ∧ (DoEnqueue (constStream 0) 0 (inPacket 9 500) engineInEarly).1 = false :=
  ⟨by decide!,
   ((C14_unforced_verdict (constStream 0) 0 (inPacket 9 500) engineInEarly (by decide!)).2
      (by decide!)).1,
   ((C14_unforced_verdict (constStream 0) 0 (inPacket 9 500) engineInEarly (by decide!)).2
      (by decide!)).2.2.2.1⟩

/-- The three conditions under which a FORCED verdict marks instead of dropping, and the
condition of the source for dropping. -/
theorem forced_drop_condition (hard ecn mark : Bool)
    (h : ¬ (hard = false ∧ ecn = true ∧ mark = true)) :
    hard = true ∨ ecn = false ∨ mark = false := by
  cases hard <;> cases ecn <;> cases mark <;> simp_all

/-- A FORCED verdict applied to an In packet. -/
theorem applyIn_forced (item : QueueDiscItem) (x : RioQueueDisc) :
    (x.m_useHardDrop = false ∧ x.m_useEcn = true ∧ Mark item = true →
      (applyIn DTYPE_FORCED item x).2.m_stats.forcedMark = u32 (x.m_stats.forcedMark + 1)
      ∧ (applyIn DTYPE_FORCED item x).1 = (x.queue.Enqueue item).1
      ∧ (applyIn DTYPE_FORCED item x).2.queue = (x.queue.Enqueue item).2)
    ∧ (¬ (x.m_useHardDrop = false ∧ x.m_useEcn = true ∧ Mark item = true) →
      (applyIn DTYPE_FORCED item x).2.m_stats.forcedDrop = u32 (x.m_stats.forcedDrop + 1)
      ∧ (applyIn DTYPE_FORCED item x).1 = false
      ∧ (applyIn DTYPE_FORCED item x).2.queue = x.queue
      ∧ (x.m_isNs1Compat = true →
          (applyIn DTYPE_FORCED item x).2.m_countIn = 0
          ∧ (applyIn DTYPE_FORCED item x).2.m_countBytesIn = 0)
      ∧ (x.m_isNs1Compat = false →
          (applyIn DTYPE_FORCED item x).2.m_countIn = x.m_countIn
          ∧ (applyIn DTYPE_FORCED item x).2.m_countBytesIn = x.m_countBytesIn)) := by
  constructor
  · intro h
    have hc : ¬ (x.m_useHardDrop = true ∨ x.m_useEcn = false ∨ Mark item = false) := by
      simp [h.1, h.2.1, h.2.2]
    unfold applyIn
    simp only [if_neg hc]
    rw [admitIn_stats, admitIn_fst, admitIn_queue]
    refine ⟨?_, rfl, rfl⟩
    split_ifs <;> rfl
  · intro h
    have hc := forced_drop_condition _ _ _ h
    unfold applyIn
    by_cases hns : x.m_isNs1Compat = true <;> simp [if_pos hc, hns]

/-- A FORCED verdict applied to an Out packet. -/
theorem applyOut_forced (item : QueueDiscItem) (x : RioQueueDisc) :
    (x.m_useHardDrop = false ∧ x.m_useEcn = true ∧ Mark item = true →
      (applyOut DTYPE_FORCED item x).2.m_stats.forcedMark = u32 (x.m_stats.forcedMark + 1)
      ∧ (applyOut DTYPE_FORCED item x).1 = (x.queue.Enqueue item).1
      ∧ (applyOut DTYPE_FORCED item x).2.queue = (x.queue.Enqueue item).2)
    ∧ (¬ (x.m_useHardDrop = false ∧ x.m_useEcn = true ∧ Mark item = true) →
      (applyOut DTYPE_FORCED item x).2.m_stats.forcedDrop = u32 (x.m_stats.forcedDrop + 1)
      ∧ (applyOut DTYPE_FORCED item x).1 = false
      ∧ (applyOut DTYPE_FORCED item x).2.queue = x.queue
      ∧ (x.m_isNs1Compat = true →
          (applyOut DTYPE_FORCED item x).2.m_countOut = 0
          ∧ (applyOut DTYPE_FORCED item x).2.m_countBytesOut = 0)
      ∧ (x.m_isNs1Compat = false →
          (applyOut DTYPE_FORCED item x).2.m_countOut = x.m_countOut
          ∧ (applyOut DTYPE_FORCED item x).2.m_countBytesOut = x.m_countBytesOut)) := by
  constructor
  · intro h
    have hc : ¬ (x.m_useHardDrop = true ∨ x.m_useEcn = false ∨ Mark item = false) := by
      simp [h.1, h.2.1, h.2.2]
    unfold applyOut
    simp only [if_neg hc]
    rw [admitOut_stats, admitOut_fst, admitOut_queue]
    refine ⟨?_, rfl, rfl⟩
    split_ifs <;> rfl
  · intro h
    have hc := forced_drop_condition _ _ _ h
    unfold applyOut
    by_cases hns : x.m_isNs1Compat = true <;> simp [if_pos hc, hns]

/-! ### Every arrival is accounted for -/

/-- A `uint32_t` increment changes the value. -/
theorem u32_succ_ne (x : Nat) : u32 (x + 1) ≠ x := by
  intro h
  unfold u32 at h
  omega

/-- Appending an item changes the queue. -/
theorem queue_append_ne (q : InternalQueue) (item : QueueDiscItem) :
    ({ q with items := q.items ++ [item] } : InternalQueue) ≠ q := by
  intro h
  have := congrArg (fun z => z.items.length) h
  simp at this

/-- The two outcomes of `admitIn`. -/
theorem admitIn_outcome (item : QueueDiscItem) (x : RioQueueDisc) :
    ((x.queue.Enqueue item).1 = true ∧ (admitIn item x).1 = true
      ∧ (admitIn item x).2.queue = { x.queue with items := x.queue.items ++ [item] }
      ∧ (admitIn item x).2.m_stats = x.m_stats)
    ∨ ((x.queue.Enqueue item).1 = false ∧ (admitIn item x).1 = false
      ∧ (admitIn item x).2.queue = x.queue
      ∧ (admitIn item x).2.m_stats
          = { x.m_stats with qLimDrop := u32 (x.m_stats.qLimDrop + 1) }) := by
  rw [admitIn_fst, admitIn_queue, admitIn_stats]
  cases h : (x.queue.Enqueue item).1
  · right
    exact ⟨rfl, rfl, InternalQueue_Enqueue_false _ _ h, by simp⟩
  · left
    exact ⟨rfl, rfl, InternalQueue_Enqueue_true _ _ h, by simp⟩

/-- The two outcomes of `admitOut`. -/
theorem admitOut_outcome (item : QueueDiscItem) (x : RioQueueDisc) :
    ((x.queue.Enqueue item).1 = true ∧ (admitOut item x).1 = true
      ∧ (admitOut item x).2.queue = { x.queue with items := x.queue.items ++ [item] }
      ∧ (admitOut item x).2.m_stats = x.m_stats)
    ∨ ((x.queue.Enqueue item).1 = false ∧ (admitOut item x).1 = false
      ∧ (admitOut item x).2.queue = x.queue
      ∧ (admitOut item x).2.m_stats
          = { x.m_stats with qLimDrop := u32 (x.m_stats.qLimDrop + 1) }) := by
  rw [admitOut_fst, admitOut_queue, admitOut_stats]
  cases h : (x.queue.Enqueue item).1
  · right
    exact ⟨rfl, rfl, InternalQueue_Enqueue_false _ _ h, by simp⟩
  · left
    exact ⟨rfl, rfl, InternalQueue_Enqueue_true _ _ h, by simp⟩

/-- The four outcomes of applying a verdict to an In packet: admitted; early drop; forced
drop; refused by the internal queue. -/
theorem applyIn_outcome (d : DropType) (item : QueueDiscItem) (x : RioQueueDisc) :
    ((applyIn d item x).1 = true
      ∧ (applyIn d item x).2.queue = { x.queue with items := x.queue.items ++ [item] }
      ∧ (applyIn d item x).2.m_stats.unforcedDrop = x.m_stats.unforcedDrop
      ∧ (applyIn d item x).2.m_stats.forcedDrop = x.m_stats.forcedDrop
      ∧ (applyIn d item x).2.m_stats.qLimDrop = x.m_stats.qLimDrop
      ∧ verdictAdmits d x.m_useHardDrop x.m_useEcn (Mark item)
      ∧ (x.queue.Enqueue item).1 = true)
    ∨ ((applyIn d item x).1 = false
      ∧ (applyIn d item x).2.queue = x.queue
      ∧ (applyIn d item x).2.m_stats.unforcedDrop = u32 (x.m_stats.unforcedDrop + 1)
      ∧ (applyIn d item x).2.m_stats.forcedDrop = x.m_stats.forcedDrop
      ∧ (applyIn d item x).2.m_stats.qLimDrop = x.m_stats.qLimDrop
      ∧ ¬ verdictAdmits d x.m_useHardDrop x.m_useEcn (Mark item))
    ∨ ((applyIn d item x).1 = false
      ∧ (applyIn d item x).2.queue = x.queue
      ∧ (applyIn d item x).2.m_stats.unforcedDrop = x.m_stats.unforcedDrop
      ∧ (applyIn d item x).2.m_stats.forcedDrop = u32 (x.m_stats.forcedDrop + 1)
      ∧ (applyIn d item x).2.m_stats.qLimDrop = x.m_stats.qLimDrop
      ∧ ¬ verdictAdmits d x.m_useHardDrop x.m_useEcn (Mark item))
    ∨ ((applyIn d item x).1 = false
      ∧ (applyIn d item x).2.queue = x.queue
      ∧ (applyIn d item x).2.m_stats.unforcedDrop = x.m_stats.unforcedDrop
      ∧ (applyIn d item x).2.m_stats.forcedDrop = x.m_stats.forcedDrop
      ∧ (applyIn d item x).2.m_stats.qLimDrop = u32 (x.m_stats.qLimDrop + 1)
      ∧ verdictAdmits d x.m_useHardDrop x.m_useEcn (Mark item)
      ∧ (x.queue.Enqueue item).1 = false) := by
  cases d
  · -- NONE
    have hA : verdictAdmits DTYPE_NONE x.m_useHardDrop x.m_useEcn (Mark item) := Or.inl rfl
    have he : applyIn DTYPE_NONE item x = admitIn item x := rfl
    rw [he]
    rcases admitIn_outcome item x with ⟨a, b, c, e⟩ | ⟨a, b, c, e⟩
    · exact Or.inl ⟨b, c, by rw [e], by rw [e], by rw [e], hA, a⟩
    · exact Or.inr (Or.inr (Or.inr ⟨b, c, by rw [e], by rw [e], by rw [e], hA, a⟩))
  · -- FORCED
    by_cases hc : x.m_useHardDrop = true ∨ x.m_useEcn = false ∨ Mark item = false
    · have hA : ¬ verdictAdmits DTYPE_FORCED x.m_useHardDrop x.m_useEcn (Mark item) := by
        unfold verdictAdmits
        rcases hc with h | h | h <;> simp [h]
      have := applyIn_forced_drop item x hc
      refine Or.inr (Or.inr (Or.inl ⟨this.1, this.2.2, ?_, this.2.1, ?_, hA⟩))
      · unfold applyIn
        simp only [if_pos hc]
        split_ifs <;> rfl
      · unfold applyIn
        simp only [if_pos hc]
        split_ifs <;> rfl
    · have hA : verdictAdmits DTYPE_FORCED x.m_useHardDrop x.m_useEcn (Mark item) := by
        unfold verdictAdmits
        simp only [not_or, Bool.not_eq_true, Bool.not_eq_false] at hc
        exact Or.inr (Or.inr ⟨rfl, hc.1, hc.2.1, hc.2.2⟩)
      have he : applyIn DTYPE_FORCED item x = admitIn item { x with m_stats :=
          { x.m_stats with forcedMark := u32 (x.m_stats.forcedMark + 1) } } := by
        unfold applyIn
        simp only [if_neg hc]
      rw [he]
      rcases admitIn_outcome item { x with m_stats :=
          { x.m_stats with forcedMark := u32 (x.m_stats.forcedMark + 1) } }
        with ⟨a, b, c, e⟩ | ⟨a, b, c, e⟩
      · exact Or.inl ⟨b, c, by rw [e], by rw [e], by rw [e], hA, a⟩
      · exact Or.inr (Or.inr (Or.inr ⟨b, c, by rw [e], by rw [e], by rw [e], hA, a⟩))
  · -- UNFORCED
    by_cases hc : x.m_useEcn = false ∨ Mark item = false
    · have hA : ¬ verdictAdmits DTYPE_UNFORCED x.m_useHardDrop x.m_useEcn (Mark item) := by
        unfold verdictAdmits
        rcases hc with h | h <;> simp [h]
      refine Or.inr (Or.inl ?_)
      unfold applyIn
      simp only [if_pos hc]
      exact ⟨trivial, trivial, trivial, trivial, trivial, hA⟩
    · have hA : verdictAdmits DTYPE_UNFORCED x.m_useHardDrop x.m_useEcn (Mark item) := by
        unfold verdictAdmits
        simp only [not_or, Bool.not_eq_true, Bool.not_eq_false] at hc
        exact Or.inr (Or.inl ⟨rfl, hc.1, hc.2⟩)
      have he : applyIn DTYPE_UNFORCED item x = admitIn item { x with m_stats :=
          { x.m_stats with unforcedMark := u32 (x.m_stats.unforcedMark + 1) } } := by
        unfold applyIn
        simp only [if_neg hc]
      rw [he]
      rcases admitIn_outcome item { x with m_stats :=
          { x.m_stats with unforcedMark := u32 (x.m_stats.unforcedMark + 1) } }
        with ⟨a, b, c, e⟩ | ⟨a, b, c, e⟩
      · exact Or.inl ⟨b, c, by rw [e], by rw [e], by rw [e], hA, a⟩
      · exact Or.inr (Or.inr (Or.inr ⟨b, c, by rw [e], by rw [e], by rw [e], hA, a⟩))

/-- The four outcomes of applying a verdict to an Out packet: admitted; early drop; forced
drop; refused by the internal queue. -/
theorem applyOut_outcome (d : DropType) (item : QueueDiscItem) (x : RioQueueDisc) :
    ((applyOut d item x).1 = true
      ∧ (applyOut d item x).2.queue = { x.queue with items := x.queue.items ++ [item] }
      ∧ (applyOut d item x).2.m_stats.unforcedDrop = x.m_stats.unforcedDrop
      ∧ (applyOut d item x).2.m_stats.forcedDrop = x.m_stats.forcedDrop
      ∧ (applyOut d item x).2.m_stats.qLimDrop = x.m_stats.qLimDrop
      ∧ verdictAdmits d x.m_useHardDrop x.m_useEcn (Mark item)
      ∧ (x.queue.Enqueue item).1 = true)
    ∨ ((applyOut d item x).1 = false
      ∧ (applyOut d item x).2.queue = x.queue
      ∧ (applyOut d item x).2.m_stats.unforcedDrop = u32 (x.m_stats.unforcedDrop + 1)
      ∧ (applyOut d item x).2.m_stats.forcedDrop = x.m_stats.forcedDrop
      ∧ (applyOut d item x).2.m_stats.qLimDrop = x.m_stats.qLimDrop
      ∧ ¬ verdictAdmits d x.m_useHardDrop x.m_useEcn (Mark item))
    ∨ ((applyOut d item x).1 = false
      ∧ (applyOut d item x).2.queue = x.queue
      ∧ (applyOut d item x).2.m_stats.unforcedDrop = x.m_stats.unforcedDrop
      ∧ (applyOut d item x).2.m_stats.forcedDrop = u32 (x.m_stats.forcedDrop + 1)
      ∧ (applyOut d item x).2.m_stats.qLimDrop = x.m_stats.qLimDrop
      ∧ ¬ verdictAdmits d x.m_useHardDrop x.m_useEcn (Mark item))
    ∨ ((applyOut d item x).1 = false
      ∧ (applyOut d item x).2.queue = x.queue
      ∧ (applyOut d item x).2.m_stats.unforcedDrop = x.m_stats.unforcedDrop
      ∧ (applyOut d item x).2.m_stats.forcedDrop = x.m_stats.forcedDrop
      ∧ (applyOut d item x).2.m_stats.qLimDrop = u32 (x.m_stats.qLimDrop + 1)
      ∧ verdictAdmits d x.m_useHardDrop x.m_useEcn (Mark item)
      ∧ (x.queue.Enqueue item).1 = false) := by
  cases d
  · -- NONE
    have hA : verdictAdmits DTYPE_NONE x.m_useHardDrop x.m_useEcn (Mark item) := Or.inl rfl
    have he : applyOut DTYPE_NONE item x = admitOut item x := rfl
    rw [he]
    rcases admitOut_outcome item x with ⟨a, b, c, e⟩ | ⟨a, b, c, e⟩
    · exact Or.inl ⟨b, c, by rw [e], by rw [e], by rw [e], hA, a⟩
    · exact Or.inr (Or.inr (Or.inr ⟨b, c, by rw [e], by rw [e], by rw [e], hA, a⟩))
  · -- FORCED
    by_cases hc : x.m_useHardDrop = true ∨ x.m_useEcn = false ∨ Mark item = false
    · have hA : ¬ verdictAdmits DTYPE_FORCED x.m_useHardDrop x.m_useEcn (Mark item) := by
        unfold verdictAdmits
        rcases hc with h | h | h <;> simp [h]
      have := applyOut_forced_drop item x hc
      refine Or.inr (Or.inr (Or.inl ⟨this.1, this.2.2, ?_, this.2.1, ?_, hA⟩))
      · unfold applyOut
        simp only [if_pos hc]
        split_ifs <;> rfl
      · unfold applyOut
        simp only [if_pos hc]
        split_ifs <;> rfl
    · have hA : verdictAdmits DTYPE_FORCED x.m_useHardDrop x.m_useEcn (Mark item) := by
        unfold verdictAdmits
        simp only [not_or, Bool.not_eq_true, Bool.not_eq_false] at hc
        exact Or.inr (Or.inr ⟨rfl, hc.1, hc.2.1, hc.2.2⟩)
      have he : applyOut DTYPE_FORCED item x = admitOut item { x with m_stats :=
          { x.m_stats with forcedMark := u32 (x.m_stats.forcedMark + 1) } } := by
        unfold applyOut
        simp only [if_neg hc]
      rw [he]
      rcases admitOut_outcome item { x with m_stats :=
          { x.m_stats with forcedMark := u32 (x.m_stats.forcedMark + 1) } }
        with ⟨a, b, c, e⟩ | ⟨a, b, c, e⟩
      · exact Or.inl ⟨b, c, by rw [e], by rw [e], by rw [e], hA, a⟩
      · exact Or.inr (Or.inr (Or.inr ⟨b, c, by rw [e], by rw [e], by rw [e], hA, a⟩))
  · -- UNFORCED
    by_cases hc : x.m_useEcn = false ∨ Mark item = false
    · have hA : ¬ verdictAdmits DTYPE_UNFORCED x.m_useHardDrop x.m_useEcn (Mark item) := by
        unfold verdictAdmits
        rcases hc with h | h <;> simp [h]
      refine Or.inr (Or.inl ?_)
      unfold applyOut
      simp only [if_pos hc]
      exact ⟨trivial, trivial, trivial, trivial, trivial, hA⟩
    · have hA : verdictAdmits DTYPE_UNFORCED x.m_useHardDrop x.m_useEcn (Mark item) := by
        unfold verdictAdmits
        simp only [not_or, Bool.not_eq_true, Bool.not_eq_false] at hc
        exact Or.inr (Or.inl ⟨rfl, hc.1, hc.2⟩)
      have he : applyOut DTYPE_UNFORCED item x = admitOut item { x with m_stats :=
          { x.m_stats with unforcedMark := u32 (x.m_stats.unforcedMark + 1) } } := by
        unfold applyOut
        simp only [if_neg hc]
      rw [he]
      rcases admitOut_outcome item { x with m_stats :=
          { x.m_stats with unforcedMark := u32 (x.m_stats.unforcedMark + 1) } }
        with ⟨a, b, c, e⟩ | ⟨a, b, c, e⟩
      · exact Or.inl ⟨b, c, by rw [e], by rw [e], by rw [e], hA, a⟩
      · exact Or.inr (Or.inr (Or.inr ⟨b, c, by rw [e], by rw [e], by rw [e], hA, a⟩))

/-- The four outcomes of `DoEnqueue`: admitted; early drop; forced drop; refused by the
internal queue. -/
theorem DoEnqueue_outcome (uv : Nat → ℚ) (now : Int) (item : QueueDiscItem)
    (s : RioQueueDisc) :
    ((DoEnqueue uv now item s).1 = true
      ∧ (DoEnqueue uv now item s).2.queue
          = { s.queue with items := s.queue.items ++ [item] }
      ∧ (DoEnqueue uv now item s).2.m_stats.unforcedDrop = s.m_stats.unforcedDrop
      ∧ (DoEnqueue uv now item s).2.m_stats.forcedDrop = s.m_stats.forcedDrop
      ∧ (DoEnqueue uv now item s).2.m_stats.qLimDrop = s.m_stats.qLimDrop
      ∧ verdictAdmits (enqueueVerdict uv now item s).1 s.m_useHardDrop s.m_useEcn (Mark item)
      ∧ (s.queue.Enqueue item).1 = true)
    ∨ ((DoEnqueue uv now item s).1 = false
      ∧ (DoEnqueue uv now item s).2.queue = s.queue
      ∧ (DoEnqueue uv now item s).2.m_stats.unforcedDrop = u32 (s.m_stats.unforcedDrop + 1)
      ∧ (DoEnqueue uv now item s).2.m_stats.forcedDrop = s.m_stats.forcedDrop
      ∧ (DoEnqueue uv now item s).2.m_stats.qLimDrop = s.m_stats.qLimDrop
      ∧ ¬ verdictAdmits (enqueueVerdict uv now item s).1 s.m_useHardDrop s.m_useEcn
            (Mark item))
    ∨ ((DoEnqueue uv now item s).1 = false
      ∧ (DoEnqueue uv now item s).2.queue = s.queue
      ∧ (DoEnqueue uv now item s).2.m_stats.unforcedDrop = s.m_stats.unforcedDrop
      ∧ (DoEnqueue uv now item s).2.m_stats.forcedDrop = u32 (s.m_stats.forcedDrop + 1)
      ∧ (DoEnqueue uv now item s).2.m_stats.qLimDrop = s.m_stats.qLimDrop
      ∧ ¬ verdictAdmits (enqueueVerdict uv now item s).1 s.m_useHardDrop s.m_useEcn
            (Mark item))
    ∨ ((DoEnqueue uv now item s).1 = false
      ∧ (DoEnqueue uv now item s).2.queue = s.queue
      ∧ (DoEnqueue uv now item s).2.m_stats.unforcedDrop = s.m_stats.unforcedDrop
      ∧ (DoEnqueue uv now item s).2.m_stats.forcedDrop = s.m_stats.forcedDrop
      ∧ (DoEnqueue uv now item s).2.m_stats.qLimDrop = u32 (s.m_stats.qLimDrop + 1)
      ∧ verdictAdmits (enqueueVerdict uv now item s).1 s.m_useHardDrop s.m_useEcn (Mark item)
      ∧ (s.queue.Enqueue item).1 = false) := by
  have h1 : (enqueueVerdict uv now item s).2.m_useHardDrop = s.m_useHardDrop := by
    rw [enqueueVerdict_state]
  have h2 : (enqueueVerdict uv now item s).2.m_useEcn = s.m_useEcn := by
    rw [enqueueVerdict_state]
  have h3 : (enqueueVerdict uv now item s).2.m_stats = s.m_stats := by
    rw [enqueueVerdict_state]
  have h4 : (enqueueVerdict uv now item s).2.queue = s.queue := by
    rw [enqueueVerdict_state]
  rw [DoEnqueue_eq]
  split_ifs
  · have := applyIn_outcome (enqueueVerdict uv now item s).1 item
      (enqueueVerdict uv now item s).2
    rw [h1, h2, h3, h4] at this
    exact this
  · have := applyOut_outcome (enqueueVerdict uv now item s).1 item
      (enqueueVerdict uv now item s).2
    rw [h1, h2, h3, h4] at this
    exact this

/-- C16: every arrival is accounted for. For every state and packet, `DoEnqueue` returns
true if and only if the packet was appended to the tail of the internal queue, and then
none of `unforcedDrop`, `forcedDrop`, `qLimDrop` changes; it returns false if and only if
the internal queue is unchanged, and then exactly one of the three counters is incremented
by one (a `uint32_t` increment, which changes the value) while the other two keep their
values; `qLimDrop` is the one incremented exactly when the verdict admitted the packet
(`verdictAdmits`) and the internal queue itself refused it. -/
theorem C16_arrival_accounted (uv : Nat → ℚ) (now : Int) (item : QueueDiscItem)
    (s : RioQueueDisc) :
    ((DoEnqueue uv now item s).1 = true ↔
        (DoEnqueue uv now item s).2.queue
          = { s.queue with items := s.queue.items ++ [item] })
    ∧ ((DoEnqueue uv now item s).1 = true →
        (DoEnqueue uv now item s).2.m_stats.unforcedDrop = s.m_stats.unforcedDrop
        ∧ (DoEnqueue uv now item s).2.m_stats.forcedDrop = s.m_stats.forcedDrop
        ∧ (DoEnqueue uv now item s).2.m_stats.qLimDrop = s.m_stats.qLimDrop)
    ∧ ((DoEnqueue uv now item s).1 = false ↔ (DoEnqueue uv now item s).2.queue = s.queue)
    ∧ ((DoEnqueue uv now item s).1 = false →
        ((DoEnqueue uv now item s).2.m_stats.unforcedDrop = u32 (s.m_stats.unforcedDrop + 1)
          ∧ (DoEnqueue uv now item s).2.m_stats.unforcedDrop ≠ s.m_stats.unforcedDrop
          ∧ (DoEnqueue uv now item s).2.m_stats.forcedDrop = s.m_stats.forcedDrop
          ∧ (DoEnqueue uv now item s).2.m_stats.qLimDrop = s.m_stats.qLimDrop)
        ∨ ((DoEnqueue uv now item s).2.m_stats.unforcedDrop = s.m_stats.unforcedDrop
          ∧ (DoEnqueue uv now item s).2.m_stats.forcedDrop = u32 (s.m_stats.forcedDrop + 1)
          ∧ (DoEnqueue uv now item s).2.m_stats.forcedDrop ≠ s.m_stats.forcedDrop
          ∧ (DoEnqueue uv now item s).2.m_stats.qLimDrop = s.m_stats.qLimDrop)
        ∨ ((DoEnqueue uv now item s).2.m_stats.unforcedDrop = s.m_stats.unforcedDrop
          ∧ (DoEnqueue uv now item s).2.m_stats.forcedDrop = s.m_stats.forcedDrop
          ∧ (DoEnqueue uv now item s).2.m_stats.qLimDrop = u32 (s.m_stats.qLimDrop + 1)
          ∧ (DoEnqueue uv now item s).2.m_stats.qLimDrop ≠ s.m_stats.qLimDrop))
    ∧ ((DoEnqueue uv now item s).2.m_stats.qLimDrop = u32 (s.m_stats.qLimDrop + 1) ↔
        verdictAdmits (enqueueVerdict uv now item s).1 s.m_useHardDrop s.m_useEcn (Mark item)
        ∧ (s.queue.Enqueue item).1 = false) := by
  have hq := queue_append_ne s.queue item
  rcases DoEnqueue_outcome uv now item s with
    ⟨a, b, c, d, e, f, g⟩ | ⟨a, b, c, d, e, f⟩ | ⟨a, b, c, d, e, f⟩ | ⟨a, b, c, d, e, f, g⟩
  · refine ⟨⟨fun _ => b, fun _ => a⟩, fun _ => ⟨c, d, e⟩, ?_, ?_, ?_⟩
    · rw [a, b]
      exact ⟨fun h => absurd h (by simp), fun h => absurd h hq⟩
    · intro h
      rw [a] at h
      exact absurd h (by simp)
    · rw [e, g]
      exact ⟨fun h => absurd h.symm (u32_succ_ne _), fun h => absurd h.2 (by simp)⟩
  · refine ⟨?_, ?_, ⟨fun _ => b, fun _ => a⟩, fun _ => Or.inl ⟨c, ?_, d, e⟩, ?_⟩
    · rw [a, b]
      exact ⟨fun h => absurd h (by simp), fun h => absurd h.symm hq⟩
    · intro h
      rw [a] at h
      exact absurd h (by simp)
    · rw [c]
      exact u32_succ_ne _
    · rw [e]
      exact ⟨fun h => absurd h.symm (u32_succ_ne _), fun h => absurd h.1 f⟩
  · refine ⟨?_, ?_, ⟨fun _ => b, fun _ => a⟩, fun _ => Or.inr (Or.inl ⟨c, d, ?_, e⟩), ?_⟩
    · rw [a, b]
      exact ⟨fun h => absurd h (by simp), fun h => absurd h.symm hq⟩
    · intro h
      rw [a] at h
      exact absurd h (by simp)
    · rw [d]
      exact u32_succ_ne _
    · rw [e]
      exact ⟨fun h => absurd h.symm (u32_succ_ne _), fun h => absurd h.1 f⟩
  · refine ⟨?_, ?_, ⟨fun _ => b, fun _ => a⟩, fun _ => Or.inr (Or.inr ⟨c, d, e, ?_⟩),
      ⟨fun _ => ⟨f, g⟩, fun _ => e⟩⟩
    · rw [a, b]
      exact ⟨fun h => absurd h (by simp), fun h => absurd h.symm hq⟩
    · intro h
      rw [a] at h
      exact absurd h (by simp)
    · rw [e]
      exact u32_succ_ne _

/-! ### Dequeue -/

/-- The function `DoDequeue` on an empty internal queue, as one record update. -/
theorem DoDequeue_empty (now : Int) (s : RioQueueDisc) (h : s.queue.IsEmpty = true) :
    DoDequeue now s
      = (none, { s with m_idle := true, m_idleTime := now, m_idleIn := true }) := by
  unfold DoDequeue
  simp [h]

/-- The function `DoDequeue` on an internal queue with a head packet, as one record
update for each class of the head packet. -/
theorem DoDequeue_head (now : Int) (s : RioQueueDisc) (x : QueueDiscItem)
    (rest : List QueueDiscItem) (h : s.queue.items = x :: rest) :
    DoDequeue now s
      = if Classify x ≠ 0 then
          (some x, { s with m_idle := false, queue := { s.queue with items := rest },
                            m_flow := Classify x, m_idleIn := false,
                            inbcount := sub32 s.inbcount x.size,
                            inlen := sub32 s.inlen 1 })
        else
          (some x, { s with m_idle := false, queue := { s.queue with items := rest },
                            m_flow := Classify x }) := by
  have he : s.queue.IsEmpty = false := by
    unfold InternalQueue.IsEmpty
    rw [h]
    rfl
  have hd : s.queue.Dequeue = (some x, { s.queue with items := rest }) := by
    unfold InternalQueue.Dequeue
    rw [h]
  unfold DoDequeue
  simp only [he, hd]
  by_cases hc : Classify x = 0 <;> simp [hc]

/-- The function `DoDequeue` leaves the statistics as they were. -/
theorem DoDequeue_stats (now : Int) (s : RioQueueDisc) :
    (DoDequeue now s).2.m_stats = s.m_stats := by
  cases hq : s.queue.items with
  | nil =>
    have he : s.queue.IsEmpty = true := by
      unfold InternalQueue.IsEmpty
      rw [hq]
      rfl
    rw [DoDequeue_empty now s he]
  | cons x rest =>
    rw [DoDequeue_head now s x rest hq]
    split_ifs <;> rfl

/-! ### The statistics under one call -/

/-- No statistic moves by more than one increment under `applyIn`. -/
theorem applyIn_statsAdvance (d : DropType) (item : QueueDiscItem) (x : RioQueueDisc) :
    statsAdvance x.m_stats (applyIn d item x).2.m_stats := by
  unfold applyIn statsAdvance
  cases d <;> simp only []
  · rw [admitIn_stats]
    split_ifs <;> simp
  · split_ifs
    · simp
    · simp
    · rw [admitIn_stats]
      split_ifs <;> simp
  · split_ifs
    · simp
    · rw [admitIn_stats]
      split_ifs <;> simp

/-- No statistic moves by more than one increment under `applyOut`. -/
theorem applyOut_statsAdvance (d : DropType) (item : QueueDiscItem) (x : RioQueueDisc) :
    statsAdvance x.m_stats (applyOut d item x).2.m_stats := by
  unfold applyOut statsAdvance
  cases d <;> simp only []
  · rw [admitOut_stats]
    split_ifs <;> simp
  · split_ifs
    · simp
    · simp
    · rw [admitOut_stats]
      split_ifs <;> simp
  · split_ifs
    · simp
    · rw [admitOut_stats]
      split_ifs <;> simp

/-- No statistic moves by more than one increment under `DoEnqueue`. -/
theorem DoEnqueue_statsAdvance (uv : Nat → ℚ) (now : Int) (item : QueueDiscItem)
    (s : RioQueueDisc) :
    statsAdvance s.m_stats (DoEnqueue uv now item s).2.m_stats := by
  have h3 : (enqueueVerdict uv now item s).2.m_stats = s.m_stats := by
    rw [enqueueVerdict_state]
  rw [DoEnqueue_eq]
  split_ifs
  · have := applyIn_statsAdvance (enqueueVerdict uv now item s).1 item
      (enqueueVerdict uv now item s).2
    rw [h3] at this
    exact this
  · have := applyOut_statsAdvance (enqueueVerdict uv now item s).1 item
      (enqueueVerdict uv now item s).2
    rw [h3] at this
    exact this

/-- No statistic moves by more than one increment under one call. -/
theorem step_statsAdvance (uv : Nat → ℚ) (s : RioQueueDisc) (ev : Event) :
    statsAdvance s.m_stats (step uv s ev).m_stats := by
  cases ev with
  | enqueue now item => exact DoEnqueue_statsAdvance uv now item s
  | dequeue now =>
    show statsAdvance s.m_stats (DoDequeue now s).2.m_stats
    rw [DoDequeue_stats]
    simp [statsAdvance]
  | peek => simp [step, statsAdvance]

/-- Below the largest value, a counter that was left alone or incremented did not
decrease. -/
theorem advance_le (a b : Nat) (h : b = a ∨ b = u32 (a + 1)) (hb : a + 1 < 4294967296) :
    a ≤ b := by
  unfold u32 at h
  omega

/-- C17 (counterexample): on `wrapEngine`, whose queue is full and whose `forcedDrop` is
`4294967295`, one `Enqueue` call drops the packet and `forcedDrop` wraps to 0: the
counter after the call is below the counter before the call. -/
theorem C17_counterexample :
    wrapEngine.m_stats.forcedDrop = 4294967295
    ∧ (step (constStream 0) wrapEngine (Event.enqueue 0 (inPacket 3 100))).m_stats.forcedDrop
        = 0
    ∧ ¬ (wrapEngine.m_stats.forcedDrop
          ≤ (step (constStream 0) wrapEngine
              (Event.enqueue 0 (inPacket 3 100))).m_stats.forcedDrop) := by
  decide!

/-- C17 (amended): under one `Enqueue`, `Dequeue` or `Peek` call each of the five
statistics is left alone or incremented once as a `uint32_t` (`statsAdvance`); hence a
statistic that is below `2 ^ 32 - 1` before the call is, after the call, at least its
value before the call; `Dequeue` and `Peek` leave all five unchanged. -/
theorem C17_stats_monotone_below_wrap (uv : Nat → ℚ) (s : RioQueueDisc) (ev : Event) :
    statsAdvance s.m_stats (step uv s ev).m_stats
    ∧ (s.m_stats.forcedDrop + 1 < 4294967296 →
        s.m_stats.forcedDrop ≤ (step uv s ev).m_stats.forcedDrop)
    ∧ (s.m_stats.unforcedDrop + 1 < 4294967296 →
        s.m_stats.unforcedDrop ≤ (step uv s ev).m_stats.unforcedDrop)
    ∧ (s.m_stats.qLimDrop + 1 < 4294967296 →
        s.m_stats.qLimDrop ≤ (step uv s ev).m_stats.qLimDrop)
    ∧ (s.m_stats.forcedMark + 1 < 4294967296 →
        s.m_stats.forcedMark ≤ (step uv s ev).m_stats.forcedMark)
    ∧ (s.m_stats.unforcedMark + 1 < 4294967296 →
        s.m_stats.unforcedMark ≤ (step uv s ev).m_stats.unforcedMark)
    ∧ (∀ now : Int, (step uv s (Event.dequeue now)).m_stats = s.m_stats)
    ∧ (step uv s Event.peek).m_stats = s.m_stats := by
  have h := step_statsAdvance uv s ev
  refine ⟨h, ?_, ?_, ?_, ?_, ?_, fun now => DoDequeue_stats now s, rfl⟩
  · exact advance_le _ _ h.1
  · exact advance_le _ _ h.2.1
  · exact advance_le _ _ h.2.2.1
  · exact advance_le _ _ h.2.2.2.1
  · exact advance_le _ _ h.2.2.2.2

/-- C17 (amended) on the full queue of `fullEngine` with an In packet: `forcedDrop` is 0
before the call and not smaller after it. -/
theorem C17_stats_monotone_below_wrap_witness :
    fullEngine.m_stats.forcedDrop + 1 < 4294967296
    ∧ fullEngine.m_stats.forcedDrop
        ≤ (step (constStream 0) fullEngine
            (Event.enqueue 0 (inPacket 3 100))).m_stats.forcedDrop :=
  ⟨by decide!,
   (C17_stats_monotone_below_wrap (constStream 0) fullEngine
      (Event.enqueue 0 (inPacket 3 100))).2.1 (by decide!)⟩

/-- C18: `DoDequeue` on an empty internal queue returns no packet, sets both idle flags
(`m_idle`, `m_idleIn`), records the clock in `m_idleTime` and changes nothing else: the
averages, the counters since the last drop, the statistics and the In occupancy are as
before. -/
theorem C18_dequeue_empty (now : Int) (s : RioQueueDisc) (h : s.queue.IsEmpty = true) :
    (DoDequeue now s).1 = none
    ∧ (DoDequeue now s).2 = { s with m_idle := true, m_idleIn := true, m_idleTime := now }
    ∧ (DoDequeue now s).2.m_idle = true
    ∧ (DoDequeue now s).2.m_idleIn = true
    ∧ (DoDequeue now s).2.m_idleTime = now
    ∧ (DoDequeue now s).2.m_qAvg = s.m_qAvg
    ∧ (DoDequeue now s).2.m_qAvgIn = s.m_qAvgIn
    ∧ (DoDequeue now s).2.m_count = s.m_count
    ∧ (DoDequeue now s).2.m_countBytes = s.m_countBytes
    ∧ (DoDequeue now s).2.m_countIn = s.m_countIn
    ∧ (DoDequeue now s).2.m_countBytesIn = s.m_countBytesIn
    ∧ (DoDequeue now s).2.m_countOut = s.m_countOut
    ∧ (DoDequeue now s).2.m_countBytesOut = s.m_countBytesOut
    ∧ (DoDequeue now s).2.m_stats = s.m_stats
    ∧ (DoDequeue now s).2.inlen = s.inlen
    ∧ (DoDequeue now s).2.inbcount = s.inbcount := by
  rw [DoDequeue_empty now s h]
  exact ⟨rfl, rfl, rfl, rfl, rfl, rfl, rfl, rfl, rfl, rfl, rfl, rfl, rfl, rfl, rfl, rfl⟩

/-- C18 on the engine initialised from the attribute defaults, with the clock at 5. -/
theorem C18_dequeue_empty_witness :
    initDefaults.queue.IsEmpty = true
    ∧ (DoDequeue 5 initDefaults).1 = none
    ∧ (DoDequeue 5 initDefaults).2.m_idleTime = 5 :=
  ⟨by decide!, (C18_dequeue_empty 5 initDefaults (by decide!)).1,
   (C18_dequeue_empty 5 initDefaults (by decide!)).2.2.2.2.1⟩

/-- C19: `DoDequeue` on an internal queue with head packet `x` returns `x`, removes it
from the queue and clears `m_idle`. If `x` is classified In (`Classify x ≠ 0`), `inlen`
is decremented by one and `inbcount` by the size of `x` (as `uint32_t`; plain
subtraction when the occupancy is at least that large) and `m_idleIn` is cleared; if
`x` is classified Out, `inlen`, `inbcount` and `m_idleIn` are unchanged. In both cases
the averages, the counters since the last drop and the statistics are unchanged. -/
theorem C19_dequeue_head (now : Int) (s : RioQueueDisc) (x : QueueDiscItem)
    (rest : List QueueDiscItem) (h : s.queue.items = x :: rest) :
    (DoDequeue now s).1 = some x
    ∧ (DoDequeue now s).2.queue = { s.queue with items := rest }
    ∧ (DoDequeue now s).2.m_idle = false
    ∧ (Classify x ≠ 0 →
        (DoDequeue now s).2.inlen = sub32 s.inlen 1
        ∧ (DoDequeue now s).2.inbcount = sub32 s.inbcount x.size
        ∧ (DoDequeue now s).2.m_idleIn = false
        ∧ (1 ≤ s.inlen → s.inlen < 4294967296 → (DoDequeue now s).2.inlen = s.inlen - 1)
        ∧ (x.size ≤ s.inbcount → s.inbcount < 4294967296 →
            (DoDequeue now s).2.inbcount = s.inbcount - x.size))
    ∧ (Classify x = 0 →
        (DoDequeue now s).2.inlen = s.inlen
        ∧ (DoDequeue now s).2.inbcount = s.inbcount
        ∧ (DoDequeue now s).2.m_idleIn = s.m_idleIn)
    ∧ (DoDequeue now s).2.m_qAvg = s.m_qAvg
    ∧ (DoDequeue now s).2.m_qAvgIn = s.m_qAvgIn
    ∧ (DoDequeue now s).2.m_count = s.m_count
    ∧ (DoDequeue now s).2.m_countBytes = s.m_countBytes
    ∧ (DoDequeue now s).2.m_countIn = s.m_countIn
    ∧ (DoDequeue now s).2.m_countBytesIn = s.m_countBytesIn
    ∧ (DoDequeue now s).2.m_countOut = s.m_countOut
    ∧ (DoDequeue now s).2.m_countBytesOut = s.m_countBytesOut
    ∧ (DoDequeue now s).2.m_stats = s.m_stats := by
  rw [DoDequeue_head now s x rest h]
  by_cases hc : Classify x ≠ 0
  · rw [if_pos hc]
    refine ⟨rfl, rfl, rfl, fun _ => ⟨rfl, rfl, rfl, ?_, ?_⟩, fun h0 => absurd h0 hc,
      rfl, rfl, rfl, rfl, rfl, rfl, rfl, rfl, rfl⟩
    · intro h1 h2
      show sub32 s.inlen 1 = s.inlen - 1
      unfold sub32
      omega
    · intro h1 h2
      show sub32 s.inbcount x.size = s.inbcount - x.size
      unfold sub32
      omega
  · rw [if_neg hc]
    exact ⟨rfl, rfl, rfl, fun h0 => absurd h0 hc, fun _ => ⟨rfl, rfl, rfl⟩,
      rfl, rfl, rfl, rfl, rfl, rfl, rfl, rfl, rfl⟩

/-- C19 on `inHeadEngine`, whose queue holds one In packet of 100 bytes: the packet is
returned and the In occupancy goes from 1 packet to 0. -/
theorem C19_dequeue_head_witness :
    inHeadEngine.queue.items = inPacket 1 100 :: []
    ∧ inHeadEngine.inlen = 1
    ∧ (DoDequeue 0 inHeadEngine).1 = some (inPacket 1 100)
    ∧ (DoDequeue 0 inHeadEngine).2.inlen = inHeadEngine.inlen - 1 :=
  ⟨by decide!, by decide!,
   (C19_dequeue_head 0 inHeadEngine (inPacket 1 100) [] (by decide!)).1,
   ((C19_dequeue_head 0 inHeadEngine (inPacket 1 100) [] (by decide!)).2.2.2.1
      (by decide!)).2.2.2.1 (by decide!) (by decide!)⟩

/-! ### Initialization: the run-time state -/

/-- The run-time members after the stages of a successful initialization. -/
theorem stages_runtime (expF : ℚ → ℚ) (t : RioQueueDisc) :
    (queueWeight expF (coefficientsOut (coefficientsIn (resetRuntime t))))
      = { queueWeight expF (coefficientsOut (coefficientsIn (resetRuntime t))) with
          m_stats := { unforcedDrop := 0, forcedDrop := 0, qLimDrop := 0,
                       unforcedMark := 0, forcedMark := 0 },
          m_qAvg := 0, m_qAvgIn := 0, m_countOut := 0, m_countIn := 0,
          m_countBytesOut := 0, m_countBytesIn := 0, m_oldOut := 0,
          m_oldIn := 0, m_idle := true, m_idleIn := true,
          inlen := 0, inbcount := 0, m_idleTime := 0 } := by
  rw [queueWeight_eq, coefficientsOut_eq, coefficientsIn_eq]
  rfl

/-- C20: `InitializeParams` returns a state whenever the thresholds (after the defaults
are filled in) are ordered in both classes, and whatever the prior state, in the state it
returns the five statistics are 0, the combined and the In average are 0, the counters
`m_countIn`, `m_countBytesIn`, `m_countOut`, `m_countBytesOut` are 0, both flags
`m_oldIn`, `m_oldOut` are 0, both idle flags are set, the idle start is 0 and the In
occupancy (`inlen`, `inbcount`) is 0. -/
theorem C20_initialization_resets (expF : ℚ → ℚ) (cfg : RioQueueDisc) :
    ((defaultThresholds cfg).m_minThIn ≤ (defaultThresholds cfg).m_maxThIn →
      (defaultThresholds cfg).m_minThOut ≤ (defaultThresholds cfg).m_maxThOut →
      (InitializeParams expF cfg).isSome = true)
    ∧ (∀ s : RioQueueDisc, InitializeParams expF cfg = some s →
        s.m_stats = { unforcedDrop := 0, forcedDrop := 0, qLimDrop := 0,
                      unforcedMark := 0, forcedMark := 0 }
        ∧ s.m_qAvg = 0 ∧ s.m_qAvgIn = 0
        ∧ s.m_countIn = 0 ∧ s.m_countBytesIn = 0
        ∧ s.m_countOut = 0 ∧ s.m_countBytesOut = 0
        ∧ s.m_oldIn = 0 ∧ s.m_oldOut = 0
        ∧ s.m_idle = true ∧ s.m_idleIn = true
        ∧ s.m_idleTime = 0
        ∧ s.inlen = 0 ∧ s.inbcount = 0) := by
  constructor
  · intro h1 h2
    unfold InitializeParams
    simp [h1, h2]
  · intro s h
    have hs := (InitializeParams_some expF cfg s h).1
    rw [hs, stages_runtime]
    exact ⟨rfl, rfl, rfl, rfl, rfl, rfl, rfl, rfl, rfl, rfl, rfl, rfl, rfl, rfl⟩

/-- C20 on `wrapEngine`, a state with two packets queued and `forcedDrop` at
`4294967295`: the initialization succeeds and the statistics are zero afterwards. -/
theorem C20_initialization_resets_witness :
    wrapEngine.m_stats.forcedDrop = 4294967295
    ∧ (InitializeParams id wrapEngine).isSome = true
    ∧ InitializeParams id wrapEngine = some reinitEngine
    ∧ reinitEngine.m_stats = { unforcedDrop := 0, forcedDrop := 0, qLimDrop := 0,
                               unforcedMark := 0, forcedMark := 0 }
    ∧ reinitEngine.m_idle = true :=
  ⟨by decide!,
   (C20_initialization_resets id wrapEngine).1 (by decide!) (by decide!),
   by decide!,
   ((C20_initialization_resets id wrapEngine).2 reinitEngine (by decide!)).1,
   ((C20_initialization_resets id wrapEngine).2 reinitEngine
      (by decide!)).2.2.2.2.2.2.2.2.2.1⟩

/-! ### Setting the thresholds -/

/-- C24: `SetTh` with ordered thresholds in both classes returns the state with the four
thresholds set to the given values and every other member as before (so the statistics,
the averages and the derived coefficients are untouched); with `minThIn > maxThIn` or
`minThOut > maxThOut` it fails (the assertion) and returns no state. -/
theorem C24_setTh_frame (minThIn maxThIn minThOut maxThOut : ℚ) (s : RioQueueDisc) :
    (minThIn ≤ maxThIn ∧ minThOut ≤ maxThOut →
      SetTh minThIn maxThIn minThOut maxThOut s
        = some { s with m_minThIn := minThIn, m_maxThIn := maxThIn,
                        m_minThOut := minThOut, m_maxThOut := maxThOut })
    ∧ (minThIn > maxThIn ∨ minThOut > maxThOut →
      SetTh minThIn maxThIn minThOut maxThOut s = none) := by
  unfold SetTh
  constructor
  · rintro ⟨h1, h2⟩
    simp [h1, h2]
  · rintro (h | h)
    · simp [not_le.mpr h]
    · by_cases h1 : minThIn ≤ maxThIn <;> simp [h1, not_le.mpr h]

/-- C24 on the engine initialised from the attribute defaults: the thresholds of the test
suite in byte mode are accepted, thresholds out of order are rejected. -/
theorem C24_setTh_frame_witness :
    SetTh 5000 15000 1500 4500 initDefaults
        = some { initDefaults with m_minThIn := 5000, m_maxThIn := 15000,
                                   m_minThOut := 1500, m_maxThOut := 4500 }
    ∧ SetTh 30 10 3 9 initDefaults = none :=
  ⟨(C24_setTh_frame 5000 15000 1500 4500 initDefaults).1 (by decide!),
   (C24_setTh_frame 30 10 3 9 initDefaults).2 (by decide!)⟩

/-! ### The amplification against its reference definition -/

/-- The hysteresis formula of `ModifyP` is the reference definition. -/
theorem hysteresis_eq_spec (isWait : Bool) (c p : ℚ) :
    hysteresis isWait c p = specAmplify isWait p c := by
  unfold hysteresis specAmplify
  by_cases h1 : c * p < 1
  · simp [h1]
  · simp [h1, not_lt.mp h1]

/-- C29: in packet mode `ModifyP` is the reference definition `specAmplify` on
`n = count`, clamped at 1, and does not depend on `countBytes`, `meanPktSize` or the
size of the arriving packet. -/
theorem C29_modifyP_packet_mode (p : ℚ) (count countBytes meanPktSize : Nat)
    (isWait : Bool) (size countBytes2 meanPktSize2 size2 : Nat) :
    ModifyP QUEUE_DISC_MODE_PACKETS p count countBytes meanPktSize isWait size
      = min (specAmplify isWait p (count : ℚ)) 1
    ∧ ModifyP QUEUE_DISC_MODE_PACKETS p count countBytes meanPktSize isWait size
      = ModifyP QUEUE_DISC_MODE_PACKETS p count countBytes2 meanPktSize2 isWait size2 := by
  have key : ∀ cb mean sz : Nat,
      ModifyP QUEUE_DISC_MODE_PACKETS p count cb mean isWait sz
        = min (specAmplify isWait p (count : ℚ)) 1 := by
    intro cb mean sz
    rw [ModifyP_eq]
    unfold rescale
    simp only [reduceCtorEq, if_false, false_and, clamp_eq_min, hysteresis_eq_spec]
  exact ⟨key _ _ _, by rw [key, key]⟩

/-- C30 (counterexample): in byte mode with wait, `p = 4/5`, 750 bytes since the last
drop, a mean packet size of 500 and an arriving packet of 500 bytes, `ModifyP` returns 0
(the integer quotient `750 / 500` is 1 and `1 * 4/5 < 1`), while the formula on the real
quotient `3/2` gives 1. -/
theorem C30_counterexample :
    ModifyP QUEUE_DISC_MODE_BYTES (4 / 5) 0 750 500 true 500 = 0
    ∧ specAmplifyBytesReal true (4 / 5) 750 500 500 = 1 := by
  decide!

/-- C30 (amended): in byte mode, for `meanPktSize > 0`, `ModifyP` is the reference
formula on the integer quotient `countBytes / meanPktSize`; a result below 1 is
multiplied by `size / meanPktSize`; the result is clamped at 1. -/
theorem C30_modifyP_byte_mode (p : ℚ) (count countBytes meanPktSize : Nat)
    (isWait : Bool) (size : Nat) (_hmean : 0 < meanPktSize) :
    ModifyP QUEUE_DISC_MODE_BYTES p count countBytes meanPktSize isWait size
      = specAmplifyBytesInt isWait p countBytes meanPktSize size := by
  rw [ModifyP_eq]
  unfold rescale specAmplifyBytesInt
  simp only [if_true, true_and, clamp_eq_min, hysteresis_eq_spec]

/-- C30 (amended) on the input of the counterexample: the integer quotient gives 0. -/
theorem C30_modifyP_byte_mode_witness :
    0 < 500
    ∧ ModifyP QUEUE_DISC_MODE_BYTES (4 / 5) 0 750 500 true 500
        = specAmplifyBytesInt true (4 / 5) 750 500 500
    ∧ specAmplifyBytesInt true (4 / 5) 750 500 500 = 0 :=
  ⟨by decide, C30_modifyP_byte_mode (4 / 5) 0 750 500 true 500 (by decide), by decide!⟩

/-! ### Initialization: what is validated -/

/-- The function `InitializeParams` fails exactly when the thresholds of a class, after
the defaults are filled in, are out of order. -/
theorem InitializeParams_none_iff (expF : ℚ → ℚ) (cfg : RioQueueDisc) :
    InitializeParams expF cfg = none ↔
      (defaultThresholds cfg).m_minThIn > (defaultThresholds cfg).m_maxThIn
      ∨ (defaultThresholds cfg).m_minThOut > (defaultThresholds cfg).m_maxThOut := by
  unfold InitializeParams
  by_cases h1 : (defaultThresholds cfg).m_minThIn ≤ (defaultThresholds cfg).m_maxThIn
  · by_cases h2 : (defaultThresholds cfg).m_minThOut ≤ (defaultThresholds cfg).m_maxThOut
    · simp [h1, h2]
    · simp [h1, h2, not_le.mp h2]
  · simp [h1, not_le.mp h1]

/-- The function `InitializeParams` returns a state exactly when the thresholds of both
classes, after the defaults are filled in, are ordered. -/
theorem InitializeParams_isSome_iff (expF : ℚ → ℚ) (cfg : RioQueueDisc) :
    (InitializeParams expF cfg).isSome = true ↔
      (defaultThresholds cfg).m_minThIn ≤ (defaultThresholds cfg).m_maxThIn
      ∧ (defaultThresholds cfg).m_minThOut ≤ (defaultThresholds cfg).m_maxThOut := by
  unfold InitializeParams
  by_cases h1 : (defaultThresholds cfg).m_minThIn ≤ (defaultThresholds cfg).m_maxThIn
  · by_cases h2 : (defaultThresholds cfg).m_minThOut ≤ (defaultThresholds cfg).m_maxThOut
    · simp [h1, h2]
    · simp [h1, h2]
  · simp [h1]

/-- The thresholds after the defaults are filled in. -/
theorem defaultThresholds_fields (cfg : RioQueueDisc) :
    (defaultThresholds cfg).m_minThIn
        = (if cfg.m_minThIn = 0 ∧ cfg.m_maxThIn = 0 then
            (if cfg.m_mode = QUEUE_DISC_MODE_BYTES then 15 * (cfg.m_meanPktSize : ℚ) else 15)
          else cfg.m_minThIn)
    ∧ (defaultThresholds cfg).m_maxThIn
        = (if cfg.m_minThIn = 0 ∧ cfg.m_maxThIn = 0 then 30 else cfg.m_maxThIn)
    ∧ (defaultThresholds cfg).m_minThOut
        = (if cfg.m_minThOut = 0 ∧ cfg.m_maxThOut = 0 then
            (if cfg.m_mode = QUEUE_DISC_MODE_BYTES then 5 * (cfg.m_meanPktSize : ℚ) else 5)
          else cfg.m_minThOut)
    ∧ (defaultThresholds cfg).m_maxThOut
        = (if cfg.m_minThOut = 0 ∧ cfg.m_maxThOut = 0 then 15 else cfg.m_maxThOut) := by
  rw [defaultThresholds_eq]
  exact ⟨rfl, rfl, rfl, rfl⟩

/-- C22: `InitializeParams` fails exactly when the thresholds of a class are out of order
after the defaults are filled in. When no class has both thresholds equal to 0 this is
the order of the configured thresholds, and in packet mode every configuration with
ordered thresholds passes, the one with both thresholds 0 included. In byte mode a class
with both thresholds 0 gets the minimum threshold `15 * meanPktSize` (In) or
`5 * meanPktSize` (Out) and the maximum threshold 30 or 15, so the initialization fails
for `meanPktSize ≥ 3` (In) or `meanPktSize ≥ 4` (Out). -/
theorem C22_threshold_validation (expF : ℚ → ℚ) (cfg : RioQueueDisc) :
    (InitializeParams expF cfg = none ↔
      (defaultThresholds cfg).m_minThIn > (defaultThresholds cfg).m_maxThIn
      ∨ (defaultThresholds cfg).m_minThOut > (defaultThresholds cfg).m_maxThOut)
    ∧ (¬ (cfg.m_minThIn = 0 ∧ cfg.m_maxThIn = 0) →
        ¬ (cfg.m_minThOut = 0 ∧ cfg.m_maxThOut = 0) →
        (InitializeParams expF cfg = none ↔
          cfg.m_minThIn > cfg.m_maxThIn ∨ cfg.m_minThOut > cfg.m_maxThOut))
    ∧ (cfg.m_mode = QUEUE_DISC_MODE_PACKETS → cfg.m_minThIn ≤ cfg.m_maxThIn →
        cfg.m_minThOut ≤ cfg.m_maxThOut → (InitializeParams expF cfg).isSome = true)
    ∧ (cfg.m_mode = QUEUE_DISC_MODE_BYTES → cfg.m_minThIn = 0 → cfg.m_maxThIn = 0 →
        3 ≤ cfg.m_meanPktSize → InitializeParams expF cfg = none)
    ∧ (cfg.m_mode = QUEUE_DISC_MODE_BYTES → cfg.m_minThOut = 0 → cfg.m_maxThOut = 0 →
        4 ≤ cfg.m_meanPktSize → InitializeParams expF cfg = none) := by
  obtain ⟨f1, f2, f3, f4⟩ := defaultThresholds_fields cfg
  refine ⟨InitializeParams_none_iff expF cfg, ?_, ?_, ?_, ?_⟩
  · intro hIn hOut
    rw [InitializeParams_none_iff, f1, f2, f3, f4]
    simp only [hIn, hOut, if_false]
  · intro hm h1 h2
    rw [InitializeParams_isSome_iff, f1, f2, f3, f4]
    simp only [hm, reduceCtorEq, if_false]
    constructor
    · split_ifs
      · norm_num
      · exact h1
    · split_ifs
      · norm_num
      · exact h2
  · intro hm h1 h2 h3
    rw [InitializeParams_none_iff, f1, f2]
    left
    simp only [h1, h2, and_self, if_true, hm]
    have : (3 : ℚ) ≤ (cfg.m_meanPktSize : ℚ) := by exact_mod_cast h3
    show (30 : ℚ) < 15 * (cfg.m_meanPktSize : ℚ)
    linarith
  · intro hm h1 h2 h3
    rw [InitializeParams_none_iff, f3, f4]
    right
    simp only [h1, h2, and_self, if_true, hm]
    have : (4 : ℚ) ≤ (cfg.m_meanPktSize : ℚ) := by exact_mod_cast h3
    show (15 : ℚ) < 5 * (cfg.m_meanPktSize : ℚ)
    linarith

/-- C22 on `zeroThBytes` (byte mode, the four thresholds 0, mean packet size 500): the
initialization fails, while the same configuration in packet mode passes. -/
theorem C22_threshold_validation_witness :
    zeroThBytes.m_minThIn ≤ zeroThBytes.m_maxThIn
    ∧ zeroThBytes.m_minThOut ≤ zeroThBytes.m_maxThOut
    ∧ InitializeParams id zeroThBytes = none
    ∧ (InitializeParams id
        { zeroThBytes with m_mode := QUEUE_DISC_MODE_PACKETS }).isSome = true :=
  ⟨by decide!, by decide!,
   (C22_threshold_validation id zeroThBytes).2.2.2.1 (by decide!) (by decide!) (by decide!)
     (by decide!),
   (C22_threshold_validation id { zeroThBytes with m_mode := QUEUE_DISC_MODE_PACKETS }).2.2.1
     (by decide!) (by decide!) (by decide!)⟩

/-- C23 (counterexample): with `LIntermIn = -2` (and otherwise the attribute defaults) the
initialization is not rejected: it returns the state `negIntermEngine`, in which
`curMaxPIn` is `-1/2`; with `LIntermIn = 0` it returns a state as well. -/
theorem C23_counterexample :
    negInterm.m_lIntermIn = -2
    ∧ InitializeParams id negInterm = some negIntermEngine
    ∧ negIntermEngine.m_curMaxPIn = -1 / 2
    ∧ (InitializeParams id { defaults with m_lIntermIn := 0 }).isSome = true := by
  decide!

/-- C23 (amended): `InitializeParams` does not look at `lIntermIn` or `lIntermOut`: whether
it returns a state does not depend on them (zero and negative values included), the state
it returns keeps them, and for a value that is not zero it has
`curMaxP = 1 / lInterm`. -/
theorem C23_lInterm_not_validated (expF : ℚ → ℚ) (cfg : RioQueueDisc) (lIn lOut : ℚ) :
    (InitializeParams expF { cfg with m_lIntermIn := lIn, m_lIntermOut := lOut }).isSome
      = (InitializeParams expF cfg).isSome
    ∧ (∀ s : RioQueueDisc,
        InitializeParams expF { cfg with m_lIntermIn := lIn, m_lIntermOut := lOut } = some s →
        s.m_lIntermIn = lIn ∧ s.m_lIntermOut = lOut
        ∧ (lIn ≠ 0 → s.m_curMaxPIn = 1 / lIn) ∧ (lOut ≠ 0 → s.m_curMaxPOut = 1 / lOut)) := by
  constructor
  · rw [Bool.eq_iff_iff, InitializeParams_isSome_iff, InitializeParams_isSome_iff]
    obtain ⟨f1, f2, f3, f4⟩ := defaultThresholds_fields cfg
    obtain ⟨g1, g2, g3, g4⟩ :=
      defaultThresholds_fields { cfg with m_lIntermIn := lIn, m_lIntermOut := lOut }
    rw [f1, f2, f3, f4, g1, g2, g3, g4]
  · intro s h
    obtain ⟨rfl, _, _⟩ := InitializeParams_some expF _ s h
    have hi : (defaultThresholds
        { cfg with m_lIntermIn := lIn, m_lIntermOut := lOut }).m_lIntermIn = lIn := by
      rw [defaultThresholds_eq]
    have ho : (defaultThresholds
        { cfg with m_lIntermIn := lIn, m_lIntermOut := lOut }).m_lIntermOut = lOut := by
      rw [defaultThresholds_eq]
    generalize defaultThresholds { cfg with m_lIntermIn := lIn, m_lIntermOut := lOut } = t
      at hi ho ⊢
    rw [queueWeight_eq, coefficientsOut_eq, coefficientsIn_eq]
    refine ⟨hi, ho, fun _ => ?_, fun _ => ?_⟩
    · show 1 / t.m_lIntermIn = 1 / lIn
      rw [hi]
    · show 1 / t.m_lIntermOut = 1 / lOut
      rw [ho]

/-- C23 (amended) with `LIntermIn = -2` and `LIntermOut = 50` on the attribute defaults:
the state that the initialization returns has `curMaxPOut = 1/50` and
`curMaxPIn = 1/(-2)`. -/
theorem C23_lInterm_not_validated_witness :
    InitializeParams id { defaults with m_lIntermIn := -2, m_lIntermOut := 50 }
      = some negIntermEngine
    ∧ negIntermEngine.m_curMaxPOut = 1 / 50
    ∧ negIntermEngine.m_curMaxPIn = 1 / (-2) :=
  ⟨by decide!,
   ((C23_lInterm_not_validated id defaults (-2) 50).2 negIntermEngine (by decide!)).2.2.2
     (by decide!),
   ((C23_lInterm_not_validated id defaults (-2) 50).2 negIntermEngine (by decide!)).2.2.1
     (by decide!)⟩

/-! ### The verdict in terms of the averages -/

/-- The In occupancy that `DoEnqueue` reads is `inOccupancy`. -/
theorem enqueueCommon_inOccupancy (now : Int) (item : QueueDiscItem) (s : RioQueueDisc) :
    (enqueueCommon now item s).2.1 = inOccupancy s := by
  rw [enqueueCommon_qLenIn]
  rfl

/-- The combined average after the update is the estimate on the occupancy of the
internal queue. -/
theorem updatedAvg_eq (now : Int) (item : QueueDiscItem) (s : RioQueueDisc) :
    updatedAvg now item s
      = Estimator (GetQueueSize s) (virtualArrivals s.m_idle now s) s.m_qAvg s.m_qW := by
  unfold updatedAvg enqueueCommon GetQueueSize virtualArrivals
  by_cases hp : s.m_priorityMethod = 1 <;> simp only [hp, if_true, if_false]

/-- The In average after the update is the estimate on the In occupancy. -/
theorem updatedAvgIn_eq (now : Int) (item : QueueDiscItem) (s : RioQueueDisc) :
    updatedAvgIn now item s
      = Estimator (inOccupancy s) (virtualArrivals s.m_idleIn now s) s.m_qAvgIn s.m_qW := by
  have h1 : (enqueueCommon now item s).2.2.m_idleIn = s.m_idleIn := by
    rw [enqueueCommon_state]
  have h2 : (enqueueCommon now item s).2.2.m_ptc = s.m_ptc := by
    rw [enqueueCommon_state]
  have h3 : (enqueueCommon now item s).2.2.m_idleTime = s.m_idleTime := by
    rw [enqueueCommon_state]
  have h4 : (enqueueCommon now item s).2.2.m_qAvgIn = s.m_qAvgIn := by
    rw [enqueueCommon_state]
  have h5 : (enqueueCommon now item s).2.2.m_qW = s.m_qW := by
    rw [enqueueCommon_state]
  unfold updatedAvgIn
  rw [enqueueCommon_inOccupancy]
  show Estimator (inOccupancy s)
      (u32 ((if (enqueueCommon now item s).2.2.m_idleIn = true
        then toU32 ((enqueueCommon now item s).2.2.m_ptc
              * GetSeconds (now - (enqueueCommon now item s).2.2.m_idleTime))
        else 0) + 1))
      (enqueueCommon now item s).2.2.m_qAvgIn (enqueueCommon now item s).2.2.m_qW = _
  rw [h1, h2, h3, h4, h5]
  rfl

/-- For an In packet the verdict is the drop logic of the In class on the tallied
state. -/
theorem enqueueVerdict_in (uv : Nat → ℚ) (now : Int) (item : QueueDiscItem)
    (s : RioQueueDisc) (hflow : (enqueueCommon now item s).2.2.m_flow ≠ 0) :
    enqueueVerdict uv now item s
      = dropLogicIn uv item (GetQueueSize s) (inOccupancy s) (talliedIn now item s) := by
  unfold enqueueVerdict verdictIn talliedIn
  simp only []
  rw [if_pos hflow, enqueueCommon_qLen, enqueueCommon_inOccupancy]

/-- For an Out packet the verdict is the drop logic of the Out class on the tallied
state. -/
theorem enqueueVerdict_out (uv : Nat → ℚ) (now : Int) (item : QueueDiscItem)
    (s : RioQueueDisc) (hflow : (enqueueCommon now item s).2.2.m_flow = 0) :
    enqueueVerdict uv now item s
      = dropLogicOut uv item (GetQueueSize s) (talliedOut now item s) := by
  unfold enqueueVerdict verdictOut talliedOut
  simp only []
  rw [if_neg (not_not.mpr hflow), enqueueCommon_qLen]

/-- The state of an In arrival when the drop logic begins. -/
theorem talliedIn_state (now : Int) (item : QueueDiscItem) (s : RioQueueDisc) :
    talliedIn now item s =
      { s with m_flow := (enqueueCommon now item s).2.2.m_flow,
               m_idle := false,
               m_qAvg := updatedAvg now item s,
               m_idleIn := false,
               m_qAvgIn := updatedAvgIn now item s,
               m_count := u32 (s.m_count + 1),
               m_countBytes := u32 (s.m_countBytes + item.size),
               m_countIn := u32 (s.m_countIn + 1),
               m_countBytesIn := u32 (s.m_countBytesIn + item.size) } := by
  have h1 : (enqueueCommon now item s).2.2.m_count = s.m_count := by
    rw [enqueueCommon_state]
  have h2 : (enqueueCommon now item s).2.2.m_countBytes = s.m_countBytes := by
    rw [enqueueCommon_state]
  have h3 : (enqueueCommon now item s).2.2.m_countIn = s.m_countIn := by
    rw [enqueueCommon_state]
  have h4 : (enqueueCommon now item s).2.2.m_countBytesIn = s.m_countBytesIn := by
    rw [enqueueCommon_state]
  have hc := enqueueCommon_state now item s
  unfold talliedIn updatedAvgIn updatedAvg
  rw [tallyIn_state, h1, h2, h3, h4]
  exact congrArg (fun z : RioQueueDisc =>
    { z with m_idleIn := false,
             m_qAvgIn := (tallyIn now item (enqueueCommon now item s).2.1
                            (enqueueCommon now item s).2.2).m_qAvgIn,
             m_count := u32 (s.m_count + 1),
             m_countBytes := u32 (s.m_countBytes + item.size),
             m_countIn := u32 (s.m_countIn + 1),
             m_countBytesIn := u32 (s.m_countBytesIn + item.size) }) hc

/-- The state of an Out arrival when the drop logic begins. -/
theorem talliedOut_state (now : Int) (item : QueueDiscItem) (s : RioQueueDisc) :
    talliedOut now item s =
      { s with m_flow := (enqueueCommon now item s).2.2.m_flow,
               m_idle := false,
               m_qAvg := updatedAvg now item s,
               m_count := u32 (s.m_count + 1),
               m_countBytes := u32 (s.m_countBytes + item.size),
               m_countOut := u32 (s.m_countOut + 1),
               m_countBytesOut := u32 (s.m_countBytesOut + item.size) } := by
  have h1 : (enqueueCommon now item s).2.2.m_count = s.m_count := by
    rw [enqueueCommon_state]
  have h2 : (enqueueCommon now item s).2.2.m_countBytes = s.m_countBytes := by
    rw [enqueueCommon_state]
  have h3 : (enqueueCommon now item s).2.2.m_countOut = s.m_countOut := by
    rw [enqueueCommon_state]
  have h4 : (enqueueCommon now item s).2.2.m_countBytesOut = s.m_countBytesOut := by
    rw [enqueueCommon_state]
  have hc := enqueueCommon_state now item s
  unfold talliedOut updatedAvg
  rw [tallyOut_state, h1, h2, h3, h4]
  exact congrArg (fun z : RioQueueDisc =>
    { z with m_count := u32 (s.m_count + 1),
             m_countBytes := u32 (s.m_countBytes + item.size),
             m_countOut := u32 (s.m_countOut + 1),
             m_countBytesOut := u32 (s.m_countBytesOut + item.size) }) hc

/-- Below the queue limit the drop logic of the In class is its RED part. -/
theorem dropLogicIn_below_limit (uv : Nat → ℚ) (item : QueueDiscItem) (qLen qLenIn : Nat)
    (s : RioQueueDisc) (h : qLen < s.m_queueLimit) :
    dropLogicIn uv item qLen qLenIn s = redLogicIn uv item qLen qLenIn s := by
  have hq : (redLogicIn uv item qLen qLenIn s).2.m_queueLimit = s.m_queueLimit := by
    rw [redLogicIn_state]
  unfold dropLogicIn
  simp only []
  rw [if_neg (by rw [hq]; exact not_le.mpr h)]

/-- Below the queue limit the drop logic of the Out class is its RED part. -/
theorem dropLogicOut_below_limit (uv : Nat → ℚ) (item : QueueDiscItem) (qLen : Nat)
    (s : RioQueueDisc) (h : qLen < s.m_queueLimit) :
    dropLogicOut uv item qLen s = redLogicOut uv item qLen s := by
  have hq : (redLogicOut uv item qLen s).2.m_queueLimit = s.m_queueLimit := by
    rw [redLogicOut_state]
  unfold dropLogicOut
  simp only []
  rw [if_neg (by rw [hq]; exact not_le.mpr h)]

/-- When the RED part of the In class says FORCED, so does the drop logic. -/
theorem dropLogicIn_forced (uv : Nat → ℚ) (item : QueueDiscItem) (qLen qLenIn : Nat)
    (s : RioQueueDisc) (h : (redLogicIn uv item qLen qLenIn s).1 = DTYPE_FORCED) :
    (dropLogicIn uv item qLen qLenIn s).1 = DTYPE_FORCED := by
  unfold dropLogicIn
  simp only []
  split_ifs
  · rfl
  · exact h

/-- The RED part of the In class: at or above the minimum threshold with more than one
unit of In occupancy, an average at or above the forced threshold gives FORCED. -/
theorem redLogicIn_forced (uv : Nat → ℚ) (item : QueueDiscItem) (qLen qLenIn : Nat)
    (s : RioQueueDisc) (hmin : s.m_qAvgIn ≥ s.m_minThIn) (hocc : qLenIn > 1)
    (hmax : forcedByAverage s.m_isGentleIn s.m_qAvgIn s.m_maxThIn) :
    (redLogicIn uv item qLen qLenIn s).1 = DTYPE_FORCED := by
  unfold redLogicIn
  unfold forcedByAverage at hmax
  rw [if_pos ⟨hmin, hocc⟩, if_pos hmax]

/-- The RED part of the In class on the first packet above the minimum threshold. -/
theorem redLogicIn_crossing (uv : Nat → ℚ) (item : QueueDiscItem) (qLen qLenIn : Nat)
    (s : RioQueueDisc) (hmin : s.m_qAvgIn ≥ s.m_minThIn) (hocc : qLenIn > 1)
    (hmax : ¬ forcedByAverage s.m_isGentleIn s.m_qAvgIn s.m_maxThIn)
    (hold : s.m_oldIn = 0) :
    redLogicIn uv item qLen qLenIn s
      = (DTYPE_NONE,
         { s with m_countIn := 1, m_countBytesIn := item.size, m_oldIn := 1 }) := by
  unfold redLogicIn
  unfold forcedByAverage at hmax
  rw [if_pos ⟨hmin, hocc⟩, if_neg hmax, if_pos hold]

/-- The RED part of the In class on a later packet above the minimum threshold: the
early-drop test decides. -/
theorem redLogicIn_engaged (uv : Nat → ℚ) (item : QueueDiscItem) (qLen qLenIn : Nat)
    (s : RioQueueDisc) (hmin : s.m_qAvgIn ≥ s.m_minThIn) (hocc : qLenIn > 1)
    (hmax : ¬ forcedByAverage s.m_isGentleIn s.m_qAvgIn s.m_maxThIn)
    (hold : s.m_oldIn ≠ 0) :
    redLogicIn uv item qLen qLenIn s
      = (if (DropInEarly uv item qLen s).1 ≠ 0 then DTYPE_UNFORCED else DTYPE_NONE,
         (DropInEarly uv item qLen s).2) := by
  unfold redLogicIn
  unfold forcedByAverage at hmax
  rw [if_pos ⟨hmin, hocc⟩, if_neg hmax, if_neg hold]
  simp only []
  split_ifs <;> rfl

/-- The RED part of the In class below the minimum threshold, or with at most one unit of
In occupancy. -/
theorem redLogicIn_quiescent (uv : Nat → ℚ) (item : QueueDiscItem) (qLen qLenIn : Nat)
    (s : RioQueueDisc) (h : ¬ (s.m_qAvgIn ≥ s.m_minThIn ∧ qLenIn > 1)) :
    redLogicIn uv item qLen qLenIn s
      = (DTYPE_NONE, { s with m_vProbIn := 0, m_oldIn := 0 }) := by
  unfold redLogicIn
  rw [if_neg h]

/-- The RED part of the Out class on the first packet above the minimum threshold. -/
theorem redLogicOut_crossing (uv : Nat → ℚ) (item : QueueDiscItem) (qLen : Nat)
    (s : RioQueueDisc) (hmin : s.m_qAvg ≥ s.m_minThOut) (hocc : qLen > 1)
    (hmax : ¬ forcedByAverage s.m_isGentleOut s.m_qAvg s.m_maxThOut)
    (hold : s.m_oldOut = 0) :
    redLogicOut uv item qLen s
      = (DTYPE_NONE,
         { s with m_countOut := 1, m_countBytesOut := item.size, m_oldOut := 1 }) := by
  unfold redLogicOut
  unfold forcedByAverage at hmax
  rw [if_pos ⟨hmin, hocc⟩, if_neg hmax, if_pos hold]

/-- The RED part of the Out class on a later packet above the minimum threshold: the
early-drop test decides. -/
theorem redLogicOut_engaged (uv : Nat → ℚ) (item : QueueDiscItem) (qLen : Nat)
    (s : RioQueueDisc) (hmin : s.m_qAvg ≥ s.m_minThOut) (hocc : qLen > 1)
    (hmax : ¬ forcedByAverage s.m_isGentleOut s.m_qAvg s.m_maxThOut)
    (hold : s.m_oldOut ≠ 0) :
    redLogicOut uv item qLen s
      = (if (DropOutEarly uv item qLen s).1 ≠ 0 then DTYPE_UNFORCED else DTYPE_NONE,
         (DropOutEarly uv item qLen s).2) := by
  unfold redLogicOut
  unfold forcedByAverage at hmax
  rw [if_pos ⟨hmin, hocc⟩, if_neg hmax, if_neg hold]
  simp only []
  split_ifs <;> rfl

/-- The RED part of the Out class below the minimum threshold, or with at most one unit
of occupancy. -/
theorem redLogicOut_quiescent (uv : Nat → ℚ) (item : QueueDiscItem) (qLen : Nat)
    (s : RioQueueDisc) (h : ¬ (s.m_qAvg ≥ s.m_minThOut ∧ qLen > 1)) :
    redLogicOut uv item qLen s
      = (DTYPE_NONE, { s with m_vProbOut := 0, m_oldOut := 0 }) := by
  unfold redLogicOut
  rw [if_neg h]

/-- The function `admitIn` changes the internal queue, the In occupancy and the
statistics only. -/
theorem admitIn_state (item : QueueDiscItem) (x : RioQueueDisc) :
    (admitIn item x).2 =
      { x with queue := (x.queue.Enqueue item).2,
               inlen := u32 (x.inlen + 1),
               inbcount := u32 (x.inbcount + item.size),
               m_stats := (admitIn item x).2.m_stats } := by
  unfold admitIn
  simp only []
  split_ifs <;> rfl

/-- The function `admitOut` changes the internal queue and the statistics only. -/
theorem admitOut_state (item : QueueDiscItem) (x : RioQueueDisc) :
    (admitOut item x).2 =
      { x with queue := (x.queue.Enqueue item).2,
               m_stats := (admitOut item x).2.m_stats } := by
  unfold admitOut
  simp only []
  split_ifs <;> rfl

/-- With the verdict NONE, `DoEnqueue` hands the packet to the internal queue: the result
and the queue are those of its `Enqueue`, `qLimDrop` is incremented when it refuses and
no other statistic changes; the flags, trackers and counters of the drop logic and the
position of the stream are those of the verdict. -/
theorem DoEnqueue_none (uv : Nat → ℚ) (now : Int) (item : QueueDiscItem)
    (s : RioQueueDisc) (hv : (enqueueVerdict uv now item s).1 = DTYPE_NONE) :
    (DoEnqueue uv now item s).1 = (s.queue.Enqueue item).1
    ∧ (DoEnqueue uv now item s).2.queue = (s.queue.Enqueue item).2
    ∧ (DoEnqueue uv now item s).2.m_stats
        = (if (s.queue.Enqueue item).1 = false then
            { s.m_stats with qLimDrop := u32 (s.m_stats.qLimDrop + 1) }
          else s.m_stats)
    ∧ (DoEnqueue uv now item s).2.uvPos = (enqueueVerdict uv now item s).2.uvPos
    ∧ (DoEnqueue uv now item s).2.m_oldIn = (enqueueVerdict uv now item s).2.m_oldIn
    ∧ (DoEnqueue uv now item s).2.m_vProbIn = (enqueueVerdict uv now item s).2.m_vProbIn
    ∧ (DoEnqueue uv now item s).2.m_countIn = (enqueueVerdict uv now item s).2.m_countIn
    ∧ (DoEnqueue uv now item s).2.m_countBytesIn
        = (enqueueVerdict uv now item s).2.m_countBytesIn
    ∧ (DoEnqueue uv now item s).2.m_oldOut = (enqueueVerdict uv now item s).2.m_oldOut
    ∧ (DoEnqueue uv now item s).2.m_vProbOut = (enqueueVerdict uv now item s).2.m_vProbOut
    ∧ (DoEnqueue uv now item s).2.m_countOut = (enqueueVerdict uv now item s).2.m_countOut
    ∧ (DoEnqueue uv now item s).2.m_countBytesOut
        = (enqueueVerdict uv now item s).2.m_countBytesOut := by
  have h3 : (enqueueVerdict uv now item s).2.m_stats = s.m_stats := by
    rw [enqueueVerdict_state]
  have h4 : (enqueueVerdict uv now item s).2.queue = s.queue := by
    rw [enqueueVerdict_state]
  rw [DoEnqueue_eq, hv]
  by_cases hf : (enqueueCommon now item s).2.2.m_flow ≠ 0
  · have e : applyIn DTYPE_NONE item (enqueueVerdict uv now item s).2
        = admitIn item (enqueueVerdict uv now item s).2 := rfl
    rw [if_pos hf, e]
    refine ⟨?_, ?_, ?_, ?_, ?_, ?_, ?_, ?_, ?_, ?_, ?_, ?_⟩
    · rw [admitIn_fst, h4]
    · rw [admitIn_queue, h4]
    · rw [admitIn_stats, h3, h4]
    all_goals rw [admitIn_state]
  · have e : applyOut DTYPE_NONE item (enqueueVerdict uv now item s).2
        = admitOut item (enqueueVerdict uv now item s).2 := rfl
    rw [if_neg hf, e]
    refine ⟨?_, ?_, ?_, ?_, ?_, ?_, ?_, ?_, ?_, ?_, ?_, ?_⟩
    · rw [admitOut_fst, h4]
    · rw [admitOut_queue, h4]
    · rw [admitOut_stats, h3, h4]
    all_goals rw [admitOut_state]

/-! ### Forced, crossing and quiescent arrivals -/

/-- C25 (counterexample): on `unitThEngine` (In thresholds 1 and 1, no gentle ramp, queue
weight 1, one In packet queued) a second In packet sees the In occupancy 1 and the
updated In average 1, which is at the maximum threshold; the verdict is NONE, not FORCED,
and the packet is admitted. -/
theorem C25_counterexample :
    (enqueueCommon 0 (inPacket 2 100) unitThEngine).2.2.m_flow ≠ 0
    ∧ unitThEngine.m_isGentleIn = false
    ∧ unitThEngine.m_maxThIn = 1
    ∧ inOccupancy unitThEngine = 1
    ∧ updatedAvgIn 0 (inPacket 2 100) unitThEngine = 1
    ∧ (enqueueVerdict (constStream 0) 0 (inPacket 2 100) unitThEngine).1 = DTYPE_NONE
    ∧ (DoEnqueue (constStream 0) 0 (inPacket 2 100) unitThEngine).1 = true := by
  decide!

/-- C25 (amended): for an In packet, when the In occupancy before the arrival is above 1
and the updated In average is at or above the In minimum threshold and at or above the
forced threshold (`maxThIn` without the gentle ramp, `2 * maxThIn` with it), the verdict
is FORCED, whatever the draw. The updated In average is the estimate on the In
occupancy. -/
theorem C25_forced_by_in_average (uv : Nat → ℚ) (now : Int) (item : QueueDiscItem)
    (s : RioQueueDisc) (hflow : (enqueueCommon now item s).2.2.m_flow ≠ 0)
    (hocc : inOccupancy s > 1) (hmin : updatedAvgIn now item s ≥ s.m_minThIn)
    (hmax : (s.m_isGentleIn = false ∧ updatedAvgIn now item s ≥ s.m_maxThIn)
      ∨ (s.m_isGentleIn = true ∧ updatedAvgIn now item s ≥ 2 * s.m_maxThIn)) :
    (enqueueVerdict uv now item s).1 = DTYPE_FORCED
    ∧ updatedAvgIn now item s
        = Estimator (inOccupancy s) (virtualArrivals s.m_idleIn now s) s.m_qAvgIn s.m_qW := by
  refine ⟨?_, updatedAvgIn_eq now item s⟩
  have h1 : (talliedIn now item s).m_qAvgIn = updatedAvgIn now item s := rfl
  have h2 : (talliedIn now item s).m_minThIn = s.m_minThIn := by rw [talliedIn_state]
  have h3 : (talliedIn now item s).m_maxThIn = s.m_maxThIn := by rw [talliedIn_state]
  have h4 : (talliedIn now item s).m_isGentleIn = s.m_isGentleIn := by rw [talliedIn_state]
  rw [enqueueVerdict_in uv now item s hflow]
  apply dropLogicIn_forced
  apply redLogicIn_forced
  · rw [h1, h2]
    exact hmin
  · exact hocc
  · unfold forcedByAverage
    rw [h1, h3, h4]
    exact hmax

/-- C25 (amended) on `unitThEngineTwo` (two In packets queued): a third In packet sees the
In occupancy 2 and the In average 2 and gets the verdict FORCED. -/
theorem C25_forced_by_in_average_witness :
    inOccupancy unitThEngineTwo = 2
    ∧ updatedAvgIn 0 (inPacket 3 100) unitThEngineTwo = 2
    ∧ (enqueueVerdict (constStream 0) 0 (inPacket 3 100) unitThEngineTwo).1 = DTYPE_FORCED :=
  ⟨by decide!, by decide!,
   (C25_forced_by_in_average (constStream 0) 0 (inPacket 3 100) unitThEngineTwo
      (by decide!) (by decide!) (by decide!) (by decide!)).1⟩

/-- C27: with the occupancy of the internal queue below the queue limit, an arrival whose
class average after the update (the In average for an In packet, the combined average
for an Out packet) is below the minimum threshold of the class gets the verdict NONE: no
value is drawn, the packet is handed to the internal queue (result and queue are those of
its `Enqueue`), none of `unforcedDrop`, `forcedDrop`, `unforcedMark`, `forcedMark`
changes, and the flag `m_old` and the tracker `m_vProb` of the class are 0
afterwards. -/
theorem C27_quiescent_verdict (uv : Nat → ℚ) (now : Int) (item : QueueDiscItem)
    (s : RioQueueDisc) (hlim : GetQueueSize s < s.m_queueLimit) :
    ((enqueueCommon now item s).2.2.m_flow ≠ 0 → updatedAvgIn now item s < s.m_minThIn →
      (enqueueVerdict uv now item s).1 = DTYPE_NONE
      ∧ (DoEnqueue uv now item s).2.uvPos = s.uvPos
      ∧ (DoEnqueue uv now item s).1 = (s.queue.Enqueue item).1
      ∧ (DoEnqueue uv now item s).2.queue = (s.queue.Enqueue item).2
      ∧ (DoEnqueue uv now item s).2.m_stats.unforcedDrop = s.m_stats.unforcedDrop
      ∧ (DoEnqueue uv now item s).2.m_stats.forcedDrop = s.m_stats.forcedDrop
      ∧ (DoEnqueue uv now item s).2.m_stats.unforcedMark = s.m_stats.unforcedMark
      ∧ (DoEnqueue uv now item s).2.m_stats.forcedMark = s.m_stats.forcedMark
      ∧ (DoEnqueue uv now item s).2.m_oldIn = 0
      ∧ (DoEnqueue uv now item s).2.m_vProbIn = 0)
    ∧ ((enqueueCommon now item s).2.2.m_flow = 0 → updatedAvg now item s < s.m_minThOut →
      (enqueueVerdict uv now item s).1 = DTYPE_NONE
      ∧ (DoEnqueue uv now item s).2.uvPos = s.uvPos
      ∧ (DoEnqueue uv now item s).1 = (s.queue.Enqueue item).1
      ∧ (DoEnqueue uv now item s).2.queue = (s.queue.Enqueue item).2
      ∧ (DoEnqueue uv now item s).2.m_stats.unforcedDrop = s.m_stats.unforcedDrop
      ∧ (DoEnqueue uv now item s).2.m_stats.forcedDrop = s.m_stats.forcedDrop
      ∧ (DoEnqueue uv now item s).2.m_stats.unforcedMark = s.m_stats.unforcedMark
      ∧ (DoEnqueue uv now item s).2.m_stats.forcedMark = s.m_stats.forcedMark
      ∧ (DoEnqueue uv now item s).2.m_oldOut = 0
      ∧ (DoEnqueue uv now item s).2.m_vProbOut = 0) := by
  constructor
  · intro hflow havg
    have h1 : (talliedIn now item s).m_qAvgIn = updatedAvgIn now item s := rfl
    have h2 : (talliedIn now item s).m_minThIn = s.m_minThIn := by rw [talliedIn_state]
    have hq : (talliedIn now item s).m_queueLimit = s.m_queueLimit := by rw [talliedIn_state]
    have hu : (talliedIn now item s).uvPos = s.uvPos := by rw [talliedIn_state]
    have hV : enqueueVerdict uv now item s
        = (DTYPE_NONE, { talliedIn now item s with m_vProbIn := 0, m_oldIn := 0 }) := by
      rw [enqueueVerdict_in uv now item s hflow,
        dropLogicIn_below_limit _ _ _ _ _ (by rw [hq]; exact hlim)]
      apply redLogicIn_quiescent
      intro h
      rw [h1, h2] at h
      exact absurd h.1 (not_le.mpr havg)
    have hv : (enqueueVerdict uv now item s).1 = DTYPE_NONE := by rw [hV]
    obtain ⟨a1, a2, a3, a4, a5, a6, _⟩ := DoEnqueue_none uv now item s hv
    refine ⟨hv, ?_, a1, a2, ?_, ?_, ?_, ?_, ?_, ?_⟩
    · rw [a4, hV]
      exact hu
    · rw [a3]
      split_ifs <;> rfl
    · rw [a3]
      split_ifs <;> rfl
    · rw [a3]
      split_ifs <;> rfl
    · rw [a3]
      split_ifs <;> rfl
    · rw [a5, hV]
    · rw [a6, hV]
  · intro hflow havg
    have h1 : (talliedOut now item s).m_qAvg = updatedAvg now item s := by
      rw [talliedOut_state]
    have h2 : (talliedOut now item s).m_minThOut = s.m_minThOut := by rw [talliedOut_state]
    have hq : (talliedOut now item s).m_queueLimit = s.m_queueLimit := by
      rw [talliedOut_state]
    have hu : (talliedOut now item s).uvPos = s.uvPos := by rw [talliedOut_state]
    have hV : enqueueVerdict uv now item s
        = (DTYPE_NONE, { talliedOut now item s with m_vProbOut := 0, m_oldOut := 0 }) := by
      rw [enqueueVerdict_out uv now item s hflow,
        dropLogicOut_below_limit _ _ _ _ (by rw [hq]; exact hlim)]
      apply redLogicOut_quiescent
      intro h
      rw [h1, h2] at h
      exact absurd h.1 (not_le.mpr havg)
    have hv : (enqueueVerdict uv now item s).1 = DTYPE_NONE := by rw [hV]
    obtain ⟨a1, a2, a3, a4, _, _, _, _, a9, a10, _⟩ := DoEnqueue_none uv now item s hv
    refine ⟨hv, ?_, a1, a2, ?_, ?_, ?_, ?_, ?_, ?_⟩
    · rw [a4, hV]
      exact hu
    · rw [a3]
      split_ifs <;> rfl
    · rw [a3]
      split_ifs <;> rfl
    · rw [a3]
      split_ifs <;> rfl
    · rw [a3]
      split_ifs <;> rfl
    · rw [a9, hV]
    · rw [a10, hV]

/-- C27 on the engine initialised from the attribute defaults with one In packet: the
In average is 0, below the minimum threshold 15, and the verdict is NONE. -/
theorem C27_quiescent_verdict_witness :
    GetQueueSize initDefaults < initDefaults.m_queueLimit
    ∧ updatedAvgIn 0 (inPacket 1 100) initDefaults < initDefaults.m_minThIn
    ∧ (enqueueVerdict (constStream 0) 0 (inPacket 1 100) initDefaults).1 = DTYPE_NONE
    ∧ (DoEnqueue (constStream 0) 0 (inPacket 1 100) initDefaults).2.m_oldIn = 0 :=
  ⟨by decide!, by decide!,
   ((C27_quiescent_verdict (constStream 0) 0 (inPacket 1 100) initDefaults (by decide!)).1
      (by decide!) (by decide!)).1,
   ((C27_quiescent_verdict (constStream 0) 0 (inPacket 1 100) initDefaults (by decide!)).1
      (by decide!) (by decide!)).2.2.2.2.2.2.2.2.1⟩

/-- C26 (counterexample): on `byteCrossEngine` (byte mode, queue limit 1000 bytes, In
thresholds 100 and 2000, one In packet of 400 bytes queued) an In packet of 700 bytes
meets every condition of the crossing (occupancy 400 below the limit, updated In average
200 between the thresholds, In occupancy above 1, flag 0) and gets the verdict NONE; the
internal queue refuses it (400 + 700 bytes exceed its capacity), `DoEnqueue` returns
false and `qLimDrop` goes from 0 to 1. -/
theorem C26_counterexample :
    (enqueueCommon 0 (inPacket 2 700) byteCrossEngine).2.2.m_flow ≠ 0
    ∧ GetQueueSize byteCrossEngine = 400
    ∧ byteCrossEngine.m_queueLimit = 1000
    ∧ inOccupancy byteCrossEngine = 400
    ∧ updatedAvgIn 0 (inPacket 2 700) byteCrossEngine = 200
    ∧ byteCrossEngine.m_minThIn = 100
    ∧ byteCrossEngine.m_maxThIn = 2000
    ∧ byteCrossEngine.m_oldIn = 0
    ∧ (enqueueVerdict (constStream 0) 0 (inPacket 2 700) byteCrossEngine).1 = DTYPE_NONE
    ∧ (DoEnqueue (constStream 0) 0 (inPacket 2 700) byteCrossEngine).1 = false
    ∧ byteCrossEngine.m_stats.qLimDrop = 0
    ∧ (DoEnqueue (constStream 0) 0 (inPacket 2 700) byteCrossEngine).2.m_stats.qLimDrop
        = 1 := by
  decide!

/-- C26 (amended): with the occupancy of the internal queue below the queue limit, for an
In packet whose updated In average is at or above `minThIn` and below the forced
threshold, with In occupancy above 1: if the flag `m_oldIn` is 0 the verdict is NONE and
no value is drawn; the packet is handed to the internal queue (result and queue are those
of its `Enqueue`), `unforcedDrop`, `forcedDrop`, `unforcedMark` and `forcedMark` do not
change, and `qLimDrop` is incremented exactly when the internal queue refuses the packet;
afterwards `m_oldIn = 1`, `m_countIn = 1` and `m_countBytesIn` is the size of the packet.
If the flag is not 0, the verdict is the one of `DropInEarly` on the tallied state
(UNFORCED when it returns non-zero, else NONE) and one value is drawn. The same holds for
an Out packet with the combined average, the occupancy of the internal queue, the Out
thresholds, `m_oldOut`, the Out counters and `DropOutEarly`. -/
theorem C26_threshold_crossing (uv : Nat → ℚ) (now : Int) (item : QueueDiscItem)
    (s : RioQueueDisc) (hlim : GetQueueSize s < s.m_queueLimit) :
    ((enqueueCommon now item s).2.2.m_flow ≠ 0 → inOccupancy s > 1 →
      updatedAvgIn now item s ≥ s.m_minThIn →
      ¬ forcedByAverage s.m_isGentleIn (updatedAvgIn now item s) s.m_maxThIn →
      (s.m_oldIn = 0 →
        (enqueueVerdict uv now item s).1 = DTYPE_NONE
        ∧ (DoEnqueue uv now item s).2.uvPos = s.uvPos
        ∧ (DoEnqueue uv now item s).1 = (s.queue.Enqueue item).1
        ∧ (DoEnqueue uv now item s).2.queue = (s.queue.Enqueue item).2
        ∧ (DoEnqueue uv now item s).2.m_stats.unforcedDrop = s.m_stats.unforcedDrop
        ∧ (DoEnqueue uv now item s).2.m_stats.forcedDrop = s.m_stats.forcedDrop
        ∧ (DoEnqueue uv now item s).2.m_stats.unforcedMark = s.m_stats.unforcedMark
        ∧ (DoEnqueue uv now item s).2.m_stats.forcedMark = s.m_stats.forcedMark
        ∧ (DoEnqueue uv now item s).2.m_stats.qLimDrop
            = (if (s.queue.Enqueue item).1 = false then u32 (s.m_stats.qLimDrop + 1)
               else s.m_stats.qLimDrop)
        ∧ (DoEnqueue uv now item s).2.m_oldIn = 1
        ∧ (DoEnqueue uv now item s).2.m_countIn = 1
        ∧ (DoEnqueue uv now item s).2.m_countBytesIn = item.size)
      ∧ (s.m_oldIn ≠ 0 →
        (enqueueVerdict uv now item s).1
            = (if (DropInEarly uv item (GetQueueSize s) (talliedIn now item s)).1 ≠ 0
               then DTYPE_UNFORCED else DTYPE_NONE)
        ∧ (enqueueVerdict uv now item s).2
            = (DropInEarly uv item (GetQueueSize s) (talliedIn now item s)).2
        ∧ (enqueueVerdict uv now item s).2.uvPos = s.uvPos + 1))
    ∧ ((enqueueCommon now item s).2.2.m_flow = 0 → GetQueueSize s > 1 →
      updatedAvg now item s ≥ s.m_minThOut →
      ¬ forcedByAverage s.m_isGentleOut (updatedAvg now item s) s.m_maxThOut →
      (s.m_oldOut = 0 →
        (enqueueVerdict uv now item s).1 = DTYPE_NONE
        ∧ (DoEnqueue uv now item s).2.uvPos = s.uvPos
        ∧ (DoEnqueue uv now item s).1 = (s.queue.Enqueue item).1
        ∧ (DoEnqueue uv now item s).2.queue = (s.queue.Enqueue item).2
        ∧ (DoEnqueue uv now item s).2.m_stats.unforcedDrop = s.m_stats.unforcedDrop
        ∧ (DoEnqueue uv now item s).2.m_stats.forcedDrop = s.m_stats.forcedDrop
        ∧ (DoEnqueue uv now item s).2.m_stats.unforcedMark = s.m_stats.unforcedMark
        ∧ (DoEnqueue uv now item s).2.m_stats.forcedMark = s.m_stats.forcedMark
        ∧ (DoEnqueue uv now item s).2.m_stats.qLimDrop
            = (if (s.queue.Enqueue item).1 = false then u32 (s.m_stats.qLimDrop + 1)
               else s.m_stats.qLimDrop)
        ∧ (DoEnqueue uv now item s).2.m_oldOut = 1
        ∧ (DoEnqueue uv now item s).2.m_countOut = 1
        ∧ (DoEnqueue uv now item s).2.m_countBytesOut = item.size)
      ∧ (s.m_oldOut ≠ 0 →
        (enqueueVerdict uv now item s).1
            = (if (DropOutEarly uv item (GetQueueSize s) (talliedOut now item s)).1 ≠ 0
               then DTYPE_UNFORCED else DTYPE_NONE)
        ∧ (enqueueVerdict uv now item s).2
            = (DropOutEarly uv item (GetQueueSize s) (talliedOut now item s)).2
        ∧ (enqueueVerdict uv now item s).2.uvPos = s.uvPos + 1)) := by
  constructor
  · intro hflow hocc hmin hmax
    have h1 : (talliedIn now item s).m_qAvgIn = updatedAvgIn now item s := rfl
    have h2 : (talliedIn now item s).m_minThIn = s.m_minThIn := by rw [talliedIn_state]
    have h3 : (talliedIn now item s).m_maxThIn = s.m_maxThIn := by rw [talliedIn_state]
    have h4 : (talliedIn now item s).m_isGentleIn = s.m_isGentleIn := by
      rw [talliedIn_state]
    have h5 : (talliedIn now item s).m_oldIn = s.m_oldIn := by rw [talliedIn_state]
    have hq : (talliedIn now item s).m_queueLimit = s.m_queueLimit := by rw [talliedIn_state]
    have hu : (talliedIn now item s).uvPos = s.uvPos := by rw [talliedIn_state]
    have hmin2 : (talliedIn now item s).m_qAvgIn ≥ (talliedIn now item s).m_minThIn := by
      rw [h1, h2]
      exact hmin
    have hmax2 : ¬ forcedByAverage (talliedIn now item s).m_isGentleIn
        (talliedIn now item s).m_qAvgIn (talliedIn now item s).m_maxThIn := by
      rw [h1, h3, h4]
      exact hmax
    have hlim2 : GetQueueSize s < (talliedIn now item s).m_queueLimit := by
      rw [hq]
      exact hlim
    constructor
    · intro hold
      have hV : enqueueVerdict uv now item s
          = (DTYPE_NONE, { talliedIn now item s with
              m_countIn := 1, m_countBytesIn := item.size, m_oldIn := 1 }) := by
        rw [enqueueVerdict_in uv now item s hflow, dropLogicIn_below_limit _ _ _ _ _ hlim2]
        exact redLogicIn_crossing uv item _ _ _ hmin2 hocc hmax2 (by rw [h5]; exact hold)
      have hv : (enqueueVerdict uv now item s).1 = DTYPE_NONE := by rw [hV]
      obtain ⟨a1, a2, a3, a4, a5, _, a7, a8, _⟩ := DoEnqueue_none uv now item s hv
      refine ⟨hv, ?_, a1, a2, ?_, ?_, ?_, ?_, ?_, ?_, ?_, ?_⟩
      · rw [a4, hV]
        exact hu
      · rw [a3]
        split_ifs <;> rfl
      · rw [a3]
        split_ifs <;> rfl
      · rw [a3]
        split_ifs <;> rfl
      · rw [a3]
        split_ifs <;> rfl
      · rw [a3]
        split_ifs <;> rfl
      · rw [a5, hV]
      · rw [a7, hV]
      · rw [a8, hV]
    · intro hold
      have hV : enqueueVerdict uv now item s
          = (if (DropInEarly uv item (GetQueueSize s) (talliedIn now item s)).1 ≠ 0
               then DTYPE_UNFORCED else DTYPE_NONE,
             (DropInEarly uv item (GetQueueSize s) (talliedIn now item s)).2) := by
        rw [enqueueVerdict_in uv now item s hflow, dropLogicIn_below_limit _ _ _ _ _ hlim2]
        exact redLogicIn_engaged uv item _ _ _ hmin2 hocc hmax2 (by rw [h5]; exact hold)
      refine ⟨by rw [hV], by rw [hV], ?_⟩
      rw [hV, DropInEarly_state]
      show (talliedIn now item s).uvPos + 1 = s.uvPos + 1
      rw [hu]
  · intro hflow hocc hmin hmax
    have h1 : (talliedOut now item s).m_qAvg = updatedAvg now item s := by
      rw [talliedOut_state]
    have h2 : (talliedOut now item s).m_minThOut = s.m_minThOut := by rw [talliedOut_state]
    have h3 : (talliedOut now item s).m_maxThOut = s.m_maxThOut := by rw [talliedOut_state]
    have h4 : (talliedOut now item s).m_isGentleOut = s.m_isGentleOut := by
      rw [talliedOut_state]
    have h5 : (talliedOut now item s).m_oldOut = s.m_oldOut := by rw [talliedOut_state]
    have hq : (talliedOut now item s).m_queueLimit = s.m_queueLimit := by
      rw [talliedOut_state]
    have hu : (talliedOut now item s).uvPos = s.uvPos := by rw [talliedOut_state]
    have hmin2 : (talliedOut now item s).m_qAvg ≥ (talliedOut now item s).m_minThOut := by
      rw [h1, h2]
      exact hmin
    have hmax2 : ¬ forcedByAverage (talliedOut now item s).m_isGentleOut
        (talliedOut now item s).m_qAvg (talliedOut now item s).m_maxThOut := by
      rw [h1, h3, h4]
      exact hmax
    have hlim2 : GetQueueSize s < (talliedOut now item s).m_queueLimit := by
      rw [hq]
      exact hlim
    constructor
    · intro hold
      have hV : enqueueVerdict uv now item s
          = (DTYPE_NONE, { talliedOut now item s with
              m_countOut := 1, m_countBytesOut := item.size, m_oldOut := 1 }) := by
        rw [enqueueVerdict_out uv now item s hflow, dropLogicOut_below_limit _ _ _ _ hlim2]
        exact redLogicOut_crossing uv item _ _ hmin2 hocc hmax2 (by rw [h5]; exact hold)
      have hv : (enqueueVerdict uv now item s).1 = DTYPE_NONE := by rw [hV]
      obtain ⟨a1, a2, a3, a4, _, _, _, _, a9, _, a11, a12⟩ :=
        DoEnqueue_none uv now item s hv
      refine ⟨hv, ?_, a1, a2, ?_, ?_, ?_, ?_, ?_, ?_, ?_, ?_⟩
      · rw [a4, hV]
        exact hu
      · rw [a3]
        split_ifs <;> rfl
      · rw [a3]
        split_ifs <;> rfl
      · rw [a3]
        split_ifs <;> rfl
      · rw [a3]
        split_ifs <;> rfl
      · rw [a3]
        split_ifs <;> rfl
      · rw [a9, hV]
      · rw [a11, hV]
      · rw [a12, hV]
    · intro hold
      have hV : enqueueVerdict uv now item s
          = (if (DropOutEarly uv item (GetQueueSize s) (talliedOut now item s)).1 ≠ 0
               then DTYPE_UNFORCED else DTYPE_NONE,
             (DropOutEarly uv item (GetQueueSize s) (talliedOut now item s)).2) := by
        rw [enqueueVerdict_out uv now item s hflow, dropLogicOut_below_limit _ _ _ _ hlim2]
        exact redLogicOut_engaged uv item _ _ hmin2 hocc hmax2 (by rw [h5]; exact hold)
      refine ⟨by rw [hV], by rw [hV], ?_⟩
      rw [hV, DropOutEarly_state]
      show (talliedOut now item s).uvPos + 1 = s.uvPos + 1
      rw [hu]

/-- C26 (amended) on `byteCrossEngine` with an In packet of 300 bytes, which the internal
queue accepts: the verdict is NONE, the packet is admitted, and afterwards the flag is 1
and the In counters count this packet only. -/
theorem C26_threshold_crossing_witness :
    GetQueueSize byteCrossEngine < byteCrossEngine.m_queueLimit
    ∧ updatedAvgIn 0 (inPacket 2 300) byteCrossEngine = 200
    ∧ (enqueueVerdict (constStream 0) 0 (inPacket 2 300) byteCrossEngine).1 = DTYPE_NONE
    ∧ (DoEnqueue (constStream 0) 0 (inPacket 2 300) byteCrossEngine).2.m_oldIn = 1
    ∧ (DoEnqueue (constStream 0) 0 (inPacket 2 300) byteCrossEngine).2.m_countIn = 1 :=
  ⟨by decide!, by decide!,
   (((C26_threshold_crossing (constStream 0) 0 (inPacket 2 300) byteCrossEngine
      (by decide!)).1 (by decide!) (by decide!) (by decide!)
      (by unfold forcedByAverage; decide!)).1
      (by decide!)).1,
   (((C26_threshold_crossing (constStream 0) 0 (inPacket 2 300) byteCrossEngine
      (by decide!)).1 (by decide!) (by decide!) (by decide!)
      (by unfold forcedByAverage; decide!)).1
      (by decide!)).2.2.2.2.2.2.2.2.2.1,
   (((C26_threshold_crossing (constStream 0) 0 (inPacket 2 300) byteCrossEngine
      (by decide!)).1 (by decide!) (by decide!) (by decide!)
      (by unfold forcedByAverage; decide!)).1
      (by decide!)).2.2.2.2.2.2.2.2.2.2.1⟩

/-! ### The combined average -/

/-- The combined average at the verdict is the updated one. -/
theorem enqueueVerdict_qAvg (uv : Nat → ℚ) (now : Int) (item : QueueDiscItem)
    (s : RioQueueDisc) :
    (enqueueVerdict uv now item s).2.m_qAvg = updatedAvg now item s := by
  by_cases hf : (enqueueCommon now item s).2.2.m_flow ≠ 0
  · rw [enqueueVerdict_in uv now item s hf, dropLogicIn_state, talliedIn_state]
  · rw [enqueueVerdict_out uv now item s (not_not.mp hf), dropLogicOut_state,
      talliedOut_state]

/-- The combined average after `DoEnqueue` is the updated one. -/
theorem DoEnqueue_qAvg (uv : Nat → ℚ) (now : Int) (item : QueueDiscItem)
    (s : RioQueueDisc) :
    (DoEnqueue uv now item s).2.m_qAvg = updatedAvg now item s := by
  rw [DoEnqueue_eq]
  split_ifs
  · rw [applyIn_state]
    exact enqueueVerdict_qAvg uv now item s
  · rw [applyOut_state]
    exact enqueueVerdict_qAvg uv now item s

/-- The packet time constant after a successful initialization. -/
theorem InitializeParams_ptc (expF : ℚ → ℚ) (cfg s : RioQueueDisc)
    (h : InitializeParams expF cfg = some s) :
    s.m_ptc = (cfg.m_linkBandwidth : ℚ) / (8 * (cfg.m_meanPktSize : ℚ)) := by
  obtain ⟨rfl, _, _⟩ := InitializeParams_some expF cfg s h
  have hp : (defaultThresholds cfg).m_ptc
      = (cfg.m_linkBandwidth : ℚ) / (8 * (cfg.m_meanPktSize : ℚ)) := by
    rw [defaultThresholds_eq]
  generalize defaultThresholds cfg = t at hp ⊢
  rw [queueWeight_eq, coefficientsOut_eq, coefficientsIn_eq]
  exact hp

/-- The number of virtual arrivals without wrap-around: one more than the integral part
of the product. -/
theorem virtualArrivals_idle (now : Int) (s : RioQueueDisc)
    (h0 : 0 ≤ s.m_ptc * GetSeconds (now - s.m_idleTime))
    (h1 : s.m_ptc * GetSeconds (now - s.m_idleTime) < 4294967295) :
    ((virtualArrivals true now s : Nat) : Int)
      = Int.floor (s.m_ptc * GetSeconds (now - s.m_idleTime)) + 1 := by
  have f0 : 0 ≤ Int.floor (s.m_ptc * GetSeconds (now - s.m_idleTime)) := Int.floor_nonneg.mpr h0
  have f1 : Int.floor (s.m_ptc * GetSeconds (now - s.m_idleTime)) < 4294967295 := by
    rw [Int.floor_lt]
    exact_mod_cast h1
  unfold virtualArrivals toU32 u32
  simp only [if_true]
  omega

/-- C28 (counterexample): on `idleEngine` (idle since time 0, combined average 1/2, queue
weight 1/2, 375 packets per second) an arrival at 8.5 ms finds the product of rate and
idle time at `3.1875`; `DoEnqueue` sets the combined average to `1/32`, the estimate for 4
virtual arrivals, while the rounded product is 3, for which the estimate is `1/16`. -/
theorem C28_counterexample :
    idleEngine.m_idle = true
    ∧ idleEngine.m_idleTime = 0
    ∧ idleEngine.m_ptc = 375
    ∧ idleEngine.m_qAvg = 1 / 2
    ∧ idleEngine.m_qW = 1 / 2
    ∧ GetQueueSize idleEngine = 0
    ∧ (DoEnqueue (constStream 0) 8500000 (outPacket 3 100) idleEngine).2.m_qAvg = 1 / 32
    ∧ specVirtualArrivals idleEngine.m_idle idleEngine.m_ptc 8500000 idleEngine.m_idleTime = 3
    ∧ Estimator (GetQueueSize idleEngine)
        (specVirtualArrivals idleEngine.m_idle idleEngine.m_ptc 8500000 idleEngine.m_idleTime)
        idleEngine.m_qAvg idleEngine.m_qW = 1 / 16 := by
  decide!

/-- C28 (amended): every `DoEnqueue`, whatever the class and the verdict, sets the
combined average to `Estimator` of the occupancy of the internal queue before the
arrival, the number `virtualArrivals` of virtual arrivals, the previous average and the
queue weight, and clears the idle flag. The number of virtual arrivals is 1 when the idle
flag was clear and, when it was set, one more than the integral part of
`m_ptc * (now - idleStart)` in seconds (as `uint32_t`; exactly that below `2 ^ 32 - 1`).
After a successful initialization `m_ptc` is `linkBandwidth / (8 * meanPktSize)`. -/
theorem C28_combined_average_update (uv : Nat → ℚ) (now : Int) (item : QueueDiscItem)
    (s : RioQueueDisc) :
    (DoEnqueue uv now item s).2.m_qAvg
      = Estimator (GetQueueSize s) (virtualArrivals s.m_idle now s) s.m_qAvg s.m_qW
    ∧ (DoEnqueue uv now item s).2.m_idle = false
    ∧ (s.m_idle = false → virtualArrivals s.m_idle now s = 1)
    ∧ (s.m_idle = true →
        virtualArrivals s.m_idle now s
          = u32 (toU32 (s.m_ptc * GetSeconds (now - s.m_idleTime)) + 1))
    ∧ (s.m_idle = true → 0 ≤ s.m_ptc * GetSeconds (now - s.m_idleTime) →
        s.m_ptc * GetSeconds (now - s.m_idleTime) < 4294967295 →
        ((virtualArrivals s.m_idle now s : Nat) : Int)
          = Int.floor (s.m_ptc * GetSeconds (now - s.m_idleTime)) + 1)
    ∧ (∀ (expF : ℚ → ℚ) (cfg s0 : RioQueueDisc), InitializeParams expF cfg = some s0 →
        s0.m_ptc = (cfg.m_linkBandwidth : ℚ) / (8 * (cfg.m_meanPktSize : ℚ))) := by
  refine ⟨?_, ?_, ?_, ?_, ?_, InitializeParams_ptc⟩
  · rw [DoEnqueue_qAvg, updatedAvg_eq]
  · rw [DoEnqueue_state]
  · intro h
    rw [h]
    rfl
  · intro h
    rw [h]
    rfl
  · intro h h0 h1
    rw [h]
    exact virtualArrivals_idle now s h0 h1

/-- C28 (amended) on `idleEngine` with an arrival at 8.5 ms: 4 virtual arrivals, one more
than the integral part 3 of the product. -/
theorem C28_combined_average_update_witness :
    idleEngine.m_idle = true
    ∧ (0 : ℚ) ≤ idleEngine.m_ptc * GetSeconds (8500000 - idleEngine.m_idleTime)
    ∧ idleEngine.m_ptc * GetSeconds (8500000 - idleEngine.m_idleTime) < 4294967295
    ∧ Int.floor (idleEngine.m_ptc * GetSeconds (8500000 - idleEngine.m_idleTime)) = 3
    ∧ ((virtualArrivals idleEngine.m_idle 8500000 idleEngine : Nat) : Int)
        = Int.floor (idleEngine.m_ptc * GetSeconds (8500000 - idleEngine.m_idleTime)) + 1 :=
  ⟨by decide!, by decide!, by decide!, by decide!,
   (C28_combined_average_update (constStream 0) 8500000 (outPacket 3 100)
      idleEngine).2.2.2.2.1 (by decide!) (by decide!) (by decide!)⟩

/-! ### Initialization twice -/

/-- After the defaults are filled in, no class has both thresholds equal to 0. -/
theorem defaultThresholds_settled (cfg : RioQueueDisc) :
    ¬ ((defaultThresholds cfg).m_minThIn = 0 ∧ (defaultThresholds cfg).m_maxThIn = 0)
    ∧ ¬ ((defaultThresholds cfg).m_minThOut = 0 ∧ (defaultThresholds cfg).m_maxThOut = 0) := by
  obtain ⟨f1, f2, f3, f4⟩ := defaultThresholds_fields cfg
  rw [f1, f2, f3, f4]
  constructor
  · by_cases h : cfg.m_minThIn = 0 ∧ cfg.m_maxThIn = 0
    · simp only [h, and_self, if_true]
      norm_num
    · simp only [h, if_false, not_false_eq_true]
  · by_cases h : cfg.m_minThOut = 0 ∧ cfg.m_maxThOut = 0
    · simp only [h, and_self, if_true]
      norm_num
    · simp only [h, if_false, not_false_eq_true]

/-- The stage `defaultThresholds` changes nothing on a state whose packet time constant is
the derived one and in which no class has both thresholds equal to 0. -/
theorem defaultThresholds_fix (u : RioQueueDisc)
    (hp : u.m_ptc = (u.m_linkBandwidth : ℚ) / (8 * (u.m_meanPktSize : ℚ)))
    (hIn : ¬ (u.m_minThIn = 0 ∧ u.m_maxThIn = 0))
    (hOut : ¬ (u.m_minThOut = 0 ∧ u.m_maxThOut = 0)) :
    defaultThresholds u = u := by
  rw [defaultThresholds_eq]
  simp only [hIn, hOut, if_false]
  rw [← hp]

/-- The stage `coefficientsIn` changes nothing on a state whose In coefficients are the
derived ones. -/
theorem coefficientsIn_fix (u : RioQueueDisc)
    (hA : u.m_vAIn
      = 1 / (if u.m_maxThIn - u.m_minThIn = 0 then 1 else u.m_maxThIn - u.m_minThIn))
    (hP : u.m_curMaxPIn = 1 / u.m_lIntermIn)
    (hB : u.m_vBIn = - u.m_minThIn
      / (if u.m_maxThIn - u.m_minThIn = 0 then 1 else u.m_maxThIn - u.m_minThIn))
    (hC : u.m_isGentleIn = true → u.m_vCIn = (1 - 1 / u.m_lIntermIn) / u.m_maxThIn)
    (hD : u.m_isGentleIn = true → u.m_vDIn = 2 * (1 / u.m_lIntermIn) - 1) :
    coefficientsIn u = u := by
  rw [coefficientsIn_eq]
  by_cases hg : u.m_isGentleIn = true
  · rw [if_pos hg, if_pos hg, ← hC hg, ← hD hg, ← hA, ← hB, ← hP]
  · rw [if_neg hg, if_neg hg, ← hA, ← hB, ← hP]

/-- The stage `coefficientsOut` changes nothing on a state whose Out coefficients are the
derived ones. -/
theorem coefficientsOut_fix (u : RioQueueDisc)
    (hA : u.m_vAOut
      = 1 / (if u.m_maxThOut - u.m_minThOut = 0 then 1 else u.m_maxThOut - u.m_minThOut))
    (hP : u.m_curMaxPOut = 1 / u.m_lIntermOut)
    (hB : u.m_vBOut = - u.m_minThOut
      / (if u.m_maxThOut - u.m_minThOut = 0 then 1 else u.m_maxThOut - u.m_minThOut))
    (hC : u.m_isGentleOut = true → u.m_vCOut = (1 - 1 / u.m_lIntermOut) / u.m_maxThOut)
    (hD : u.m_isGentleOut = true → u.m_vDOut = 2 * (1 / u.m_lIntermOut) - 1) :
    coefficientsOut u = u := by
  rw [coefficientsOut_eq]
  by_cases hg : u.m_isGentleOut = true
  · rw [if_pos hg, if_pos hg, ← hC hg, ← hD hg, ← hA, ← hB, ← hP]
  · rw [if_neg hg, if_neg hg, ← hA, ← hB, ← hP]

/-- The stage `queueWeight` changes nothing on a state whose idle start is 0 and whose
queue weight is none of `0`, `-1`, `-2`. -/
theorem queueWeight_fix (expF : ℚ → ℚ) (u : RioQueueDisc) (hi : u.m_idleTime = 0)
    (h0 : u.m_qW ≠ 0) (h1 : u.m_qW ≠ -1) (h2 : u.m_qW ≠ -2) :
    queueWeight expF u = u := by
  unfold queueWeight
  simp only [h0, h1, h2, if_false]
  rw [← hi]

/-- With a positive packet time constant and `std::exp` between 0 and 1 on negative
arguments, the queue weight after the stage `queueWeight` is none of `0`, `-1`, `-2`. -/
theorem queueWeight_settled (expF : ℚ → ℚ)
    (hexp : ∀ x : ℚ, x < 0 → 0 < expF x ∧ expF x < 1) (z : RioQueueDisc)
    (hptc : 0 < z.m_ptc) :
    (queueWeight expF z).m_qW ≠ 0 ∧ (queueWeight expF z).m_qW ≠ -1
    ∧ (queueWeight expF z).m_qW ≠ -2 := by
  have key : ∀ x : ℚ, x < 0 →
      (1 - expF x ≠ 0 ∧ 1 - expF x ≠ -1 ∧ 1 - expF x ≠ -2) := by
    intro x hx
    obtain ⟨a, b⟩ := hexp x hx
    refine ⟨?_, ?_, ?_⟩ <;> intro h <;> linarith
  have n1 : -1 / z.m_ptc < 0 := div_neg_of_neg_of_pos (by norm_num) hptc
  have n2 : -10 / z.m_ptc < 0 := div_neg_of_neg_of_pos (by norm_num) hptc
  unfold queueWeight
  simp only []
  split_ifs with c0 c1 c2 c3
  · exact key _ n1
  · apply key
    apply div_neg_of_neg_of_pos (by norm_num)
    have : (0 : ℚ) < 1 / 10 := by norm_num
    positivity
  · apply key
    apply div_neg_of_neg_of_pos (by norm_num)
    have : (0 : ℚ) < 3 * (GetSeconds z.m_linkDelay + 1 / z.m_ptc) := by linarith
    positivity
  · exact key _ n2
  · exact ⟨c0, c1, c3⟩

/-- The function `InitializeParams` returns the state it is given when every stage leaves
that state as it is and the thresholds are ordered. -/
theorem InitializeParams_fix (expF : ℚ → ℚ) (u : RioQueueDisc)
    (hD : defaultThresholds u = u) (o1 : u.m_minThIn ≤ u.m_maxThIn)
    (o2 : u.m_minThOut ≤ u.m_maxThOut) (hR : resetRuntime u = u)
    (hCI : coefficientsIn u = u) (hCO : coefficientsOut u = u)
    (hQ : queueWeight expF u = u) :
    InitializeParams expF u = some u := by
  unfold InitializeParams
  simp only []
  rw [hD, if_neg (not_not.mpr o1), if_neg (not_not.mpr o2), hR, hCI, hCO, hQ]

/-- C21: `InitializeParams` is idempotent. With a positive link rate and mean packet
size, and `std::exp` taking values between 0 and 1 on negative arguments, whenever the
initialization of a configuration (whatever the prior state) returns a state, the
initialization of that state returns the same state again: thresholds, queue weight,
derived coefficients, statistics, averages and every other member are equal. -/
theorem C21_initialize_idempotent (expF : ℚ → ℚ)
    (hexp : ∀ x : ℚ, x < 0 → 0 < expF x ∧ expF x < 1) (cfg s : RioQueueDisc)
    (hbw : 0 < cfg.m_linkBandwidth) (hmean : 0 < cfg.m_meanPktSize)
    (h : InitializeParams expF cfg = some s) :
    InitializeParams expF s = some s := by
  obtain ⟨rfl, o1, o2⟩ := InitializeParams_some expF cfg s h
  have hp : (defaultThresholds cfg).m_ptc
      = ((defaultThresholds cfg).m_linkBandwidth : ℚ)
          / (8 * ((defaultThresholds cfg).m_meanPktSize : ℚ)) := by
    rw [defaultThresholds_eq]
  have hpos : 0 < (defaultThresholds cfg).m_ptc := by
    rw [defaultThresholds_eq]
    have a : (0 : ℚ) < (cfg.m_linkBandwidth : ℚ) := by exact_mod_cast hbw
    have b : (0 : ℚ) < (cfg.m_meanPktSize : ℚ) := by exact_mod_cast hmean
    show 0 < (cfg.m_linkBandwidth : ℚ) / (8 * (cfg.m_meanPktSize : ℚ))
    positivity
  obtain ⟨s1, s2⟩ := defaultThresholds_settled cfg
  generalize defaultThresholds cfg = t at hp hpos s1 s2 o1 o2 ⊢
  have hq := queueWeight_settled expF hexp (coefficientsOut (coefficientsIn (resetRuntime t)))
    (by rw [coefficientsOut_eq, coefficientsIn_eq]; exact hpos)
  rw [queueWeight_eq]
  generalize (queueWeight expF (coefficientsOut (coefficientsIn (resetRuntime t)))).m_qW = q
    at hq ⊢
  rw [coefficientsOut_eq, coefficientsIn_eq]
  apply InitializeParams_fix
  · exact defaultThresholds_fix _ hp s1 s2
  · exact o1
  · exact o2
  · rfl
  · exact coefficientsIn_fix _ rfl rfl rfl (fun hg => if_pos hg) (fun hg => if_pos hg)
  · exact coefficientsOut_fix _ rfl rfl rfl (fun hg => if_pos hg) (fun hg => if_pos hg)
  · exact queueWeight_fix expF _ rfl hq.1 hq.2.1 hq.2.2

/-- C21 on `zeroWeight` (statistics and averages in use, queue weight 0): the
initialization returns `zeroWeightEngine`, whose queue weight is the derived one, and the
initialization of `zeroWeightEngine` returns `zeroWeightEngine`. -/
theorem C21_initialize_idempotent_witness :
    0 < zeroWeight.m_linkBandwidth ∧ 0 < zeroWeight.m_meanPktSize
    ∧ InitializeParams (fun _ => 1 / 2) zeroWeight = some zeroWeightEngine
    ∧ zeroWeightEngine.m_qW = 1 / 2
    ∧ InitializeParams (fun _ => 1 / 2) zeroWeightEngine = some zeroWeightEngine :=
  ⟨by decide!, by decide!, by decide!, by decide!,
   C21_initialize_idempotent (fun _ => 1 / 2) (fun _ _ => by norm_num) zeroWeight
     zeroWeightEngine (by decide!) (by decide!) (by decide!)⟩

/-! ### Double arithmetic -/

/-- With `rnd = id` the rounded estimator is `Estimator`. -/
theorem EstimatorR_id (nQueued m : Nat) (qAvg qW : ℚ) :
    EstimatorR id nQueued m qAvg qW = Estimator nQueued m qAvg qW := rfl

/-- With `rnd = id` the rounded `CalculatePNew` is `CalculatePNew`. -/
theorem CalculatePNewR_id (qAvg maxTh : ℚ) (isGentle : Bool) (vA vB vC vD maxP : ℚ) :
    CalculatePNewR id qAvg maxTh isGentle vA vB vC vD maxP
      = CalculatePNew qAvg maxTh isGentle vA vB vC vD maxP := rfl

/-- With `rnd = id` the rounded initialization is `InitializeParams`. -/
theorem InitializeParamsR_id (expF : ℚ → ℚ) (s : RioQueueDisc) :
    InitializeParamsR id expF s = InitializeParams expF s := rfl

/-- The rounding `fl64` on some values: 1, 15 and 0.5 are kept, and 0.1, 0.2 and 0.02
become the nearest `double`. -/
theorem fl64_values :
    fl64 0 = 0 ∧ fl64 1 = 1 ∧ fl64 15 = 15 ∧ fl64 (1 / 2) = 1 / 2 ∧ fl64 (-3) = -3
    ∧ fl64 (1 / 10) = 3602879701896397 / 2 ^ 55
    ∧ fl64 (1 / 5) = 3602879701896397 / 2 ^ 54
    ∧ fl64 (1 / 50) = 5764607523034235 / 2 ^ 58
    ∧ fl64 (1 + 1 / 2 ^ 53) = 1
    ∧ fl64 (1 + 3 / 2 ^ 53) = 1 + 1 / 2 ^ 51 := by
  decide!

/-- The rounded `CalculatePNew` is the value of its branch, clamped at 1. -/
theorem CalculatePNewR_eq_min (rnd : ℚ → ℚ) (qAvg maxTh : ℚ) (isGentle : Bool)
    (vA vB vC vD maxP : ℚ) :
    CalculatePNewR rnd qAvg maxTh isGentle vA vB vC vD maxP
      = min (if isGentle = true ∧ qAvg ≥ maxTh then rnd (rnd (vC * qAvg) + vD)
             else if isGentle = false ∧ qAvg ≥ maxTh then 1
             else rnd (rnd (rnd (vA * qAvg) + vB) * maxP)) 1 := by
  unfold CalculatePNewR
  simp only [clamp_eq_min]

/-- The function `pow2` is the power of two. -/
theorem pow2_eq_zpow (k : Int) : pow2 k = (2 : ℚ) ^ k := by
  unfold pow2
  split_ifs with h
  · obtain ⟨n, rfl⟩ := Int.eq_ofNat_of_zero_le h
    simp
  · have hk : k = -(((-k).toNat : Nat) : Int) := by omega
    rw [hk]
    generalize (-k).toNat = n
    simp

/-- The function `floorLog2Aux` with enough fuel brackets its argument between two
consecutive powers of two. -/
theorem floorLog2Aux_spec : ∀ (fuel n : Nat), 1 ≤ n → n ≤ fuel →
    2 ^ floorLog2Aux fuel n ≤ n ∧ n < 2 ^ (floorLog2Aux fuel n + 1) := by
  intro fuel
  induction fuel with
  | zero => intro n h1 h2; omega
  | succ f ih =>
    intro n h1 h2
    unfold floorLog2Aux
    by_cases hn : n < 2
    · rw [if_pos hn]
      simp
      omega
    · rw [if_neg hn]
      obtain ⟨a, b⟩ := ih (n / 2) (by omega) (by omega)
      constructor
      · rw [pow_succ]
        omega
      · rw [pow_succ]
        omega

/-- The function `floorLog2` brackets its argument between two consecutive powers of
two. -/
theorem floorLog2_spec (n : Nat) (h : 1 ≤ n) :
    2 ^ floorLog2 n ≤ n ∧ n < 2 ^ (floorLog2 n + 1) :=
  floorLog2Aux_spec n n h le_rfl

/-- A positive rational lies between the powers of two that the logarithms of its
numerator and denominator give. -/
theorem binExp_bracket (a : ℚ) (ha : 0 < a) :
    (2 : ℚ) ^ ((floorLog2 a.num.natAbs : Int) - (floorLog2 a.den : Int) - 1) < a
    ∧ a < (2 : ℚ) ^ ((floorLog2 a.num.natAbs : Int) - (floorLog2 a.den : Int) + 1) := by
  have hnum : 0 < a.num := Rat.num_pos.mpr ha
  have hP0 : 1 ≤ a.num.natAbs := by omega
  have hQ0 : 1 ≤ a.den := a.den_pos
  obtain ⟨p1, p2⟩ := floorLog2_spec a.num.natAbs hP0
  obtain ⟨q1, q2⟩ := floorLog2_spec a.den hQ0
  generalize floorLog2 a.num.natAbs = lp at p1 p2 ⊢
  generalize floorLog2 a.den = lq at q1 q2 ⊢
  have hcast : ((a.num.natAbs : Nat) : ℚ) = (a.num : ℚ) := by
    rw [Nat.cast_natAbs, abs_of_pos hnum]
  have hdiv : a = ((a.num.natAbs : Nat) : ℚ) / ((a.den : Nat) : ℚ) := by
    rw [hcast]
    exact (Rat.num_div_den a).symm
  have P1 : (2 : ℚ) ^ lp ≤ ((a.num.natAbs : Nat) : ℚ) := by exact_mod_cast p1
  have P2 : ((a.num.natAbs : Nat) : ℚ) < (2 : ℚ) ^ (lp + 1) := by exact_mod_cast p2
  have Q1 : (2 : ℚ) ^ lq ≤ ((a.den : Nat) : ℚ) := by exact_mod_cast q1
  have Q2 : ((a.den : Nat) : ℚ) < (2 : ℚ) ^ (lq + 1) := by exact_mod_cast q2
  generalize ((a.num.natAbs : Nat) : ℚ) = P at hdiv P1 P2
  generalize ((a.den : Nat) : ℚ) = Q at hdiv Q1 Q2
  have h2lq : (0 : ℚ) < 2 ^ lq := by positivity
  have h2lq1 : (0 : ℚ) < 2 ^ (lq + 1) := by positivity
  have hQ : 0 < Q := lt_of_lt_of_le h2lq Q1
  have e1 : (2 : ℚ) ^ ((lp : Int) - (lq : Int) - 1) = 2 ^ lp / 2 ^ (lq + 1) := by
    have : (lp : Int) - (lq : Int) - 1 = (lp : Int) - ((lq + 1 : Nat) : Int) := by
      push_cast; ring
    rw [this, zpow_sub₀ (by norm_num : (2 : ℚ) ≠ 0), zpow_natCast, zpow_natCast]
  have e2 : (2 : ℚ) ^ ((lp : Int) - (lq : Int) + 1) = 2 ^ (lp + 1) / 2 ^ lq := by
    have : (lp : Int) - (lq : Int) + 1 = ((lp + 1 : Nat) : Int) - (lq : Int) := by
      push_cast; ring
    rw [this, zpow_sub₀ (by norm_num : (2 : ℚ) ≠ 0), zpow_natCast, zpow_natCast]
  rw [e1, e2, hdiv]
  constructor
  · rw [div_lt_div_iff₀ h2lq1 hQ]
    have : (2 : ℚ) ^ lp * Q < P * 2 ^ (lq + 1) := by
      have hpos : (0 : ℚ) < 2 ^ lp := by positivity
      calc (2 : ℚ) ^ lp * Q < 2 ^ lp * 2 ^ (lq + 1) := by
            exact mul_lt_mul_of_pos_left Q2 hpos
        _ ≤ P * 2 ^ (lq + 1) := by
            exact mul_le_mul_of_nonneg_right P1 (le_of_lt h2lq1)
    exact this
  · rw [div_lt_div_iff₀ hQ h2lq]
    have hpos : (0 : ℚ) < 2 ^ (lp + 1) := by positivity
    calc P * 2 ^ lq ≤ P * Q := by
          exact mul_le_mul_of_nonneg_left Q1 (le_trans (by positivity) P1)
      _ < 2 ^ (lp + 1) * Q := by
          exact mul_lt_mul_of_pos_right P2 hQ

/-- The binary exponent of a positive rational brackets it between two consecutive powers
of two. -/
theorem binExp_spec (a : ℚ) (ha : 0 < a) :
    (2 : ℚ) ^ binExp a ≤ a ∧ a < (2 : ℚ) ^ (binExp a + 1) := by
  obtain ⟨b1, b2⟩ := binExp_bracket a ha
  unfold binExp
  simp only []
  rw [pow2_eq_zpow]
  split_ifs with h
  · exact ⟨h, b2⟩
  · refine ⟨le_of_lt b1, ?_⟩
    have : (floorLog2 a.num.natAbs : Int) - (floorLog2 a.den : Int) - 1 + 1
        = (floorLog2 a.num.natAbs : Int) - (floorLog2 a.den : Int) := by ring
    rw [this]
    exact not_le.mp h

/-- The binary exponent does not decrease with its argument. -/
theorem binExp_mono (a b : ℚ) (ha : 0 < a) (hab : a ≤ b) : binExp a ≤ binExp b := by
  obtain ⟨a1, _⟩ := binExp_spec a ha
  obtain ⟨_, b2⟩ := binExp_spec b (lt_of_lt_of_le ha hab)
  have h : (2 : ℚ) ^ binExp a < (2 : ℚ) ^ (binExp b + 1) :=
    lt_of_le_of_lt (le_trans a1 hab) b2
  have := (zpow_lt_zpow_iff_right₀ (by norm_num : (1 : ℚ) < 2)).mp h
  omega

/-- The function `roundEven` returns the integral part or its successor. -/
theorem roundEven_floor (x : ℚ) : ⌊x⌋ ≤ roundEven x ∧ roundEven x ≤ ⌊x⌋ + 1 := by
  unfold roundEven
  simp only []
  split_ifs <;> omega

/-- The function `roundEven` keeps an integer. -/
theorem roundEven_intCast (n : Int) : roundEven (n : ℚ) = n := by
  unfold roundEven
  simp only [Int.floor_intCast, sub_self]
  norm_num

/-- The function `roundEven` preserves the order. -/
theorem roundEven_mono (x y : ℚ) (h : x ≤ y) : roundEven x ≤ roundEven y := by
  rcases lt_or_eq_of_le (Int.floor_mono h) with hlt | heq
  · have h1 := (roundEven_floor x).2
    have h2 := (roundEven_floor y).1
    omega
  · unfold roundEven
    simp only []
    rw [← heq]
    have hr : x - (⌊x⌋ : ℚ) ≤ y - (⌊x⌋ : ℚ) := by linarith
    split_ifs <;> first | omega | linarith

/-- The exponent that `fl64` uses for a positive argument. -/
theorem fl64_pos (x : ℚ) (hx : 0 < x) :
    fl64 x = (roundEven (x / (2 : ℚ) ^ (max (binExp x) (-1022) - 52)) : ℚ)
      * (2 : ℚ) ^ (max (binExp x) (-1022) - 52) := by
  unfold fl64
  rw [if_neg (ne_of_gt hx)]
  simp only [abs_of_pos hx, if_pos hx, pow2_eq_zpow]

/-- The rounding `fl64` is odd. -/
theorem fl64_neg (x : ℚ) : fl64 (-x) = - fl64 x := by
  unfold fl64
  by_cases h0 : x = 0
  · simp [h0]
  · have h0' : ¬ -x = 0 := by simpa using h0
    rw [if_neg h0, if_neg h0']
    simp only [abs_neg]
    rcases lt_or_gt_of_ne h0 with hneg | hpos
    · have h1 : 0 < -x := by linarith
      have h2 : ¬ 0 < x := by linarith
      rw [if_pos h1, if_neg h2]
      ring
    · have h1 : ¬ 0 < -x := by linarith
      rw [if_neg h1, if_pos hpos]

/-- The rounding `fl64` of a positive number is not negative. -/
theorem fl64_nonneg_of_pos (x : ℚ) (hx : 0 < x) : 0 ≤ fl64 x := by
  rw [fl64_pos x hx]
  have hq : (0 : ℚ) < (2 : ℚ) ^ (max (binExp x) (-1022) - 52) := by positivity
  apply mul_nonneg _ (le_of_lt hq)
  have h1 : 0 ≤ x / (2 : ℚ) ^ (max (binExp x) (-1022) - 52) := div_nonneg (le_of_lt hx) (le_of_lt hq)
  have h2 : (0 : Int) ≤ ⌊x / (2 : ℚ) ^ (max (binExp x) (-1022) - 52)⌋ := Int.floor_nonneg.mpr h1
  have h3 := (roundEven_floor (x / (2 : ℚ) ^ (max (binExp x) (-1022) - 52))).1
  exact_mod_cast le_trans h2 h3

/-- The rounding `fl64` preserves the order of positive numbers. -/
theorem fl64_mono_pos (x y : ℚ) (hx : 0 < x) (hxy : x ≤ y) : fl64 x ≤ fl64 y := by
  have hy : 0 < y := lt_of_lt_of_le hx hxy
  have hE : max (binExp x) (-1022) ≤ max (binExp y) (-1022) :=
    max_le_max (binExp_mono x y hx hxy) le_rfl
  rw [fl64_pos x hx, fl64_pos y hy]
  rcases lt_or_eq_of_le hE with hlt | heq
  · obtain ⟨_, x2⟩ := binExp_spec x hx
    obtain ⟨y1, _⟩ := binExp_spec y hy
    have hEy : max (binExp y) (-1022) = binExp y := by
      apply max_eq_left
      have : (-1022 : Int) ≤ max (binExp x) (-1022) := le_max_right _ _
      by_contra hc
      have : max (binExp y) (-1022) = -1022 := max_eq_right (by omega)
      omega
    have hEx : binExp x ≤ max (binExp x) (-1022) := le_max_left _ _
    generalize max (binExp x) (-1022) = ex at hlt hEx ⊢
    rw [hEy] at hlt ⊢
    generalize binExp y = ey at hlt y1 ⊢
    have two : (1 : ℚ) < 2 := by norm_num
    have two0 : (2 : ℚ) ≠ 0 := by norm_num
    have hqx : (0 : ℚ) < (2 : ℚ) ^ (ex - 52) := by positivity
    have hqy : (0 : ℚ) < (2 : ℚ) ^ (ey - 52) := by positivity
    -- the rounded value of x is at most 2 ^ (ex + 1)
    have hxle : x ≤ (2 : ℚ) ^ (ex + 1) :=
      le_trans (le_of_lt x2) (zpow_le_zpow_right₀ (le_of_lt two) (by omega))
    have hnx : x / (2 : ℚ) ^ (ex - 52) ≤ (((2 : Int) ^ 53 : Int) : ℚ) := by
      rw [div_le_iff₀ hqx]
      have : (((2 : Int) ^ 53 : Int) : ℚ) * (2 : ℚ) ^ (ex - 52) = (2 : ℚ) ^ (ex + 1) := by
        have e : ex + 1 = 53 + (ex - 52) := by ring
        rw [e, zpow_add₀ two0]
        norm_num
      rw [this]
      exact hxle
    have hrx : roundEven (x / (2 : ℚ) ^ (ex - 52)) ≤ (2 : Int) ^ 53 := by
      have := roundEven_mono _ _ hnx
      rw [roundEven_intCast] at this
      exact this
    have hfx : (roundEven (x / (2 : ℚ) ^ (ex - 52)) : ℚ) * (2 : ℚ) ^ (ex - 52)
        ≤ (2 : ℚ) ^ (ex + 1) := by
      have e : (2 : ℚ) ^ (ex + 1) = (((2 : Int) ^ 53 : Int) : ℚ) * (2 : ℚ) ^ (ex - 52) := by
        have e : ex + 1 = 53 + (ex - 52) := by ring
        rw [e, zpow_add₀ two0]
        norm_num
      rw [e]
      apply mul_le_mul_of_nonneg_right _ (le_of_lt hqx)
      exact_mod_cast hrx
    -- the rounded value of y is at least 2 ^ ey
    have hny : (((2 : Int) ^ 52 : Int) : ℚ) ≤ y / (2 : ℚ) ^ (ey - 52) := by
      rw [le_div_iff₀ hqy]
      have : (((2 : Int) ^ 52 : Int) : ℚ) * (2 : ℚ) ^ (ey - 52) = (2 : ℚ) ^ ey := by
        have e : ey = 52 + (ey - 52) := by ring
        conv_rhs => rw [e, zpow_add₀ two0]
        norm_num
      rw [this]
      exact y1
    have hry : (2 : Int) ^ 52 ≤ roundEven (y / (2 : ℚ) ^ (ey - 52)) := by
      have := roundEven_mono _ _ hny
      rw [roundEven_intCast] at this
      exact this
    have hfy : (2 : ℚ) ^ ey
        ≤ (roundEven (y / (2 : ℚ) ^ (ey - 52)) : ℚ) * (2 : ℚ) ^ (ey - 52) := by
      have e : (2 : ℚ) ^ ey = (((2 : Int) ^ 52 : Int) : ℚ) * (2 : ℚ) ^ (ey - 52) := by
        have e : ey = 52 + (ey - 52) := by ring
        conv_lhs => rw [e, zpow_add₀ two0]
        norm_num
      rw [e]
      apply mul_le_mul_of_nonneg_right _ (le_of_lt hqy)
      exact_mod_cast hry
    have hmid : (2 : ℚ) ^ (ex + 1) ≤ (2 : ℚ) ^ ey :=
      zpow_le_zpow_right₀ (le_of_lt two) (by omega)
    exact le_trans hfx (le_trans hmid hfy)
  · rw [← heq]
    have hq : (0 : ℚ) < (2 : ℚ) ^ (max (binExp x) (-1022) - 52) := by positivity
    apply mul_le_mul_of_nonneg_right _ (le_of_lt hq)
    have : x / (2 : ℚ) ^ (max (binExp x) (-1022) - 52)
        ≤ y / (2 : ℚ) ^ (max (binExp x) (-1022) - 52) :=
      div_le_div_of_nonneg_right hxy (le_of_lt hq)
    exact_mod_cast roundEven_mono _ _ this

/-- The rounding `fl64` preserves the order. -/
theorem fl64_mono : Monotone fl64 := by
  intro x y hxy
  rcases lt_trichotomy 0 x with hx | hx | hx
  · exact fl64_mono_pos x y hx hxy
  · rw [← hx]
    rcases lt_or_eq_of_le (hx ▸ hxy) with hy | hy
    · have : fl64 0 = 0 := by unfold fl64; simp
      rw [this]
      exact fl64_nonneg_of_pos y hy
    · rw [← hy]
  · rcases lt_trichotomy 0 y with hy | hy | hy
    · have h1 : 0 ≤ fl64 (-x) := fl64_nonneg_of_pos (-x) (by linarith)
      rw [fl64_neg] at h1
      have h2 := fl64_nonneg_of_pos y hy
      linarith
    · rw [← hy]
      have h1 : 0 ≤ fl64 (-x) := fl64_nonneg_of_pos (-x) (by linarith)
      rw [fl64_neg] at h1
      have : fl64 0 = 0 := by unfold fl64; simp
      rw [this]
      linarith
    · have h1 := fl64_mono_pos (-y) (-x) (by linarith) (by linarith)
      rw [fl64_neg, fl64_neg] at h1
      linarith

/-- The function `roundEven` moves its argument by at most one half. -/
theorem roundEven_error (x : ℚ) : |(roundEven x : ℚ) - x| ≤ 1 / 2 := by
  have h1 : (⌊x⌋ : ℚ) ≤ x := Int.floor_le x
  have h2 : x < (⌊x⌋ : ℚ) + 1 := Int.lt_floor_add_one x
  unfold roundEven
  simp only []
  rw [abs_le]
  split_ifs with a b c
  · constructor <;> linarith
  · push_cast
    constructor <;> linarith
  · constructor <;> linarith
  · push_cast
    constructor <;> linarith

/-- The rounding `fl64` moves a positive number by at most half the spacing of its
binade. -/
theorem fl64_error (x : ℚ) (hx : 0 < x) :
    |fl64 x - x| ≤ (2 : ℚ) ^ (max (binExp x) (-1022) - 53) := by
  rw [fl64_pos x hx]
  generalize max (binExp x) (-1022) = e
  have hq : (0 : ℚ) < (2 : ℚ) ^ (e - 52) := by positivity
  have hhalf : (2 : ℚ) ^ (e - 53) = 1 / 2 * (2 : ℚ) ^ (e - 52) := by
    have : e - 52 = (e - 53) + 1 := by ring
    rw [this, zpow_add₀ (by norm_num : (2 : ℚ) ≠ 0)]
    ring
  have := roundEven_error (x / (2 : ℚ) ^ (e - 52))
  have e1 : (roundEven (x / (2 : ℚ) ^ (e - 52)) : ℚ) * (2 : ℚ) ^ (e - 52) - x
      = ((roundEven (x / (2 : ℚ) ^ (e - 52)) : ℚ) - x / (2 : ℚ) ^ (e - 52))
          * (2 : ℚ) ^ (e - 52) := by
    field_simp
  rw [e1, abs_mul, abs_of_pos hq, hhalf]
  exact mul_le_mul_of_nonneg_right this (le_of_lt hq)

/-- In the normal range `fl64` raises a positive number by at most the factor
`1 + 2 ^ (-53)`. -/
theorem fl64_le_of_normal (x : ℚ) (hx : 0 < x) (hn : (2 : ℚ) ^ (-1022 : Int) ≤ x) :
    fl64 x ≤ x * (1 + (2 : ℚ) ^ (-53 : Int)) := by
  obtain ⟨x1, x2⟩ := binExp_spec x hx
  have hE : (-1022 : Int) ≤ binExp x := by
    have h : (2 : ℚ) ^ (-1022 : Int) < (2 : ℚ) ^ (binExp x + 1) := lt_of_le_of_lt hn x2
    have := (zpow_lt_zpow_iff_right₀ (by norm_num : (1 : ℚ) < 2)).mp h
    omega
  have herr := fl64_error x hx
  rw [max_eq_left hE] at herr
  have hsplit : (2 : ℚ) ^ (binExp x - 53) = (2 : ℚ) ^ binExp x * (2 : ℚ) ^ (-53 : Int) := by
    rw [← zpow_add₀ (by norm_num : (2 : ℚ) ≠ 0)]
    congr 1
  have hp : (0 : ℚ) < (2 : ℚ) ^ (-53 : Int) := by positivity
  have hle : (2 : ℚ) ^ (binExp x - 53) ≤ x * (2 : ℚ) ^ (-53 : Int) := by
    rw [hsplit]
    exact mul_le_mul_of_nonneg_right x1 (le_of_lt hp)
  have := (abs_le.mp herr).2
  linarith

/-- A positive number that `fl64` keeps is an integer multiple of the spacing of its
binade. -/
theorem fl64_fixed (x : ℚ) (hx : 0 < x) (hf : fl64 x = x) :
    x / (2 : ℚ) ^ (max (binExp x) (-1022) - 52)
      = (roundEven (x / (2 : ℚ) ^ (max (binExp x) (-1022) - 52)) : ℚ) := by
  have h := fl64_pos x hx
  rw [hf] at h
  have hq : (0 : ℚ) < (2 : ℚ) ^ (max (binExp x) (-1022) - 52) := by positivity
  rw [div_eq_iff (ne_of_gt hq)]
  exact h

/-- Two positive numbers that `fl64` keeps differ by at least the relative amount
`2 ^ (-53)` of the larger one. -/
theorem fl64_gap (a m : ℚ) (ha : 0 < a) (ham : a < m) (hfa : fl64 a = a)
    (hfm : fl64 m = m) : a ≤ m * (1 - (2 : ℚ) ^ (-53 : Int)) := by
  have hm : 0 < m := lt_trans ha ham
  have two : (1 : ℚ) < 2 := by norm_num
  have two0 : (2 : ℚ) ≠ 0 := by norm_num
  have hE : max (binExp a) (-1022) ≤ max (binExp m) (-1022) :=
    max_le_max (binExp_mono a m ha (le_of_lt ham)) le_rfl
  have ka := fl64_fixed a ha hfa
  have km := fl64_fixed m hm hfm
  obtain ⟨_, a2⟩ := binExp_spec a ha
  obtain ⟨m1, m2⟩ := binExp_spec m hm
  have hEa : binExp a ≤ max (binExp a) (-1022) := le_max_left _ _
  have hEm : binExp m ≤ max (binExp m) (-1022) := le_max_left _ _
  rcases lt_or_eq_of_le hE with hlt | heq
  · have hEm' : max (binExp m) (-1022) = binExp m := by
      apply max_eq_left
      have : (-1022 : Int) ≤ max (binExp a) (-1022) := le_max_right _ _
      by_contra hc
      have : max (binExp m) (-1022) = -1022 := max_eq_right (by omega)
      omega
    rw [hEm'] at hlt
    generalize max (binExp a) (-1022) = ea at hlt hEa ka
    have hq : (0 : ℚ) < (2 : ℚ) ^ (ea - 52) := by positivity
    -- the multiple of `a` is below `2 ^ 53`
    have hlt53 : a / (2 : ℚ) ^ (ea - 52) < (((2 : Int) ^ 53 : Int) : ℚ) := by
      rw [div_lt_iff₀ hq]
      have e : (((2 : Int) ^ 53 : Int) : ℚ) * (2 : ℚ) ^ (ea - 52) = (2 : ℚ) ^ (ea + 1) := by
        have e : ea + 1 = 53 + (ea - 52) := by ring
        rw [e, zpow_add₀ two0]
        norm_num
      rw [e]
      exact lt_of_lt_of_le a2 (zpow_le_zpow_right₀ (le_of_lt two) (by omega))
    rw [ka] at hlt53
    have hint : roundEven (a / (2 : ℚ) ^ (ea - 52)) ≤ (2 : Int) ^ 53 - 1 := by
      have : roundEven (a / (2 : ℚ) ^ (ea - 52)) < (2 : Int) ^ 53 := by exact_mod_cast hlt53
      omega
    have ha_le : a ≤ ((((2 : Int) ^ 53 - 1 : Int)) : ℚ) * (2 : ℚ) ^ (ea - 52) := by
      have : a = (roundEven (a / (2 : ℚ) ^ (ea - 52)) : ℚ) * (2 : ℚ) ^ (ea - 52) := by
        rw [← ka]
        field_simp
      rw [this]
      apply mul_le_mul_of_nonneg_right _ (le_of_lt hq)
      exact_mod_cast hint
    have e2 : ((((2 : Int) ^ 53 - 1 : Int)) : ℚ) * (2 : ℚ) ^ (ea - 52)
        = (2 : ℚ) ^ (ea + 1) * (1 - (2 : ℚ) ^ (-53 : Int)) := by
      have e : ea - 52 = (ea + 1) + (-53) := by ring
      rw [e, zpow_add₀ two0]
      push_cast
      have : (2 : ℚ) ^ (-53 : Int) = 1 / 2 ^ 53 := by
        rw [zpow_neg, one_div]
        norm_cast
      rw [this]
      ring
    have hpos : (0 : ℚ) ≤ 1 - (2 : ℚ) ^ (-53 : Int) := by
      have : (2 : ℚ) ^ (-53 : Int) ≤ (2 : ℚ) ^ (0 : Int) :=
        zpow_le_zpow_right₀ (le_of_lt two) (by norm_num)
      simpa using this
    calc a ≤ (2 : ℚ) ^ (ea + 1) * (1 - (2 : ℚ) ^ (-53 : Int)) := by rw [← e2]; exact ha_le
      _ ≤ (2 : ℚ) ^ binExp m * (1 - (2 : ℚ) ^ (-53 : Int)) := by
          apply mul_le_mul_of_nonneg_right _ hpos
          exact zpow_le_zpow_right₀ (le_of_lt two) (by omega)
      _ ≤ m * (1 - (2 : ℚ) ^ (-53 : Int)) := mul_le_mul_of_nonneg_right m1 hpos
  · rw [← heq] at km
    generalize max (binExp a) (-1022) = e at heq hEa ka km
    have hq : (0 : ℚ) < (2 : ℚ) ^ (e - 52) := by positivity
    have hdiv : a / (2 : ℚ) ^ (e - 52) < m / (2 : ℚ) ^ (e - 52) :=
      div_lt_div_of_pos_right ham hq
    rw [ka, km] at hdiv
    have hint : roundEven (a / (2 : ℚ) ^ (e - 52)) + 1 ≤ roundEven (m / (2 : ℚ) ^ (e - 52)) := by
      have : roundEven (a / (2 : ℚ) ^ (e - 52)) < roundEven (m / (2 : ℚ) ^ (e - 52)) := by
        exact_mod_cast hdiv
      omega
    have hstep : a + (2 : ℚ) ^ (e - 52) ≤ m := by
      have e1 : a = (roundEven (a / (2 : ℚ) ^ (e - 52)) : ℚ) * (2 : ℚ) ^ (e - 52) := by
        rw [← ka]
        field_simp
      have e2 : m = (roundEven (m / (2 : ℚ) ^ (e - 52)) : ℚ) * (2 : ℚ) ^ (e - 52) := by
        rw [← km]
        field_simp
      have hc : ((roundEven (a / (2 : ℚ) ^ (e - 52)) : ℚ) + 1)
          ≤ (roundEven (m / (2 : ℚ) ^ (e - 52)) : ℚ) := by exact_mod_cast hint
      have := mul_le_mul_of_nonneg_right hc (le_of_lt hq)
      rw [e1, e2]
      generalize (roundEven (a / (2 : ℚ) ^ (e - 52)) : ℚ) = na at this ⊢
      generalize (roundEven (m / (2 : ℚ) ^ (e - 52)) : ℚ) = nm at this ⊢
      linarith
    -- the spacing is more than `m * 2 ^ (-53)`
    have hsp : m * (2 : ℚ) ^ (-53 : Int) ≤ (2 : ℚ) ^ (e - 52) := by
      have hm_lt : m ≤ (2 : ℚ) ^ (e + 1) :=
        le_trans (le_of_lt m2) (zpow_le_zpow_right₀ (le_of_lt two) (by omega))
      have e3 : (2 : ℚ) ^ (e - 52) = (2 : ℚ) ^ (e + 1) * (2 : ℚ) ^ (-53 : Int) := by
        rw [← zpow_add₀ two0]
        congr 1
        ring
      rw [e3]
      exact mul_le_mul_of_nonneg_right hm_lt (by positivity)
    linarith

/-- In the arithmetic of `double`, for a divisor `0 < d ≤ 2 ^ 1022` and `double` values
`a < m` with `0 ≤ m`: the rounded product of the rounded reciprocal of `d` and `a` is at
most the rounded quotient `m / d`. -/
theorem fl64_scaled_le (a m d : ℚ) (hd : 0 < d) (hdr : d ≤ 2 ^ 1022) (h0 : 0 ≤ m)
    (ham : a < m) (hfa : fl64 a = a) (hfm : fl64 m = m) :
    fl64 (fl64 (1 / d) * a) ≤ fl64 (m / d) := by
  have f0 : fl64 0 = 0 := by decide!
  have hinv : (0 : ℚ) < 1 / d := one_div_pos.mpr hd
  have hnorm : (2 : ℚ) ^ (-1022 : Int) ≤ 1 / d := by
    have e : (2 : ℚ) ^ (-1022 : Int) = 1 / (2 : ℚ) ^ 1022 := by
      simp only [zpow_neg, zpow_ofNat, one_div]
    rw [e]
    exact one_div_le_one_div_of_le hd hdr
  have hvA0 : 0 ≤ fl64 (1 / d) := le_of_eq_of_le f0.symm (fl64_mono (le_of_lt hinv))
  have hvA : fl64 (1 / d) ≤ 1 / d * (1 + (2 : ℚ) ^ (-53 : Int)) :=
    fl64_le_of_normal (1 / d) hinv hnorm
  have hu0 : (0 : ℚ) < (2 : ℚ) ^ (-53 : Int) := by positivity
  apply fl64_mono
  rcases le_or_lt a 0 with hneg | hpos
  · have t1 : fl64 (1 / d) * a ≤ 0 := mul_nonpos_of_nonneg_of_nonpos hvA0 hneg
    have t2 : 0 ≤ m / d := div_nonneg h0 (le_of_lt hd)
    linarith
  · have hgap := fl64_gap a m hpos ham hfa hfm
    have hmpos : 0 < m := lt_trans hpos ham
    have hb : 0 ≤ 1 / d * (1 + (2 : ℚ) ^ (-53 : Int)) :=
      mul_nonneg (le_of_lt hinv) (by linarith)
    have t1 : fl64 (1 / d) * a
        ≤ (1 / d * (1 + (2 : ℚ) ^ (-53 : Int))) * (m * (1 - (2 : ℚ) ^ (-53 : Int))) :=
      mul_le_mul hvA hgap (le_of_lt hpos) hb
    generalize (2 : ℚ) ^ (-53 : Int) = u at hu0 t1
    have t2 : (1 / d * (1 + u)) * (m * (1 - u)) = m / d * (1 - u * u) := by
      field_simp
      ring
    have t3 : m / d * (1 - u * u) ≤ m / d := by
      have hq : 0 ≤ m / d := div_nonneg (le_of_lt hmpos) (le_of_lt hd)
      have hsq : 0 ≤ u * u := mul_nonneg (le_of_lt hu0) (le_of_lt hu0)
      nlinarith
    linarith

/-- The rounding `fl64` preserves the order and keeps 0 and 1. -/
theorem fl64_rounding : Monotone fl64 ∧ fl64 0 = 0 ∧ fl64 1 = 1 :=
  ⟨fl64_mono, by decide!, by decide!⟩

/-! ### The regimes of the drop probability under rounding -/

/-- A successful rounded initialization is the composition of its five stages, and the
thresholds it keeps are ordered. -/
theorem InitializeParamsR_some (rnd expF : ℚ → ℚ) (cfg s : RioQueueDisc)
    (h : InitializeParamsR rnd expF cfg = some s) :
    s = queueWeightR rnd expF (coefficientsOutR rnd (coefficientsInR rnd
          (resetRuntime (defaultThresholdsR rnd cfg))))
    ∧ (defaultThresholdsR rnd cfg).m_minThIn ≤ (defaultThresholdsR rnd cfg).m_maxThIn
    ∧ (defaultThresholdsR rnd cfg).m_minThOut ≤ (defaultThresholdsR rnd cfg).m_maxThOut := by
  unfold InitializeParamsR at h
  by_cases h1 : (defaultThresholdsR rnd cfg).m_minThIn ≤ (defaultThresholdsR rnd cfg).m_maxThIn
  · by_cases h2 : (defaultThresholdsR rnd cfg).m_minThOut
        ≤ (defaultThresholdsR rnd cfg).m_maxThOut
    · simp [h1, h2] at h
      exact ⟨h.symm, h1, h2⟩
    · simp [h1, h2] at h
  · simp [h1] at h

/-- The stage `coefficientsInR` as one record update. -/
theorem coefficientsInR_eq (rnd : ℚ → ℚ) (s : RioQueueDisc) :
    coefficientsInR rnd s =
      { s with
        m_vAIn := rnd (1 / (if rnd (s.m_maxThIn - s.m_minThIn) = 0 then 1
          else rnd (s.m_maxThIn - s.m_minThIn))),
        m_curMaxPIn := rnd (1 / s.m_lIntermIn),
        m_vBIn := rnd (- s.m_minThIn / (if rnd (s.m_maxThIn - s.m_minThIn) = 0 then 1
          else rnd (s.m_maxThIn - s.m_minThIn))),
        m_vCIn := if s.m_isGentleIn = true
          then rnd (rnd (1 - rnd (1 / s.m_lIntermIn)) / s.m_maxThIn) else s.m_vCIn,
        m_vDIn := if s.m_isGentleIn = true
          then rnd (rnd (2 * rnd (1 / s.m_lIntermIn)) - 1) else s.m_vDIn } := by
  unfold coefficientsInR
  by_cases hg : s.m_isGentleIn = true <;> simp [hg]

/-- The stage `coefficientsOutR` as one record update. -/
theorem coefficientsOutR_eq (rnd : ℚ → ℚ) (s : RioQueueDisc) :
    coefficientsOutR rnd s =
      { s with
        m_vAOut := rnd (1 / (if rnd (s.m_maxThOut - s.m_minThOut) = 0 then 1
          else rnd (s.m_maxThOut - s.m_minThOut))),
        m_curMaxPOut := rnd (1 / s.m_lIntermOut),
        m_vBOut := rnd (- s.m_minThOut / (if rnd (s.m_maxThOut - s.m_minThOut) = 0 then 1
          else rnd (s.m_maxThOut - s.m_minThOut))),
        m_vCOut := if s.m_isGentleOut = true
          then rnd (rnd (1 - rnd (1 / s.m_lIntermOut)) / s.m_maxThOut) else s.m_vCOut,
        m_vDOut := if s.m_isGentleOut = true
          then rnd (rnd (2 * rnd (1 / s.m_lIntermOut)) - 1) else s.m_vDOut } := by
  unfold coefficientsOutR
  by_cases hg : s.m_isGentleOut = true <;> simp [hg]

/-- The stage `queueWeightR` changes the idle start and the queue weight only. -/
theorem queueWeightR_eq (rnd expF : ℚ → ℚ) (s : RioQueueDisc) :
    queueWeightR rnd expF s =
      { s with m_idleTime := 0, m_qW := (queueWeightR rnd expF s).m_qW } := by
  unfold queueWeightR
  simp only []
  split_ifs <;> rfl

/-- Below the maximum threshold the rounded `CalculatePNew` is the value of its last
branch, clamped at 1. -/
theorem CalculatePNewR_linear_branch (rnd : ℚ → ℚ) (avg maxTh : ℚ) (g : Bool)
    (vA vB vC vD maxP : ℚ) (h : avg < maxTh) :
    CalculatePNewR rnd avg maxTh g vA vB vC vD maxP
      = min (rnd (rnd (rnd (vA * avg) + vB) * maxP)) 1 := by
  have hnot : ¬ avg ≥ maxTh := not_le.mpr h
  rw [CalculatePNewR_eq_min]
  simp only [hnot, and_false, if_false]

/-- In the arithmetic of `double`, below the minimum threshold: for thresholds and an
average that are `double` values, with `0 ≤ minTh ≤ maxTh`, a difference of the thresholds
of at most `2 ^ 1022` and `lInterm ≥ 1`, the rounded `CalculatePNew` with the derived
coefficients returns the value of its last branch, to which no clamp is applied, and this
value is at most 0. -/
theorem CalculatePNewR_fl64_below_minTh (avg minTh maxTh : ℚ) (g : Bool) (vC vD l : ℚ)
    (h : minTh ≤ maxTh) (h0 : 0 ≤ minTh) (ha : avg < minTh) (hl : 1 ≤ l)
    (hfa : fl64 avg = avg) (hfm : fl64 minTh = minTh)
    (hrange : maxTh - minTh ≤ 2 ^ 1022) :
    CalculatePNewR fl64 avg maxTh g
        (fl64 (1 / (if fl64 (maxTh - minTh) = 0 then 1 else fl64 (maxTh - minTh))))
        (fl64 (- minTh / (if fl64 (maxTh - minTh) = 0 then 1 else fl64 (maxTh - minTh))))
        vC vD (fl64 (1 / l))
      = fl64 (fl64 (fl64 (fl64 (1 / (if fl64 (maxTh - minTh) = 0 then 1
            else fl64 (maxTh - minTh))) * avg)
          + fl64 (- minTh / (if fl64 (maxTh - minTh) = 0 then 1
            else fl64 (maxTh - minTh)))) * fl64 (1 / l))
    ∧ CalculatePNewR fl64 avg maxTh g
        (fl64 (1 / (if fl64 (maxTh - minTh) = 0 then 1 else fl64 (maxTh - minTh))))
        (fl64 (- minTh / (if fl64 (maxTh - minTh) = 0 then 1 else fl64 (maxTh - minTh))))
        vC vD (fl64 (1 / l)) ≤ 0 := by
  have f0 : fl64 0 = 0 := by decide!
  have key : ∀ x : ℚ, 0 ≤ x → 0 ≤ fl64 x := fun x hx => le_of_eq_of_le f0.symm (fl64_mono hx)
  have key2 : ∀ x : ℚ, x ≤ 0 → fl64 x ≤ 0 := fun x hx => le_of_le_of_eq (fl64_mono hx) f0
  have hlpos : 0 < l := lt_of_lt_of_le one_pos hl
  have hd0 : 0 ≤ fl64 (maxTh - minTh) := key _ (sub_nonneg.mpr h)
  have hdle : fl64 (maxTh - minTh) ≤ 2 ^ 1022 := by
    have e : fl64 (2 ^ 1022) = 2 ^ 1022 := by decide!
    exact le_of_le_of_eq (fl64_mono hrange) e
  have hd : (0 : ℚ) < (if fl64 (maxTh - minTh) = 0 then 1 else fl64 (maxTh - minTh)) := by
    split_ifs with hz
    · exact one_pos
    · exact lt_of_le_of_ne hd0 (Ne.symm hz)
  have hdr : (if fl64 (maxTh - minTh) = 0 then 1 else fl64 (maxTh - minTh))
      ≤ (2 : ℚ) ^ 1022 := by
    split_ifs with hz
    · exact one_le_pow₀ (by norm_num : (1 : ℚ) ≤ 2)
    · exact hdle
  generalize (if fl64 (maxTh - minTh) = 0 then 1 else fl64 (maxTh - minTh)) = d at hd hdr ⊢
  have hvB : fl64 (- minTh / d) = - fl64 (minTh / d) := by
    rw [neg_div, fl64_neg]
  have hprod := fl64_scaled_le avg minTh d hd hdr h0 ha hfa hfm
  have hsum : fl64 (fl64 (1 / d) * avg) + fl64 (- minTh / d) ≤ 0 := by
    rw [hvB]
    linarith
  have hp1 : fl64 (fl64 (fl64 (1 / d) * avg) + fl64 (- minTh / d)) ≤ 0 := key2 _ hsum
  have hmaxP : 0 ≤ fl64 (1 / l) := key _ (le_of_lt (one_div_pos.mpr hlpos))
  have hp : fl64 (fl64 (fl64 (fl64 (1 / d) * avg) + fl64 (- minTh / d)) * fl64 (1 / l)) ≤ 0 :=
    key2 _ (mul_nonpos_of_nonpos_of_nonneg hp1 hmaxP)
  rw [CalculatePNewR_linear_branch fl64 avg maxTh g _ _ vC vD _ (lt_of_lt_of_le ha h)]
  rw [min_eq_left (le_trans hp zero_le_one)]
  exact ⟨rfl, hp⟩

/-- C10 (amended): after an initialization that succeeds (so `minTh ≤ maxTh`), for a
class with `lInterm ≥ 1` and for every average below the minimum threshold of the class,
`CalculatePNew` with the derived coefficients returns the value of its last branch,
`(vA * average + vB) * maxP`, to which no clamp is applied, and this value is at most 0.
This is stated in exact arithmetic, and in the arithmetic of `double` (every operation
rounded by `fl64`) for a minimum threshold and an average that are `double` values, with
`0 ≤ minTh` and a difference `maxTh - minTh` that is 0 or lies between `2 ^ (-1022)` and
`2 ^ 1022`, so that its reciprocal neither overflows nor leaves the normal range. Stated
for In and for Out. -/
theorem C10_below_minTh_unclamped (expF : ℚ → ℚ) (cfg : RioQueueDisc) (avg : ℚ) :
    (∀ s : RioQueueDisc, InitializeParams expF cfg = some s →
      (1 ≤ s.m_lIntermIn → avg < s.m_minThIn →
        CalculatePNew avg s.m_maxThIn s.m_isGentleIn s.m_vAIn s.m_vBIn s.m_vCIn s.m_vDIn
            s.m_curMaxPIn
          = (s.m_vAIn * avg + s.m_vBIn) * s.m_curMaxPIn
        ∧ CalculatePNew avg s.m_maxThIn s.m_isGentleIn s.m_vAIn s.m_vBIn s.m_vCIn s.m_vDIn
            s.m_curMaxPIn ≤ 0)
      ∧ (1 ≤ s.m_lIntermOut → avg < s.m_minThOut →
        CalculatePNew avg s.m_maxThOut s.m_isGentleOut s.m_vAOut s.m_vBOut s.m_vCOut
            s.m_vDOut s.m_curMaxPOut
          = (s.m_vAOut * avg + s.m_vBOut) * s.m_curMaxPOut
        ∧ CalculatePNew avg s.m_maxThOut s.m_isGentleOut s.m_vAOut s.m_vBOut s.m_vCOut
            s.m_vDOut s.m_curMaxPOut ≤ 0))
    ∧ (∀ s : RioQueueDisc, InitializeParamsR fl64 expF cfg = some s → fl64 avg = avg →
      (1 ≤ s.m_lIntermIn → avg < s.m_minThIn → 0 ≤ s.m_minThIn →
          fl64 s.m_minThIn = s.m_minThIn → s.m_maxThIn - s.m_minThIn ≤ 2 ^ 1022 →
          (s.m_maxThIn = s.m_minThIn ∨ 1 / 2 ^ 1022 ≤ s.m_maxThIn - s.m_minThIn) →
        CalculatePNewR fl64 avg s.m_maxThIn s.m_isGentleIn s.m_vAIn s.m_vBIn s.m_vCIn
            s.m_vDIn s.m_curMaxPIn
          = fl64 (fl64 (fl64 (s.m_vAIn * avg) + s.m_vBIn) * s.m_curMaxPIn)
        ∧ CalculatePNewR fl64 avg s.m_maxThIn s.m_isGentleIn s.m_vAIn s.m_vBIn s.m_vCIn
            s.m_vDIn s.m_curMaxPIn ≤ 0)
      ∧ (1 ≤ s.m_lIntermOut → avg < s.m_minThOut → 0 ≤ s.m_minThOut →
          fl64 s.m_minThOut = s.m_minThOut → s.m_maxThOut - s.m_minThOut ≤ 2 ^ 1022 →
          (s.m_maxThOut = s.m_minThOut ∨ 1 / 2 ^ 1022 ≤ s.m_maxThOut - s.m_minThOut) →
        CalculatePNewR fl64 avg s.m_maxThOut s.m_isGentleOut s.m_vAOut s.m_vBOut s.m_vCOut
            s.m_vDOut s.m_curMaxPOut
          = fl64 (fl64 (fl64 (s.m_vAOut * avg) + s.m_vBOut) * s.m_curMaxPOut)
        ∧ CalculatePNewR fl64 avg s.m_maxThOut s.m_isGentleOut s.m_vAOut s.m_vBOut s.m_vCOut
            s.m_vDOut s.m_curMaxPOut ≤ 0)) := by
  constructor
  · intro s hinit
    obtain ⟨rfl, h1, h2⟩ := InitializeParams_some expF cfg s hinit
    generalize defaultThresholds cfg = t at h1 h2 ⊢
    rw [queueWeight_eq, coefficientsOut_eq, coefficientsIn_eq]
    simp only [resetRuntime]
    exact ⟨fun hl ha => CalculatePNew_below_minTh avg _ _ _ _ _ _ h1 ha
        (lt_of_lt_of_le one_pos hl),
      fun hl ha => CalculatePNew_below_minTh avg _ _ _ _ _ _ h2 ha
        (lt_of_lt_of_le one_pos hl)⟩
  · intro s hinit hfa
    obtain ⟨rfl, h1, h2⟩ := InitializeParamsR_some fl64 expF cfg s hinit
    generalize defaultThresholdsR fl64 cfg = t at h1 h2 ⊢
    rw [queueWeightR_eq, coefficientsOutR_eq, coefficientsInR_eq]
    simp only [resetRuntime]
    exact ⟨fun hl ha h0 hfm hr _ =>
        CalculatePNewR_fl64_below_minTh avg _ _ _ _ _ _ h1 h0 ha hl hfa hfm hr,
      fun hl ha h0 hfm hr _ =>
        CalculatePNewR_fl64_below_minTh avg _ _ _ _ _ _ h2 h0 ha hl hfa hfm hr⟩

/-- C10 (amended), at the attribute defaults (Out thresholds 5 and 15, `LIntermOut` 50)
with the average 0, in exact arithmetic and in the arithmetic of `double`: the result is
the value of the last branch and is at most 0. -/
theorem C10_below_minTh_unclamped_witness :
    InitializeParams id (createInternalQueue defaults) = some initDefaults
    ∧ InitializeParamsR fl64 id (createInternalQueue defaults) = some initDefaultsDouble
    ∧ (1 : ℚ) ≤ initDefaults.m_lIntermOut ∧ (0 : ℚ) < initDefaults.m_minThOut
    ∧ CalculatePNew 0 initDefaults.m_maxThOut initDefaults.m_isGentleOut initDefaults.m_vAOut
        initDefaults.m_vBOut initDefaults.m_vCOut initDefaults.m_vDOut
        initDefaults.m_curMaxPOut
      = (initDefaults.m_vAOut * 0 + initDefaults.m_vBOut) * initDefaults.m_curMaxPOut
    ∧ CalculatePNew 0 initDefaults.m_maxThOut initDefaults.m_isGentleOut initDefaults.m_vAOut
        initDefaults.m_vBOut initDefaults.m_vCOut initDefaults.m_vDOut
        initDefaults.m_curMaxPOut ≤ 0
    ∧ CalculatePNewR fl64 0 initDefaultsDouble.m_maxThOut initDefaultsDouble.m_isGentleOut
        initDefaultsDouble.m_vAOut initDefaultsDouble.m_vBOut initDefaultsDouble.m_vCOut
        initDefaultsDouble.m_vDOut initDefaultsDouble.m_curMaxPOut ≤ 0 :=
  ⟨by decide!, by decide!, by decide!, by decide!,
    (((C10_below_minTh_unclamped id (createInternalQueue defaults) 0).1 initDefaults
      (by decide!)).2 (by decide!) (by decide!)).1,
    (((C10_below_minTh_unclamped id (createInternalQueue defaults) 0).1 initDefaults
      (by decide!)).2 (by decide!) (by decide!)).2,
    (((C10_below_minTh_unclamped id (createInternalQueue defaults) 0).2 initDefaultsDouble
      (by decide!) (by decide!)).2 (by decide!) (by decide!) (by decide!) (by decide!)
      (by decide!) (Or.inr (by decide!))).2⟩

/-- In exact arithmetic (the rounding of `double` set aside): between the thresholds
`CalculatePNew` with the derived coefficients is the linear ramp from 0 at `minTh` towards
`1 / l` at `maxTh`. -/
theorem CalculatePNew_linear (avg minTh maxTh : ℚ) (g : Bool) (vC vD l : ℚ)
    (h : minTh < maxTh) (hl : 1 ≤ l) (h1 : minTh ≤ avg) (h2 : avg < maxTh) :
    CalculatePNew avg maxTh g
        (1 / (if maxTh - minTh = 0 then 1 else maxTh - minTh))
        (- minTh / (if maxTh - minTh = 0 then 1 else maxTh - minTh)) vC vD (1 / l)
      = (1 / l) * (avg - minTh) / (maxTh - minTh)
    ∧ 0 ≤ (1 / l) * (avg - minTh) / (maxTh - minTh)
    ∧ (1 / l) * (avg - minTh) / (maxTh - minTh) < 1 / l := by
  have hd : (0 : ℚ) < maxTh - minTh := sub_pos.mpr h
  have hd0 : ¬ maxTh - minTh = 0 := ne_of_gt hd
  have hlpos : 0 < l := lt_of_lt_of_le one_pos hl
  have hp : 0 < 1 / l := one_div_pos.mpr hlpos
  have hp1 : 1 / l ≤ 1 := by
    rw [div_le_one hlpos]
    exact hl
  have hnot : ¬ avg ≥ maxTh := not_le.mpr h2
  have hval : (1 / (maxTh - minTh) * avg + - minTh / (maxTh - minTh)) * (1 / l)
      = (1 / l) * (avg - minTh) / (maxTh - minTh) := by
    field_simp
    ring
  have hfrac0 : 0 ≤ (avg - minTh) / (maxTh - minTh) :=
    div_nonneg (sub_nonneg.mpr h1) (le_of_lt hd)
  have hfrac1 : (avg - minTh) / (maxTh - minTh) < 1 := by
    rw [div_lt_one hd]
    linarith
  have e : (1 / l) * (avg - minTh) / (maxTh - minTh)
      = (1 / l) * ((avg - minTh) / (maxTh - minTh)) := by ring
  have hlt : (1 / l) * (avg - minTh) / (maxTh - minTh) < 1 / l := by
    rw [e]
    nlinarith
  have hge : 0 ≤ (1 / l) * (avg - minTh) / (maxTh - minTh) := by
    rw [e]
    exact mul_nonneg (le_of_lt hp) hfrac0
  refine ⟨?_, hge, hlt⟩
  rw [CalculatePNew_eq_min]
  simp only [hd0, if_false, hnot, and_false]
  rw [hval]
  exact min_eq_left (by linarith)

/-- In exact arithmetic the linear ramp comes as close to `1 / l` as wanted below the
maximum threshold. -/
theorem linear_ramp_limit (minTh maxTh l ε : ℚ) (h : minTh < maxTh) (hl : 1 ≤ l)
    (hε : 0 < ε) :
    ∃ δ : ℚ, 0 < δ ∧ ∀ avg : ℚ, maxTh - δ < avg → avg < maxTh →
      1 / l - (1 / l) * (avg - minTh) / (maxTh - minTh) < ε := by
  have hd : (0 : ℚ) < maxTh - minTh := sub_pos.mpr h
  have hlpos : 0 < l := lt_of_lt_of_le one_pos hl
  have hp : 0 < 1 / l := one_div_pos.mpr hlpos
  refine ⟨ε * (maxTh - minTh) * l, by positivity, ?_⟩
  intro avg ha _
  have hy : (maxTh - avg) / (maxTh - minTh) < ε * l := by
    rw [div_lt_iff₀ hd]
    linarith
  have hx : (avg - minTh) / (maxTh - minTh) = 1 - (maxTh - avg) / (maxTh - minTh) := by
    rw [eq_sub_iff_add_eq, ← add_div, div_eq_one_iff_eq (ne_of_gt hd)]
    ring
  have hyl : (1 / l) * ((maxTh - avg) / (maxTh - minTh)) < ε := by
    rw [one_div, inv_mul_lt_iff₀ hlpos]
    linarith
  have e : 1 / l - (1 / l) * (avg - minTh) / (maxTh - minTh)
      = (1 / l) * ((maxTh - avg) / (maxTh - minTh)) := by
    rw [mul_div_assoc, hx]
    ring
  rw [e]
  exact hyl

/-- In exact arithmetic (the rounding of `double` set aside): in gentle mode, from the
maximum threshold to twice the maximum threshold, `CalculatePNew` with the derived
coefficients is the ramp from `1 / l` to 1. -/
theorem CalculatePNew_gentle_ramp (avg maxTh l vA vB : ℚ)
    (hl : 1 ≤ l) (hm : 0 < maxTh) (h1 : maxTh ≤ avg) (h2 : avg ≤ 2 * maxTh) :
    CalculatePNew avg maxTh true vA vB ((1 - 1 / l) / maxTh) (2 * (1 / l) - 1) (1 / l)
      = 1 / l + (1 - 1 / l) * (avg - maxTh) / maxTh := by
  have hlpos : 0 < l := lt_of_lt_of_le one_pos hl
  have hmp1 : 1 / l ≤ 1 := by
    rw [div_le_one hlpos]
    exact hl
  have hge : avg ≥ maxTh := h1
  have hval : (1 - 1 / l) / maxTh * avg + (2 * (1 / l) - 1)
      = 1 / l + (1 - 1 / l) * (avg - maxTh) / maxTh := by
    field_simp
    ring
  have hfrac : (avg - maxTh) / maxTh ≤ 1 := by
    rw [div_le_one hm]
    linarith
  have e : (1 - 1 / l) * (avg - maxTh) / maxTh = (1 - 1 / l) * ((avg - maxTh) / maxTh) := by
    ring
  have hle : 1 / l + (1 - 1 / l) * (avg - maxTh) / maxTh ≤ 1 := by
    rw [e]
    nlinarith
  rw [CalculatePNew_eq_min]
  simp only [hge, and_self, if_true]
  rw [hval]
  exact min_eq_left hle

/-- Without the gentle ramp `CalculatePNew` is 1 at and above the maximum threshold,
whatever the coefficients. -/
theorem CalculatePNew_not_gentle (avg maxTh vA vB vC vD maxP : ℚ) (h : maxTh ≤ avg) :
    CalculatePNew avg maxTh false vA vB vC vD maxP = 1 := by
  have hge : avg ≥ maxTh := h
  rw [CalculatePNew_eq_min]
  simp only [Bool.false_eq_true, false_and, if_false, hge, and_self, if_true, min_self]

/-- C33: `InitializeParams` returns a state whenever the thresholds after the
default-threshold substitution are ordered, and in the state it returns, for each class,
with `d = maxTh - minTh` when that difference is not zero and `d = 1` when it is:
`vA = 1 / d`, `vB = - minTh / d`, `curMaxP = 1 / lInterm`, and, when the gentle flag of the
class is set, `vC = (1 - curMaxP) / maxTh` and `vD = 2 * curMaxP - 1`; the thresholds are
the ones after the default-threshold substitution, and `lInterm` and the gentle flags are
the configured ones. -/
theorem C33_coefficient_derivation (expF : ℚ → ℚ) (cfg : RioQueueDisc) :
    ((defaultThresholds cfg).m_minThIn ≤ (defaultThresholds cfg).m_maxThIn →
      (defaultThresholds cfg).m_minThOut ≤ (defaultThresholds cfg).m_maxThOut →
      (InitializeParams expF cfg).isSome = true)
    ∧ (∀ s : RioQueueDisc, InitializeParams expF cfg = some s →
        (s.m_minThIn = (defaultThresholds cfg).m_minThIn
          ∧ s.m_maxThIn = (defaultThresholds cfg).m_maxThIn
          ∧ s.m_lIntermIn = cfg.m_lIntermIn ∧ s.m_isGentleIn = cfg.m_isGentleIn
          ∧ s.m_vAIn
              = 1 / (if s.m_maxThIn - s.m_minThIn = 0 then 1 else s.m_maxThIn - s.m_minThIn)
          ∧ s.m_vBIn = - s.m_minThIn
              / (if s.m_maxThIn - s.m_minThIn = 0 then 1 else s.m_maxThIn - s.m_minThIn)
          ∧ s.m_curMaxPIn = 1 / s.m_lIntermIn
          ∧ (s.m_isGentleIn = true →
              s.m_vCIn = (1 - s.m_curMaxPIn) / s.m_maxThIn
              ∧ s.m_vDIn = 2 * s.m_curMaxPIn - 1))
        ∧ (s.m_minThOut = (defaultThresholds cfg).m_minThOut
          ∧ s.m_maxThOut = (defaultThresholds cfg).m_maxThOut
          ∧ s.m_lIntermOut = cfg.m_lIntermOut ∧ s.m_isGentleOut = cfg.m_isGentleOut
          ∧ s.m_vAOut
              = 1 / (if s.m_maxThOut - s.m_minThOut = 0 then 1
                     else s.m_maxThOut - s.m_minThOut)
          ∧ s.m_vBOut = - s.m_minThOut
              / (if s.m_maxThOut - s.m_minThOut = 0 then 1 else s.m_maxThOut - s.m_minThOut)
          ∧ s.m_curMaxPOut = 1 / s.m_lIntermOut
          ∧ (s.m_isGentleOut = true →
              s.m_vCOut = (1 - s.m_curMaxPOut) / s.m_maxThOut
              ∧ s.m_vDOut = 2 * s.m_curMaxPOut - 1))) := by
  constructor
  · intro h1 h2
    exact (InitializeParams_isSome_iff expF cfg).mpr ⟨h1, h2⟩
  · intro s h
    obtain ⟨rfl, _, _⟩ := InitializeParams_some expF cfg s h
    have a1 : (defaultThresholds cfg).m_lIntermIn = cfg.m_lIntermIn := by
      rw [defaultThresholds_eq]
    have a2 : (defaultThresholds cfg).m_isGentleIn = cfg.m_isGentleIn := by
      rw [defaultThresholds_eq]
    have a3 : (defaultThresholds cfg).m_lIntermOut = cfg.m_lIntermOut := by
      rw [defaultThresholds_eq]
    have a4 : (defaultThresholds cfg).m_isGentleOut = cfg.m_isGentleOut := by
      rw [defaultThresholds_eq]
    generalize defaultThresholds cfg = t at a1 a2 a3 a4 ⊢
    rw [queueWeight_eq, coefficientsOut_eq, coefficientsIn_eq]
    refine ⟨⟨rfl, rfl, a1, a2, rfl, rfl, rfl, fun hg => ?_⟩,
      ⟨rfl, rfl, a3, a4, rfl, rfl, rfl, fun hg => ?_⟩⟩
    · exact ⟨if_pos hg, if_pos hg⟩
    · exact ⟨if_pos hg, if_pos hg⟩

/-- C33 at the attribute defaults: the coefficients of the Out class for the thresholds 5
and 15 and `LIntermOut` 50. -/
theorem C33_coefficient_derivation_witness :
    InitializeParams id (createInternalQueue defaults) = some initDefaults
    ∧ initDefaults.m_isGentleOut = true
    ∧ initDefaults.m_vAOut = 1 / 10 ∧ initDefaults.m_vBOut = -1 / 2
    ∧ initDefaults.m_curMaxPOut = 1 / 50
    ∧ initDefaults.m_vCOut = (1 - initDefaults.m_curMaxPOut) / initDefaults.m_maxThOut
    ∧ initDefaults.m_vDOut = 2 * initDefaults.m_curMaxPOut - 1 :=
  ⟨by decide!, by decide!, by decide!, by decide!, by decide!,
   (((C33_coefficient_derivation id (createInternalQueue defaults)).2 initDefaults
      (by decide!)).2.2.2.2.2.2.2.2 (by decide!)).1,
   (((C33_coefficient_derivation id (createInternalQueue defaults)).2 initDefaults
      (by decide!)).2.2.2.2.2.2.2.2 (by decide!)).2⟩

/-! ### The In state under an Out arrival -/

/-- An Out arrival leaves the members of the In class as they were. -/
theorem DoEnqueue_out_frame (uv : Nat → ℚ) (now : Int) (item : QueueDiscItem)
    (s : RioQueueDisc) (hflow : (enqueueCommon now item s).2.2.m_flow = 0) :
    (DoEnqueue uv now item s).2.m_qAvgIn = s.m_qAvgIn
    ∧ (DoEnqueue uv now item s).2.m_countIn = s.m_countIn
    ∧ (DoEnqueue uv now item s).2.m_countBytesIn = s.m_countBytesIn
    ∧ (DoEnqueue uv now item s).2.m_oldIn = s.m_oldIn
    ∧ (DoEnqueue uv now item s).2.m_idleIn = s.m_idleIn
    ∧ (DoEnqueue uv now item s).2.m_vProbIn = s.m_vProbIn
    ∧ (DoEnqueue uv now item s).2.m_vProb1In = s.m_vProb1In
    ∧ (DoEnqueue uv now item s).2.inlen = s.inlen
    ∧ (DoEnqueue uv now item s).2.inbcount = s.inbcount := by
  have e : (DoEnqueue uv now item s).2
      = (applyOut (dropLogicOut uv item (GetQueueSize s) (talliedOut now item s)).1 item
          (dropLogicOut uv item (GetQueueSize s) (talliedOut now item s)).2).2 := by
    rw [DoEnqueue_eq, if_neg (not_not.mpr hflow), enqueueVerdict_out uv now item s hflow]
  rw [e]
  refine ⟨?_, ?_, ?_, ?_, ?_, ?_, ?_, ?_, ?_⟩
  all_goals rw [applyOut_state, dropLogicOut_state, talliedOut_state]

/-- The In average after `DoEnqueue`: the updated one for an In arrival, the previous one
for an Out arrival. -/
theorem DoEnqueue_qAvgIn (uv : Nat → ℚ) (now : Int) (item : QueueDiscItem)
    (s : RioQueueDisc) :
    (DoEnqueue uv now item s).2.m_qAvgIn
      = if (enqueueCommon now item s).2.2.m_flow ≠ 0 then updatedAvgIn now item s
        else s.m_qAvgIn := by
  by_cases hf : (enqueueCommon now item s).2.2.m_flow ≠ 0
  · rw [if_pos hf, DoEnqueue_eq, if_pos hf, applyIn_state,
      enqueueVerdict_in uv now item s hf, dropLogicIn_state]
    rfl
  · rw [if_neg hf]
    exact (DoEnqueue_out_frame uv now item s (not_not.mp hf)).1

/-- The class that `DoEnqueue` leaves in `m_flow` is the one it branched on. -/
theorem DoEnqueue_flow (uv : Nat → ℚ) (now : Int) (item : QueueDiscItem)
    (s : RioQueueDisc) :
    (DoEnqueue uv now item s).2.m_flow = (enqueueCommon now item s).2.2.m_flow := by
  by_cases hf : (enqueueCommon now item s).2.2.m_flow ≠ 0
  · rw [DoEnqueue_eq, if_pos hf, applyIn_state, enqueueVerdict_in uv now item s hf,
      dropLogicIn_state, talliedIn_state]
  · rw [DoEnqueue_eq, if_neg hf, applyOut_state,
      enqueueVerdict_out uv now item s (not_not.mp hf), dropLogicOut_state,
      talliedOut_state]

/-- C34: a `DoEnqueue` of a packet classified Out leaves the In state as it was, whatever
the verdict: the In average, `m_countIn`, `m_countBytesIn`, the flag `m_oldIn`, the In
idle flag, the In probability trackers `m_vProbIn` and `m_vProb1In`, and the In occupancy
`inlen` and `inbcount` are the same after the call as before. For a packet classified In
the In average after the call is `Estimator` applied to the In occupancy before the
arrival. -/
theorem C34_out_leaves_in_state (uv : Nat → ℚ) (now : Int) (item : QueueDiscItem)
    (s : RioQueueDisc) :
    ((enqueueCommon now item s).2.2.m_flow = 0 →
      (DoEnqueue uv now item s).2.m_qAvgIn = s.m_qAvgIn
      ∧ (DoEnqueue uv now item s).2.m_countIn = s.m_countIn
      ∧ (DoEnqueue uv now item s).2.m_countBytesIn = s.m_countBytesIn
      ∧ (DoEnqueue uv now item s).2.m_oldIn = s.m_oldIn
      ∧ (DoEnqueue uv now item s).2.m_idleIn = s.m_idleIn
      ∧ (DoEnqueue uv now item s).2.m_vProbIn = s.m_vProbIn
      ∧ (DoEnqueue uv now item s).2.m_vProb1In = s.m_vProb1In
      ∧ (DoEnqueue uv now item s).2.inlen = s.inlen
      ∧ (DoEnqueue uv now item s).2.inbcount = s.inbcount)
    ∧ ((enqueueCommon now item s).2.2.m_flow ≠ 0 →
      (DoEnqueue uv now item s).2.m_qAvgIn
        = Estimator (inOccupancy s) (virtualArrivals s.m_idleIn now s) s.m_qAvgIn
            s.m_qW) := by
  refine ⟨DoEnqueue_out_frame uv now item s, fun hf => ?_⟩
  rw [DoEnqueue_qAvgIn, if_pos hf, updatedAvgIn_eq]

/-- C34 on `engineInEarly` (In average 20, five In packets counted in `inlen`): an Out
packet leaves the In average and the In occupancy as they were. -/
theorem C34_out_leaves_in_state_witness :
    (enqueueCommon 0 (outPacket 9 500) engineInEarly).2.2.m_flow = 0
    ∧ engineInEarly.m_qAvgIn = 20 ∧ engineInEarly.inlen = 5
    ∧ (DoEnqueue (constStream 0) 0 (outPacket 9 500) engineInEarly).2.m_qAvgIn
        = engineInEarly.m_qAvgIn
    ∧ (DoEnqueue (constStream 0) 0 (outPacket 9 500) engineInEarly).2.inlen
        = engineInEarly.inlen :=
  ⟨by decide!, by decide!, by decide!,
   ((C34_out_leaves_in_state (constStream 0) 0 (outPacket 9 500) engineInEarly).1
      (by decide!)).1,
   ((C34_out_leaves_in_state (constStream 0) 0 (outPacket 9 500) engineInEarly).1
      (by decide!)).2.2.2.2.2.2.2.1⟩

/-! ### The range of the averages -/

/-- In exact arithmetic (the rounding of `double` set aside): for a weight in `[0, 1]`,
a previous average that is not negative and at least one virtual arrival the estimate is
at most the larger of the previous average and the occupancy. -/
theorem Estimator_le_max (n m : Nat) (qAvg qW : ℚ) (h0 : 0 ≤ qW) (h1 : qW ≤ 1)
    (ha : 0 ≤ qAvg) (hm : 1 ≤ m) : Estimator n m qAvg qW ≤ max qAvg (n : ℚ) := by
  unfold Estimator
  simp only []
  have hq0 : 0 ≤ 1 - qW := by linarith
  have hq1 : 1 - qW ≤ 1 := by linarith
  have hp : (1 - qW) ^ m ≤ 1 - qW := by
    have := pow_le_pow_of_le_one hq0 hq1 hm
    simpa using this
  have hA : qAvg ≤ max qAvg (n : ℚ) := le_max_left _ _
  have hN : (n : ℚ) ≤ max qAvg (n : ℚ) := le_max_right _ _
  have t1 : qAvg * (1 - qW) ^ m ≤ qAvg * (1 - qW) := mul_le_mul_of_nonneg_left hp ha
  have t2 : qAvg * (1 - qW) ≤ max qAvg (n : ℚ) * (1 - qW) :=
    mul_le_mul_of_nonneg_right hA hq0
  have t3 : qW * (n : ℚ) ≤ qW * max qAvg (n : ℚ) := mul_le_mul_of_nonneg_left hN h0
  nlinarith

/-- In the arithmetic of `double` the estimate can exceed both the previous average and
the occupancy: with the occupancy 13, one virtual arrival, the previous average 13 and
the weight `0.1` (the nearest `double`) the result is `13 + 2 ^ (-49)`, about
`13.000000000000002`. -/
theorem EstimatorR_above_max :
    EstimatorR fl64 13 1 13 (fl64 (1 / 10)) = 13 + 1 / 2 ^ 49
    ∧ max (13 : ℚ) ((13 : Nat) : ℚ) < EstimatorR fl64 13 1 13 (fl64 (1 / 10)) := by
  decide!

/-- With the priority method 1 the class of an arrival is the answer of the classifier;
with another value it is the stored flow. -/
theorem enqueueCommon_flow_method (now : Int) (item : QueueDiscItem) (s : RioQueueDisc) :
    (s.m_priorityMethod = 1 → (enqueueCommon now item s).2.2.m_flow = Classify item)
    ∧ (s.m_priorityMethod ≠ 1 → (enqueueCommon now item s).2.2.m_flow = s.m_flow) := by
  unfold enqueueCommon
  constructor
  · intro hp
    simp only [hp, if_true]
  · intro hp
    simp only [hp, if_false]

/-- One call leaves the priority method as it was. -/
theorem step_priorityMethod (uv : Nat → ℚ) (s : RioQueueDisc) (ev : Event) :
    (step uv s ev).m_priorityMethod = s.m_priorityMethod := by
  cases ev with
  | enqueue now item =>
    show (DoEnqueue uv now item s).2.m_priorityMethod = s.m_priorityMethod
    rw [DoEnqueue_state]
  | dequeue now =>
    show (DoDequeue now s).2.m_priorityMethod = s.m_priorityMethod
    cases hq : s.queue.items with
    | nil =>
      have he : s.queue.IsEmpty = true := by
        unfold InternalQueue.IsEmpty
        rw [hq]
        rfl
      rw [DoDequeue_empty now s he]
    | cons x rest =>
      rw [DoDequeue_head now s x rest hq]
      split_ifs <;> rfl
  | peek => rfl

/-- A sequence of calls leaves the priority method as it was. -/
theorem run_priorityMethod (uv : Nat → ℚ) (evs : List Event) :
    ∀ s : RioQueueDisc, (run uv s evs).m_priorityMethod = s.m_priorityMethod := by
  induction evs with
  | nil => intro s; rfl
  | cons ev rest ih =>
    intro s
    show (run uv (step uv s ev) rest).m_priorityMethod = s.m_priorityMethod
    rw [ih, step_priorityMethod]

/-- The priority method is 1 after a successful initialization. -/
theorem InitializeParams_priorityMethod (expF : ℚ → ℚ) (cfg s : RioQueueDisc)
    (h : InitializeParams expF cfg = some s) : s.m_priorityMethod = 1 := by
  obtain ⟨rfl, _, _⟩ := InitializeParams_some expF cfg s h
  rw [queueWeight_eq, coefficientsOut_eq, coefficientsIn_eq]
  rfl

/-- C36: whatever priority method was set with `SetPriorityMethod` before, it has no
effect on whether `InitializeParams` returns a state, and in the state returned the
priority method is 1; it stays 1 under every sequence of `Enqueue`, `Dequeue` and `Peek`
calls, so that every such `Enqueue` takes the class of the packet from the classifier
(and leaves it in `m_flow`). With a priority method other than 1 the class would be the
stored flow. -/
theorem C36_priority_method_reset (expF : ℚ → ℚ) (cfg : RioQueueDisc) (pri : Nat) :
    (InitializeParams expF (SetPriorityMethod pri cfg)).isSome
      = (InitializeParams expF cfg).isSome
    ∧ (∀ s0 : RioQueueDisc, InitializeParams expF (SetPriorityMethod pri cfg) = some s0 →
        s0.m_priorityMethod = 1
        ∧ ∀ (uv : Nat → ℚ) (evs : List Event) (now : Int) (item : QueueDiscItem),
            (run uv s0 evs).m_priorityMethod = 1
            ∧ (enqueueCommon now item (run uv s0 evs)).2.2.m_flow = Classify item
            ∧ (DoEnqueue uv now item (run uv s0 evs)).2.m_flow = Classify item)
    ∧ (∀ (now : Int) (item : QueueDiscItem) (s : RioQueueDisc), s.m_priorityMethod ≠ 1 →
        (enqueueCommon now item s).2.2.m_flow = s.m_flow) := by
  refine ⟨?_, ?_, fun now item s hp => (enqueueCommon_flow_method now item s).2 hp⟩
  · rw [Bool.eq_iff_iff, InitializeParams_isSome_iff, InitializeParams_isSome_iff]
    obtain ⟨f1, f2, f3, f4⟩ := defaultThresholds_fields cfg
    obtain ⟨g1, g2, g3, g4⟩ := defaultThresholds_fields (SetPriorityMethod pri cfg)
    rw [f1, f2, f3, f4, g1, g2, g3, g4]
    rfl
  · intro s0 h
    have hp := InitializeParams_priorityMethod expF _ s0 h
    refine ⟨hp, fun uv evs now item => ?_⟩
    have hr : (run uv s0 evs).m_priorityMethod = 1 := by
      rw [run_priorityMethod, hp]
    have hf := (enqueueCommon_flow_method now item (run uv s0 evs)).1 hr
    exact ⟨hr, hf, by rw [DoEnqueue_flow, hf]⟩

/-- C36 at the attribute defaults with the priority method set to 0 before the
initialization: the state returned is the one of the attribute defaults, with the
priority method 1, and an In packet that arrives after an Out packet is classified
In. -/
theorem C36_priority_method_reset_witness :
    (SetPriorityMethod 0 (createInternalQueue defaults)).m_priorityMethod = 0
    ∧ InitializeParams id (SetPriorityMethod 0 (createInternalQueue defaults))
        = some initDefaults
    ∧ initDefaults.m_priorityMethod = 1
    ∧ (DoEnqueue (constStream 0) 0 (inPacket 2 100)
        (run (constStream 0) initDefaults [Event.enqueue 0 (outPacket 1 100)])).2.m_flow
        = Classify (inPacket 2 100) :=
  ⟨by decide!, by decide!,
   ((C36_priority_method_reset id (createInternalQueue defaults) 0).2.1 initDefaults
      (by decide!)).1,
   (((C36_priority_method_reset id (createInternalQueue defaults) 0).2.1 initDefaults
      (by decide!)).2 (constStream 0) [Event.enqueue 0 (outPacket 1 100)] 0
      (inPacket 2 100)).2.2⟩

/-! ### The counters of a class after a forced drop -/

/-- The test of the queue limit keeps the state that the RED part of the In class
returns. -/
theorem dropLogicIn_snd (uv : Nat → ℚ) (item : QueueDiscItem) (qLen qLenIn : Nat)
    (s : RioQueueDisc) :
    (dropLogicIn uv item qLen qLenIn s).2 = (redLogicIn uv item qLen qLenIn s).2 := by
  unfold dropLogicIn
  simp only []
  split_ifs <;> rfl

/-- The test of the queue limit keeps the state that the RED part of the Out class
returns. -/
theorem dropLogicOut_snd (uv : Nat → ℚ) (item : QueueDiscItem) (qLen : Nat)
    (s : RioQueueDisc) :
    (dropLogicOut uv item qLen s).2 = (redLogicOut uv item qLen s).2 := by
  unfold dropLogicOut
  simp only []
  split_ifs <;> rfl

/-- The In counters after `DropInEarly`: zero when the draw is at most the probability,
unchanged otherwise. -/
theorem DropInEarly_counters (uv : Nat → ℚ) (item : QueueDiscItem) (qSize : Nat)
    (x : RioQueueDisc) :
    (uv x.uvPos ≤ ModifyP x.m_mode
        (CalculatePNew x.m_qAvgIn x.m_maxThIn x.m_isGentleIn x.m_vAIn x.m_vBIn x.m_vCIn
          x.m_vDIn x.m_curMaxPIn)
        x.m_countIn x.m_countBytesIn x.m_meanPktSize x.m_isWait item.size →
      (DropInEarly uv item qSize x).2.m_countIn = 0
      ∧ (DropInEarly uv item qSize x).2.m_countBytesIn = 0)
    ∧ (¬ uv x.uvPos ≤ ModifyP x.m_mode
        (CalculatePNew x.m_qAvgIn x.m_maxThIn x.m_isGentleIn x.m_vAIn x.m_vBIn x.m_vCIn
          x.m_vDIn x.m_curMaxPIn)
        x.m_countIn x.m_countBytesIn x.m_meanPktSize x.m_isWait item.size →
      (DropInEarly uv item qSize x).2.m_countIn = x.m_countIn
      ∧ (DropInEarly uv item qSize x).2.m_countBytesIn = x.m_countBytesIn) := by
  unfold DropInEarly
  by_cases h : uv x.uvPos ≤ ModifyP x.m_mode
        (CalculatePNew x.m_qAvgIn x.m_maxThIn x.m_isGentleIn x.m_vAIn x.m_vBIn x.m_vCIn
          x.m_vDIn x.m_curMaxPIn)
        x.m_countIn x.m_countBytesIn x.m_meanPktSize x.m_isWait item.size
  · simp [h]
  · simp [h]

/-- The Out counters after `DropOutEarly`: zero when the draw is at most the probability,
unchanged otherwise. -/
theorem DropOutEarly_counters (uv : Nat → ℚ) (item : QueueDiscItem) (qSize : Nat)
    (x : RioQueueDisc) :
    (uv x.uvPos ≤ ModifyP x.m_mode
        (CalculatePNew x.m_qAvg x.m_maxThOut x.m_isGentleOut x.m_vAOut x.m_vBOut x.m_vCOut
          x.m_vDOut x.m_curMaxPOut)
        x.m_countOut x.m_countBytesOut x.m_meanPktSize x.m_isWait item.size →
      (DropOutEarly uv item qSize x).2.m_countOut = 0
      ∧ (DropOutEarly uv item qSize x).2.m_countBytesOut = 0)
    ∧ (¬ uv x.uvPos ≤ ModifyP x.m_mode
        (CalculatePNew x.m_qAvg x.m_maxThOut x.m_isGentleOut x.m_vAOut x.m_vBOut x.m_vCOut
          x.m_vDOut x.m_curMaxPOut)
        x.m_countOut x.m_countBytesOut x.m_meanPktSize x.m_isWait item.size →
      (DropOutEarly uv item qSize x).2.m_countOut = x.m_countOut
      ∧ (DropOutEarly uv item qSize x).2.m_countBytesOut = x.m_countBytesOut) := by
  unfold DropOutEarly
  by_cases h : uv x.uvPos ≤ ModifyP x.m_mode
        (CalculatePNew x.m_qAvg x.m_maxThOut x.m_isGentleOut x.m_vAOut x.m_vBOut x.m_vCOut
          x.m_vDOut x.m_curMaxPOut)
        x.m_countOut x.m_countBytesOut x.m_meanPktSize x.m_isWait item.size
  · simp [h]
  · simp [h]

/-- The In counters after the RED part of the drop logic: unchanged when the RED test
fails or the average forces the drop, 1 and the packet size on the first packet above the
minimum threshold, and those of `DropInEarly` on a later one. -/
theorem redLogicIn_counters (uv : Nat → ℚ) (item : QueueDiscItem) (qLen qLenIn : Nat)
    (x : RioQueueDisc) :
    ((¬ (x.m_qAvgIn ≥ x.m_minThIn ∧ qLenIn > 1)
        ∨ forcedByAverage x.m_isGentleIn x.m_qAvgIn x.m_maxThIn) →
      (redLogicIn uv item qLen qLenIn x).2.m_countIn = x.m_countIn
      ∧ (redLogicIn uv item qLen qLenIn x).2.m_countBytesIn = x.m_countBytesIn)
    ∧ (x.m_qAvgIn ≥ x.m_minThIn ∧ qLenIn > 1
        ∧ ¬ forcedByAverage x.m_isGentleIn x.m_qAvgIn x.m_maxThIn →
      (x.m_oldIn = 0 →
        (redLogicIn uv item qLen qLenIn x).2.m_countIn = 1
        ∧ (redLogicIn uv item qLen qLenIn x).2.m_countBytesIn = item.size)
      ∧ (x.m_oldIn ≠ 0 →
        (uv x.uvPos ≤ ModifyP x.m_mode
            (CalculatePNew x.m_qAvgIn x.m_maxThIn x.m_isGentleIn x.m_vAIn x.m_vBIn x.m_vCIn
              x.m_vDIn x.m_curMaxPIn)
            x.m_countIn x.m_countBytesIn x.m_meanPktSize x.m_isWait item.size →
          (redLogicIn uv item qLen qLenIn x).2.m_countIn = 0
          ∧ (redLogicIn uv item qLen qLenIn x).2.m_countBytesIn = 0)
        ∧ (¬ uv x.uvPos ≤ ModifyP x.m_mode
            (CalculatePNew x.m_qAvgIn x.m_maxThIn x.m_isGentleIn x.m_vAIn x.m_vBIn x.m_vCIn
              x.m_vDIn x.m_curMaxPIn)
            x.m_countIn x.m_countBytesIn x.m_meanPktSize x.m_isWait item.size →
          (redLogicIn uv item qLen qLenIn x).2.m_countIn = x.m_countIn
          ∧ (redLogicIn uv item qLen qLenIn x).2.m_countBytesIn = x.m_countBytesIn))) := by
  constructor
  · intro h
    by_cases hc : x.m_qAvgIn ≥ x.m_minThIn ∧ qLenIn > 1
    · have hf : forcedByAverage x.m_isGentleIn x.m_qAvgIn x.m_maxThIn :=
        h.resolve_left (not_not.mpr hc)
      unfold forcedByAverage at hf
      unfold redLogicIn
      rw [if_pos hc, if_pos hf]
      exact ⟨rfl, rfl⟩
    · rw [redLogicIn_quiescent uv item qLen qLenIn x hc]
      exact ⟨rfl, rfl⟩
  · rintro ⟨hmin, hocc, hmax⟩
    constructor
    · intro hold
      rw [redLogicIn_crossing uv item qLen qLenIn x hmin hocc hmax hold]
      exact ⟨rfl, rfl⟩
    · intro hold
      rw [redLogicIn_engaged uv item qLen qLenIn x hmin hocc hmax hold]
      exact DropInEarly_counters uv item qLen x

/-- The Out counters after the RED part of the drop logic: unchanged when the RED test
fails or the average forces the drop, 1 and the packet size on the first packet above the
minimum threshold, and those of `DropOutEarly` on a later one. -/
theorem redLogicOut_counters (uv : Nat → ℚ) (item : QueueDiscItem) (qLen : Nat)
    (x : RioQueueDisc) :
    ((¬ (x.m_qAvg ≥ x.m_minThOut ∧ qLen > 1)
        ∨ forcedByAverage x.m_isGentleOut x.m_qAvg x.m_maxThOut) →
      (redLogicOut uv item qLen x).2.m_countOut = x.m_countOut
      ∧ (redLogicOut uv item qLen x).2.m_countBytesOut = x.m_countBytesOut)
    ∧ (x.m_qAvg ≥ x.m_minThOut ∧ qLen > 1
        ∧ ¬ forcedByAverage x.m_isGentleOut x.m_qAvg x.m_maxThOut →
      (x.m_oldOut = 0 →
        (redLogicOut uv item qLen x).2.m_countOut = 1
        ∧ (redLogicOut uv item qLen x).2.m_countBytesOut = item.size)
      ∧ (x.m_oldOut ≠ 0 →
        (uv x.uvPos ≤ ModifyP x.m_mode
            (CalculatePNew x.m_qAvg x.m_maxThOut x.m_isGentleOut x.m_vAOut x.m_vBOut
              x.m_vCOut x.m_vDOut x.m_curMaxPOut)
            x.m_countOut x.m_countBytesOut x.m_meanPktSize x.m_isWait item.size →
          (redLogicOut uv item qLen x).2.m_countOut = 0
          ∧ (redLogicOut uv item qLen x).2.m_countBytesOut = 0)
        ∧ (¬ uv x.uvPos ≤ ModifyP x.m_mode
            (CalculatePNew x.m_qAvg x.m_maxThOut x.m_isGentleOut x.m_vAOut x.m_vBOut
              x.m_vCOut x.m_vDOut x.m_curMaxPOut)
            x.m_countOut x.m_countBytesOut x.m_meanPktSize x.m_isWait item.size →
          (redLogicOut uv item qLen x).2.m_countOut = x.m_countOut
          ∧ (redLogicOut uv item qLen x).2.m_countBytesOut = x.m_countBytesOut))) := by
  constructor
  · intro h
    by_cases hc : x.m_qAvg ≥ x.m_minThOut ∧ qLen > 1
    · have hf : forcedByAverage x.m_isGentleOut x.m_qAvg x.m_maxThOut :=
        h.resolve_left (not_not.mpr hc)
      unfold forcedByAverage at hf
      unfold redLogicOut
      rw [if_pos hc, if_pos hf]
      exact ⟨rfl, rfl⟩
    · rw [redLogicOut_quiescent uv item qLen x hc]
      exact ⟨rfl, rfl⟩
  · rintro ⟨hmin, hocc, hmax⟩
    constructor
    · intro hold
      rw [redLogicOut_crossing uv item qLen x hmin hocc hmax hold]
      exact ⟨rfl, rfl⟩
    · intro hold
      rw [redLogicOut_engaged uv item qLen x hmin hocc hmax hold]
      exact DropOutEarly_counters uv item qLen x

/-- The In counters at the verdict of an In arrival, in terms of the state before the
call: the incremented values when the RED test fails or the average forces the drop, 1
and the packet size on the first packet above the minimum threshold, and on a later one
zero or the incremented values as the draw decides. -/
theorem enqueueVerdict_in_counters (uv : Nat → ℚ) (now : Int) (item : QueueDiscItem)
    (s : RioQueueDisc) (hflow : (enqueueCommon now item s).2.2.m_flow ≠ 0) :
    ((¬ (updatedAvgIn now item s ≥ s.m_minThIn ∧ inOccupancy s > 1)
        ∨ forcedByAverage s.m_isGentleIn (updatedAvgIn now item s) s.m_maxThIn) →
      (enqueueVerdict uv now item s).2.m_countIn = u32 (s.m_countIn + 1)
      ∧ (enqueueVerdict uv now item s).2.m_countBytesIn = u32 (s.m_countBytesIn + item.size))
    ∧ (updatedAvgIn now item s ≥ s.m_minThIn ∧ inOccupancy s > 1
        ∧ ¬ forcedByAverage s.m_isGentleIn (updatedAvgIn now item s) s.m_maxThIn →
      (s.m_oldIn = 0 →
        (enqueueVerdict uv now item s).2.m_countIn = 1
        ∧ (enqueueVerdict uv now item s).2.m_countBytesIn = item.size)
      ∧ (s.m_oldIn ≠ 0 →
        (uv s.uvPos ≤ ModifyP s.m_mode
            (CalculatePNew (updatedAvgIn now item s) s.m_maxThIn s.m_isGentleIn s.m_vAIn
              s.m_vBIn s.m_vCIn s.m_vDIn s.m_curMaxPIn)
            (u32 (s.m_countIn + 1)) (u32 (s.m_countBytesIn + item.size)) s.m_meanPktSize
            s.m_isWait item.size →
          (enqueueVerdict uv now item s).2.m_countIn = 0
          ∧ (enqueueVerdict uv now item s).2.m_countBytesIn = 0)
        ∧ (¬ uv s.uvPos ≤ ModifyP s.m_mode
            (CalculatePNew (updatedAvgIn now item s) s.m_maxThIn s.m_isGentleIn s.m_vAIn
              s.m_vBIn s.m_vCIn s.m_vDIn s.m_curMaxPIn)
            (u32 (s.m_countIn + 1)) (u32 (s.m_countBytesIn + item.size)) s.m_meanPktSize
            s.m_isWait item.size →
          (enqueueVerdict uv now item s).2.m_countIn = u32 (s.m_countIn + 1)
          ∧ (enqueueVerdict uv now item s).2.m_countBytesIn
              = u32 (s.m_countBytesIn + item.size)))) := by
  have hT := redLogicIn_counters uv item (GetQueueSize s) (inOccupancy s)
    (talliedIn now item s)
  have k1 : (talliedIn now item s).m_qAvgIn = updatedAvgIn now item s := by
    rw [talliedIn_state]
  have k2 : (talliedIn now item s).m_minThIn = s.m_minThIn := by rw [talliedIn_state]
  have k3 : (talliedIn now item s).m_isGentleIn = s.m_isGentleIn := by rw [talliedIn_state]
  have k4 : (talliedIn now item s).m_maxThIn = s.m_maxThIn := by rw [talliedIn_state]
  have k5 : (talliedIn now item s).m_oldIn = s.m_oldIn := by rw [talliedIn_state]
  have k6 : (talliedIn now item s).uvPos = s.uvPos := by rw [talliedIn_state]
  have k7 : (talliedIn now item s).m_mode = s.m_mode := by rw [talliedIn_state]
  have k8 : (talliedIn now item s).m_vAIn = s.m_vAIn := by rw [talliedIn_state]
  have k9 : (talliedIn now item s).m_vBIn = s.m_vBIn := by rw [talliedIn_state]
  have k10 : (talliedIn now item s).m_vCIn = s.m_vCIn := by rw [talliedIn_state]
  have k11 : (talliedIn now item s).m_vDIn = s.m_vDIn := by rw [talliedIn_state]
  have k12 : (talliedIn now item s).m_curMaxPIn = s.m_curMaxPIn := by rw [talliedIn_state]
  have k13 : (talliedIn now item s).m_countIn = u32 (s.m_countIn + 1) := by
    rw [talliedIn_state]
  have k14 : (talliedIn now item s).m_countBytesIn = u32 (s.m_countBytesIn + item.size) := by
    rw [talliedIn_state]
  have k15 : (talliedIn now item s).m_meanPktSize = s.m_meanPktSize := by
    rw [talliedIn_state]
  have k16 : (talliedIn now item s).m_isWait = s.m_isWait := by rw [talliedIn_state]
  rw [k1, k2, k3, k4, k5, k6, k7, k8, k9, k10, k11, k12, k13, k14, k15, k16] at hT
  rw [enqueueVerdict_in uv now item s hflow, dropLogicIn_snd]
  exact hT

/-- The Out counters at the verdict of an Out arrival, in terms of the state before the
call. -/
theorem enqueueVerdict_out_counters (uv : Nat → ℚ) (now : Int) (item : QueueDiscItem)
    (s : RioQueueDisc) (hflow : (enqueueCommon now item s).2.2.m_flow = 0) :
    ((¬ (updatedAvg now item s ≥ s.m_minThOut ∧ GetQueueSize s > 1)
        ∨ forcedByAverage s.m_isGentleOut (updatedAvg now item s) s.m_maxThOut) →
      (enqueueVerdict uv now item s).2.m_countOut = u32 (s.m_countOut + 1)
      ∧ (enqueueVerdict uv now item s).2.m_countBytesOut
          = u32 (s.m_countBytesOut + item.size))
    ∧ (updatedAvg now item s ≥ s.m_minThOut ∧ GetQueueSize s > 1
        ∧ ¬ forcedByAverage s.m_isGentleOut (updatedAvg now item s) s.m_maxThOut →
      (s.m_oldOut = 0 →
        (enqueueVerdict uv now item s).2.m_countOut = 1
        ∧ (enqueueVerdict uv now item s).2.m_countBytesOut = item.size)
      ∧ (s.m_oldOut ≠ 0 →
        (uv s.uvPos ≤ ModifyP s.m_mode
            (CalculatePNew (updatedAvg now item s) s.m_maxThOut s.m_isGentleOut s.m_vAOut
              s.m_vBOut s.m_vCOut s.m_vDOut s.m_curMaxPOut)
            (u32 (s.m_countOut + 1)) (u32 (s.m_countBytesOut + item.size)) s.m_meanPktSize
            s.m_isWait item.size →
          (enqueueVerdict uv now item s).2.m_countOut = 0
          ∧ (enqueueVerdict uv now item s).2.m_countBytesOut = 0)
        ∧ (¬ uv s.uvPos ≤ ModifyP s.m_mode
            (CalculatePNew (updatedAvg now item s) s.m_maxThOut s.m_isGentleOut s.m_vAOut
              s.m_vBOut s.m_vCOut s.m_vDOut s.m_curMaxPOut)
            (u32 (s.m_countOut + 1)) (u32 (s.m_countBytesOut + item.size)) s.m_meanPktSize
            s.m_isWait item.size →
          (enqueueVerdict uv now item s).2.m_countOut = u32 (s.m_countOut + 1)
          ∧ (enqueueVerdict uv now item s).2.m_countBytesOut
              = u32 (s.m_countBytesOut + item.size)))) := by
  have hT := redLogicOut_counters uv item (GetQueueSize s) (talliedOut now item s)
  have k1 : (talliedOut now item s).m_qAvg = updatedAvg now item s := by
    rw [talliedOut_state]
  have k2 : (talliedOut now item s).m_minThOut = s.m_minThOut := by rw [talliedOut_state]
  have k3 : (talliedOut now item s).m_isGentleOut = s.m_isGentleOut := by
    rw [talliedOut_state]
  have k4 : (talliedOut now item s).m_maxThOut = s.m_maxThOut := by rw [talliedOut_state]
  have k5 : (talliedOut now item s).m_oldOut = s.m_oldOut := by rw [talliedOut_state]
  have k6 : (talliedOut now item s).uvPos = s.uvPos := by rw [talliedOut_state]
  have k7 : (talliedOut now item s).m_mode = s.m_mode := by rw [talliedOut_state]
  have k8 : (talliedOut now item s).m_vAOut = s.m_vAOut := by rw [talliedOut_state]
  have k9 : (talliedOut now item s).m_vBOut = s.m_vBOut := by rw [talliedOut_state]
  have k10 : (talliedOut now item s).m_vCOut = s.m_vCOut := by rw [talliedOut_state]
  have k11 : (talliedOut now item s).m_vDOut = s.m_vDOut := by rw [talliedOut_state]
  have k12 : (talliedOut now item s).m_curMaxPOut = s.m_curMaxPOut := by
    rw [talliedOut_state]
  have k13 : (talliedOut now item s).m_countOut = u32 (s.m_countOut + 1) := by
    rw [talliedOut_state]
  have k14 : (talliedOut now item s).m_countBytesOut
      = u32 (s.m_countBytesOut + item.size) := by
    rw [talliedOut_state]
  have k15 : (talliedOut now item s).m_meanPktSize = s.m_meanPktSize := by
    rw [talliedOut_state]
  have k16 : (talliedOut now item s).m_isWait = s.m_isWait := by rw [talliedOut_state]
  rw [k1, k2, k3, k4, k5, k6, k7, k8, k9, k10, k11, k12, k13, k14, k15, k16] at hT
  rw [enqueueVerdict_out uv now item s hflow, dropLogicOut_snd]
  exact hT

/-- C15 (counterexample): on `crossLimitEngine` (queue limit 2, two In packets queued, In
minimum threshold 2, queue weight 1, NS-1 compatibility disabled) the In counters are 2
and 200. A third In packet of 100 bytes raises the In average to 2, the minimum
threshold, for the first time, so the counters are set to 1 and 100; the queue is at its
limit, so the verdict is FORCED and the packet is dropped. After the call the counters are
1 and 100: neither the values before the call nor the incremented values 3 and 300. -/
theorem C15_counterexample :
    (enqueueVerdict (constStream 0) 0 (inPacket 3 100) crossLimitEngine).1 = DTYPE_FORCED
    ∧ crossLimitEngine.m_isNs1Compat = false
    ∧ (DoEnqueue (constStream 0) 0 (inPacket 3 100) crossLimitEngine).1 = false
    ∧ (crossLimitEngine.m_countIn, crossLimitEngine.m_countBytesIn) = (2, 200)
    ∧ ((DoEnqueue (constStream 0) 0 (inPacket 3 100) crossLimitEngine).2.m_countIn,
       (DoEnqueue (constStream 0) 0 (inPacket 3 100) crossLimitEngine).2.m_countBytesIn)
        = (1, 100) := by
  decide!

/-- C15 (amended): when the verdict of `DoEnqueue` is FORCED (either class): if hard drop
is disabled, ECN is enabled and the packet accepts the mark, `forcedMark` is incremented
by one (a `uint32_t` increment) and the packet is handed to the internal queue (the result
and the queue are those of its `Enqueue`); otherwise `forcedDrop` is incremented by one,
`DoEnqueue` returns false and the internal queue is unchanged, and the counters of the
class of the packet (`m_countIn`, `m_countBytesIn` for In, `m_countOut`,
`m_countBytesOut` for Out) are zero if NS-1 compatibility is enabled. If it is disabled
they are what the drop logic of this call left, in terms of the state before the call:
the incremented values (`+ 1` and `+ size`, as `uint32_t`) when the RED test of the class
fails (average below the minimum threshold or occupancy at most 1) or the average itself
forces the drop; 1 and the packet size when the average is seen at or above the minimum
threshold for the first time; and otherwise zero when the draw of the early-drop test is
at most its probability and the incremented values when it is not. -/
theorem C15_forced_verdict (uv : Nat → ℚ) (now : Int) (item : QueueDiscItem)
    (s : RioQueueDisc) (hv : (enqueueVerdict uv now item s).1 = DTYPE_FORCED) :
    (s.m_useHardDrop = false ∧ s.m_useEcn = true ∧ Mark item = true →
      (DoEnqueue uv now item s).2.m_stats.forcedMark = u32 (s.m_stats.forcedMark + 1)
      ∧ (DoEnqueue uv now item s).1 = (s.queue.Enqueue item).1
      ∧ (DoEnqueue uv now item s).2.queue = (s.queue.Enqueue item).2)
    ∧ (¬ (s.m_useHardDrop = false ∧ s.m_useEcn = true ∧ Mark item = true) →
      (DoEnqueue uv now item s).2.m_stats.forcedDrop = u32 (s.m_stats.forcedDrop + 1)
      ∧ (DoEnqueue uv now item s).1 = false
      ∧ (DoEnqueue uv now item s).2.queue = s.queue
      ∧ ((enqueueCommon now item s).2.2.m_flow ≠ 0 →
          (s.m_isNs1Compat = true →
            (DoEnqueue uv now item s).2.m_countIn = 0
            ∧ (DoEnqueue uv now item s).2.m_countBytesIn = 0)
          ∧ (s.m_isNs1Compat = false →
            ((¬ (updatedAvgIn now item s ≥ s.m_minThIn ∧ inOccupancy s > 1)
                ∨ forcedByAverage s.m_isGentleIn (updatedAvgIn now item s) s.m_maxThIn) →
              (DoEnqueue uv now item s).2.m_countIn = u32 (s.m_countIn + 1)
              ∧ (DoEnqueue uv now item s).2.m_countBytesIn
                  = u32 (s.m_countBytesIn + item.size))
            ∧ (updatedAvgIn now item s ≥ s.m_minThIn ∧ inOccupancy s > 1
                ∧ ¬ forcedByAverage s.m_isGentleIn (updatedAvgIn now item s) s.m_maxThIn →
              (s.m_oldIn = 0 →
                (DoEnqueue uv now item s).2.m_countIn = 1
                ∧ (DoEnqueue uv now item s).2.m_countBytesIn = item.size)
              ∧ (s.m_oldIn ≠ 0 →
                (uv s.uvPos ≤ ModifyP s.m_mode
                    (CalculatePNew (updatedAvgIn now item s) s.m_maxThIn s.m_isGentleIn
                      s.m_vAIn s.m_vBIn s.m_vCIn s.m_vDIn s.m_curMaxPIn)
                    (u32 (s.m_countIn + 1)) (u32 (s.m_countBytesIn + item.size))
                    s.m_meanPktSize s.m_isWait item.size →
                  (DoEnqueue uv now item s).2.m_countIn = 0
                  ∧ (DoEnqueue uv now item s).2.m_countBytesIn = 0)
                ∧ (¬ uv s.uvPos ≤ ModifyP s.m_mode
                    (CalculatePNew (updatedAvgIn now item s) s.m_maxThIn s.m_isGentleIn
                      s.m_vAIn s.m_vBIn s.m_vCIn s.m_vDIn s.m_curMaxPIn)
                    (u32 (s.m_countIn + 1)) (u32 (s.m_countBytesIn + item.size))
                    s.m_meanPktSize s.m_isWait item.size →
                  (DoEnqueue uv now item s).2.m_countIn = u32 (s.m_countIn + 1)
                  ∧ (DoEnqueue uv now item s).2.m_countBytesIn
                      = u32 (s.m_countBytesIn + item.size))))))
      ∧ ((enqueueCommon now item s).2.2.m_flow = 0 →
          (s.m_isNs1Compat = true →
            (DoEnqueue uv now item s).2.m_countOut = 0
            ∧ (DoEnqueue uv now item s).2.m_countBytesOut = 0)
          ∧ (s.m_isNs1Compat = false →
            ((¬ (updatedAvg now item s ≥ s.m_minThOut ∧ GetQueueSize s > 1)
                ∨ forcedByAverage s.m_isGentleOut (updatedAvg now item s) s.m_maxThOut) →
              (DoEnqueue uv now item s).2.m_countOut = u32 (s.m_countOut + 1)
              ∧ (DoEnqueue uv now item s).2.m_countBytesOut
                  = u32 (s.m_countBytesOut + item.size))
            ∧ (updatedAvg now item s ≥ s.m_minThOut ∧ GetQueueSize s > 1
                ∧ ¬ forcedByAverage s.m_isGentleOut (updatedAvg now item s) s.m_maxThOut →
              (s.m_oldOut = 0 →
                (DoEnqueue uv now item s).2.m_countOut = 1
                ∧ (DoEnqueue uv now item s).2.m_countBytesOut = item.size)
              ∧ (s.m_oldOut ≠ 0 →
                (uv s.uvPos ≤ ModifyP s.m_mode
                    (CalculatePNew (updatedAvg now item s) s.m_maxThOut s.m_isGentleOut
                      s.m_vAOut s.m_vBOut s.m_vCOut s.m_vDOut s.m_curMaxPOut)
                    (u32 (s.m_countOut + 1)) (u32 (s.m_countBytesOut + item.size))
                    s.m_meanPktSize s.m_isWait item.size →
                  (DoEnqueue uv now item s).2.m_countOut = 0
                  ∧ (DoEnqueue uv now item s).2.m_countBytesOut = 0)
                ∧ (¬ uv s.uvPos ≤ ModifyP s.m_mode
                    (CalculatePNew (updatedAvg now item s) s.m_maxThOut s.m_isGentleOut
                      s.m_vAOut s.m_vBOut s.m_vCOut s.m_vDOut s.m_curMaxPOut)
                    (u32 (s.m_countOut + 1)) (u32 (s.m_countBytesOut + item.size))
                    s.m_meanPktSize s.m_isWait item.size →
                  (DoEnqueue uv now item s).2.m_countOut = u32 (s.m_countOut + 1)
                  ∧ (DoEnqueue uv now item s).2.m_countBytesOut
                      = u32 (s.m_countBytesOut + item.size))))))) := by
  have h1 : (enqueueVerdict uv now item s).2.m_useHardDrop = s.m_useHardDrop := by
    rw [enqueueVerdict_state]
  have h2 : (enqueueVerdict uv now item s).2.m_useEcn = s.m_useEcn := by
    rw [enqueueVerdict_state]
  have h3 : (enqueueVerdict uv now item s).2.m_stats = s.m_stats := by
    rw [enqueueVerdict_state]
  have h4 : (enqueueVerdict uv now item s).2.queue = s.queue := by
    rw [enqueueVerdict_state]
  have h5 : (enqueueVerdict uv now item s).2.m_isNs1Compat = s.m_isNs1Compat := by
    rw [enqueueVerdict_state]
  rw [DoEnqueue_eq, hv]
  by_cases hf : (enqueueCommon now item s).2.2.m_flow ≠ 0
  · rw [if_pos hf]
    have := applyIn_forced item (enqueueVerdict uv now item s).2
    rw [h1, h2, h3, h4, h5] at this
    refine ⟨this.1, fun hc => ?_⟩
    obtain ⟨a, b, c, d, e⟩ := this.2 hc
    refine ⟨a, b, c, fun _ => ⟨d, fun hns => ?_⟩, fun h0 => absurd h0 hf⟩
    rw [(e hns).1, (e hns).2]
    exact enqueueVerdict_in_counters uv now item s hf
  · rw [if_neg hf]
    have := applyOut_forced item (enqueueVerdict uv now item s).2
    rw [h1, h2, h3, h4, h5] at this
    refine ⟨this.1, fun hc => ?_⟩
    obtain ⟨a, b, c, d, e⟩ := this.2 hc
    refine ⟨a, b, c, fun h0 => absurd h0 hf, fun h0 => ⟨d, fun hns => ?_⟩⟩
    rw [(e hns).1, (e hns).2]
    exact enqueueVerdict_out_counters uv now item s h0

/-- C15 (amended) on the full queue of `fullEngine` with an In packet: the verdict is
FORCED, hard drop is enabled and NS-1 compatibility is disabled; the packet is dropped,
and the In average is below the minimum threshold, so the In counters end at their
incremented values. -/
theorem C15_forced_verdict_witness :
    (enqueueVerdict (constStream 0) 0 (inPacket 3 100) fullEngine).1 = DTYPE_FORCED
    ∧ fullEngine.m_isNs1Compat = false
    ∧ ¬ (updatedAvgIn 0 (inPacket 3 100) fullEngine ≥ fullEngine.m_minThIn
          ∧ inOccupancy fullEngine > 1)
    ∧ (DoEnqueue (constStream 0) 0 (inPacket 3 100) fullEngine).2.m_stats.forcedDrop
        = u32 (fullEngine.m_stats.forcedDrop + 1)
    ∧ (DoEnqueue (constStream 0) 0 (inPacket 3 100) fullEngine).1 = false
    ∧ (DoEnqueue (constStream 0) 0 (inPacket 3 100) fullEngine).2.m_countIn
        = u32 (fullEngine.m_countIn + 1) :=
  ⟨by decide!, by decide!, by decide!,
   ((C15_forced_verdict (constStream 0) 0 (inPacket 3 100) fullEngine (by decide!)).2
      (by decide!)).1,
   ((C15_forced_verdict (constStream 0) 0 (inPacket 3 100) fullEngine (by decide!)).2
      (by decide!)).2.1,
   (((((C15_forced_verdict (constStream 0) 0 (inPacket 3 100) fullEngine (by decide!)).2
      (by decide!)).2.2.2.1 (by decide!)).2 (by decide!)).1 (Or.inl (by decide!))).1⟩

end RioQ
